import Mathlib

/-!
# StikMan multiplayer server: lobby state machine

A shallow embedding of `src/server/server.js` (class `GameLobby`, the lobby
registry `lobbies`, the connection directory `players`, the socket event
handlers and the game loop), of the lobby handlers and API methods of
`MultiplayerClient` in `src/client/multiplayer-client.js`, and of
`calculateFinishLinePosition` and `deactivatePowerUp` from `src/script.js`.

Modelling conventions.

* JavaScript numbers are exact rationals (`ℚ`): no rounding, `NaN` or
  infinities.  Division by zero therefore differs from JavaScript; every
  statement about `progress` assumes a non-zero race distance.
* A JavaScript `Map` is an association list in insertion order
  (`mapGet`, `mapSet`, `mapDelete`).  A player object that is mutated in place
  is written back under its key, which keeps its position.
* `Date.now()` and `Math.random()` are inputs of the operation that reads them.
* `null` / `undefined` are `none`.  Truthiness of a nullable number follows
  JavaScript: `null` and `0` are falsy.
* Message payloads are typed records; a payload field of the wrong JavaScript
  type is outside the model.
* `Array.prototype.sort` is a stable sort (ECMAScript 2019); it is modelled by
  stable insertion sort, which for a consistent comparator yields the same
  array as any other stable sort.
* The `leaderboard` array holds references to the roster's player objects; the
  embedding stores the players' values at the moment of the sort.
* Socket.IO rooms, `console.log` and the deferred respawn timer are not
  modelled; emitted messages are returned as a list.
-/

namespace StikMan

/-! ## Game constants (`GAME_CONFIG`) -/

def PLAYER_HEIGHT : ℚ := 40
def GROUND_Y : ℚ := 240
def FINISH_LINE_MULTIPLIER : ℚ := 10
def PVP_DAMAGE : ℚ := 50
def RESPAWN_TIME : ℚ := 2000
def UPDATE_INTERVAL : ℚ := 16

/-! ## JavaScript `Map` in insertion order -/

/-- The value stored under `key`, as `Map.prototype.get`. -/
def mapGet {α : Type} : List (String × α) → String → Option α
  | [], _ => none
  | (k, v) :: m, key => if k = key then some v else mapGet m key

/-- Store `v` under `key`, as `Map.prototype.set`: an existing key keeps its
position, a new key is appended. -/
def mapSet {α : Type} : List (String × α) → String → α → List (String × α)
  | [], key, v => [(key, v)]
  | (k, w) :: m, key, v => if k = key then (k, v) :: m else (k, w) :: mapSet m key v

/-- Remove `key`, as `Map.prototype.delete`. -/
def mapDelete {α : Type} : List (String × α) → String → List (String × α)
  | [], _ => []
  | (k, w) :: m, key => if k = key then mapDelete m key else (k, w) :: mapDelete m key

/-- The values in insertion order, as `Array.from(map.values())`. -/
def mapValues {α : Type} (m : List (String × α)) : List α := m.map Prod.snd

/-- The keys in insertion order, as `Array.from(map.keys())`. -/
def mapKeys {α : Type} (m : List (String × α)) : List String := m.map Prod.fst

/-- JavaScript truthiness of a nullable number. -/
def truthy : Option ℚ → Bool
  | none => false
  | some t => t != 0

/-- Stable sort with a JavaScript comparator: `a` stays before `b` when
`cmp a b ≤ 0`. -/
def jsSort {α : Type} (cmp : α → α → ℚ) (l : List α) : List α :=
  List.insertionSort (fun a b => cmp a b ≤ 0) l

/-! ## Data model -/

/-- The three values of `GameLobby.gameState`. -/
inductive GameState where
  | lobby
  | racing
  | finished
deriving DecidableEq, Repr

/-- The `activePowerUp` record of a player. -/
structure ActivePowerUp where
  type : Option String
  timeLeft : ℚ
deriving DecidableEq, Repr

/-- A player object as built by `addPlayer`; `actualDistanceTraveled` and
`currentSegment` are only created by `updatePlayer`. -/
structure Player where
  id : String
  name : String
  isHost : Bool
  x : ℚ
  y : ℚ
  velY : ℚ
  jumping : Bool
  grounded : Bool
  health : ℚ
  maxHealth : ℚ
  color : String
  progress : ℚ
  score : ℚ
  finishTime : Option ℚ
  activePowerUp : ActivePowerUp
  lastUpdate : ℚ
  actualDistanceTraveled : Option ℚ
  currentSegment : Option ℕ
deriving DecidableEq, Repr

/-- The payload of a `playerUpdate` event: any subset of the player's fields.
`none` means the key is absent from the payload. -/
structure UpdateData where
  id : Option String := none
  name : Option String := none
  isHost : Option Bool := none
  x : Option ℚ := none
  y : Option ℚ := none
  velY : Option ℚ := none
  jumping : Option Bool := none
  grounded : Option Bool := none
  health : Option ℚ := none
  maxHealth : Option ℚ := none
  color : Option String := none
  progress : Option ℚ := none
  score : Option ℚ := none
  finishTime : Option (Option ℚ) := none
  activePowerUp : Option ActivePowerUp := none
  lastUpdate : Option ℚ := none
  actualDistanceTraveled : Option (Option ℚ) := none
  currentSegment : Option (Option ℕ) := none
deriving DecidableEq, Repr

/-- A projectile as built by `addBullet`. -/
structure Bullet where
  id : ℚ
  playerId : String
  x : ℚ
  y : ℚ
  speed : ℚ
  width : ℚ
  height : ℚ
  trail : List (ℚ × ℚ)
deriving DecidableEq, Repr

/-- The payload of a `shoot` event. -/
structure BulletData where
  x : ℚ
  y : ℚ
  speed : Option ℚ
deriving DecidableEq, Repr

/-- An obstacle or a power-up lying in the world. -/
structure WorldObject where
  id : ℚ
  x : ℚ
  y : ℚ
  width : ℚ
  height : ℚ
  type : String
deriving DecidableEq, Repr

/-- The fields of a `GameLobby` instance. -/
structure GameLobby where
  code : String
  hostId : String
  players : List (String × Player)
  gameState : GameState
  raceDistance : ℚ
  gameMode : String
  raceStartTime : Option ℚ
  obstacles : List WorldObject
  powerUps : List WorldObject
  bullets : List Bullet
  playersFinished : ℕ
  leaderboard : List Player
  lastObstacleTime : Option ℚ
  lastPowerUpTime : Option ℚ
deriving DecidableEq, Repr

/-- The object returned by `getGameState`. -/
structure Snapshot where
  code : String
  gameState : GameState
  raceDistance : ℚ
  gameMode : String
  raceStartTime : Option ℚ
  players : List Player
  bullets : List Bullet
  obstacles : List WorldObject
  powerUps : List WorldObject
  playersFinished : ℕ
  leaderboard : List Player
deriving DecidableEq, Repr

/-! ## `GameLobby` methods -/

/-- The fixed palette of `addPlayer`. -/
def playerColors : List String :=
  ["#FF6B6B", "#4ECDC4", "#45B7D1", "#96CEB4", "#FFB347", "#98D8C8"]

/-- The player object built by `addPlayer` for a roster of size `size`. -/
def newPlayer (size : ℕ) (playerId playerName : String) (isHost : Bool) (now : ℚ) : Player :=
  { id := playerId
    name := playerName
    isHost := isHost
    x := 100
    y := GROUND_Y - PLAYER_HEIGHT
    velY := 0
    jumping := false
    grounded := true
    health := 100
    maxHealth := 100
    color := playerColors.getD (size % playerColors.length) ""
    progress := 0
    score := 0
    finishTime := none
    activePowerUp := { type := none, timeLeft := 0 }
    lastUpdate := now
    actualDistanceTraveled := none
    currentSegment := none }

/-- The method `addPlayer(playerId, playerName, isHost)`. -/
def GameLobby.addPlayer (l : GameLobby) (playerId playerName : String) (isHost : Bool)
    (now : ℚ) : GameLobby :=
  { l with players :=
      mapSet l.players playerId (newPlayer l.players.length playerId playerName isHost now) }

/-- The constructor `new GameLobby(code, hostId, hostName)`. -/
def GameLobby.new (code hostId hostName : String) (now : ℚ) : GameLobby :=
  GameLobby.addPlayer
    { code := code
      hostId := hostId
      players := []
      gameState := GameState.lobby
      raceDistance := 1000
      gameMode := "land"
      raceStartTime := none
      obstacles := []
      powerUps := []
      bullets := []
      playersFinished := 0
      leaderboard := []
      lastObstacleTime := none
      lastPowerUpTime := none }
    hostId hostName true now

/-- The method `removePlayer(playerId)`. -/
def GameLobby.removePlayer (l : GameLobby) (playerId : String) : GameLobby :=
  match mapDelete l.players playerId with
  | [] => { l with players := [] }
  | (k, newHost) :: rest =>
    if l.hostId = playerId then
      { l with players := (k, { newHost with isHost := true }) :: rest, hostId := newHost.id }
    else
      { l with players := (k, newHost) :: rest }

/-- The per-player reset of `startRace`. -/
def resetPlayer (p : Player) : Player :=
  { p with
    x := 100
    y := GROUND_Y - PLAYER_HEIGHT
    health := 100
    progress := 0
    score := 0
    finishTime := none
    velY := 0
    jumping := false
    grounded := true }

/-- The method `startRace(raceDistance, gameMode)`. -/
def GameLobby.startRace (l : GameLobby) (raceDistance : ℚ) (gameMode : String)
    (now : ℚ) : GameLobby :=
  { l with
    raceDistance := raceDistance
    gameMode := gameMode
    gameState := GameState.racing
    raceStartTime := some now
    playersFinished := 0
    leaderboard := []
    players := l.players.map (fun e => (e.1, resetPlayer e.2))
    obstacles := []
    powerUps := []
    bullets := [] }

/-- The comparator passed to `sort` by `updateLeaderboard`. -/
def leaderboardCompare (a b : Player) : ℚ :=
  if truthy a.finishTime && truthy b.finishTime then
    a.finishTime.getD 0 - b.finishTime.getD 0
  else if truthy a.finishTime && !truthy b.finishTime then
    -1
  else if !truthy a.finishTime && truthy b.finishTime then
    1
  else
    b.progress - a.progress

/-- The method `updateLeaderboard()`. -/
def GameLobby.updateLeaderboard (l : GameLobby) : GameLobby :=
  { l with leaderboard := jsSort leaderboardCompare (mapValues l.players) }

/-- The merge `Object.assign(player, updateData)`. -/
def assign (p : Player) (u : UpdateData) : Player :=
  { id := u.id.getD p.id
    name := u.name.getD p.name
    isHost := u.isHost.getD p.isHost
    x := u.x.getD p.x
    y := u.y.getD p.y
    velY := u.velY.getD p.velY
    jumping := u.jumping.getD p.jumping
    grounded := u.grounded.getD p.grounded
    health := u.health.getD p.health
    maxHealth := u.maxHealth.getD p.maxHealth
    color := u.color.getD p.color
    progress := u.progress.getD p.progress
    score := u.score.getD p.score
    finishTime := u.finishTime.getD p.finishTime
    activePowerUp := u.activePowerUp.getD p.activePowerUp
    lastUpdate := u.lastUpdate.getD p.lastUpdate
    actualDistanceTraveled := u.actualDistanceTraveled.getD p.actualDistanceTraveled
    currentSegment := u.currentSegment.getD p.currentSegment }

/-- The segment thresholds of `updatePlayer`. -/
def segmentOf (progress : ℚ) : ℕ :=
  if progress < 1 / 4 then 1
  else if progress < 1 / 2 then 2
  else if progress < 3 / 4 then 3
  else 4

/-- The player after the merge and the recomputation of `progress`,
`actualDistanceTraveled` and `currentSegment` in `updatePlayer`, before the
finish check. -/
def mergedPlayer (raceDistance : ℚ) (p : Player) (u : UpdateData) (now : ℚ) : Player :=
  let q := { assign p u with lastUpdate := now }
  let finishLineX := raceDistance * FINISH_LINE_MULTIPLIER
  let progress := min (q.x / finishLineX) 1
  { q with
    progress := progress
    actualDistanceTraveled := some q.x
    currentSegment := some (segmentOf progress) }

/-- The method `updatePlayer(playerId, updateData)`; `now` is the clock read
for `lastUpdate`, `finishNow` the one for `finishTime`. -/
def GameLobby.updatePlayer (l : GameLobby) (playerId : String) (updateData : UpdateData)
    (now finishNow : ℚ) : GameLobby :=
  match mapGet l.players playerId with
  | none => l
  | some player =>
    let q := mergedPlayer l.raceDistance player updateData now
    if 1 ≤ q.progress ∧ truthy q.finishTime = false then
      let l1 : GameLobby :=
        { l with
          players := mapSet l.players playerId { q with finishTime := some finishNow }
          playersFinished := l.playersFinished + 1 }
      let l2 := l1.updateLeaderboard
      if l2.players.length ≤ l2.playersFinished then
        { l2 with gameState := GameState.finished }
      else l2
    else
      { l with players := mapSet l.players playerId q }

/-- The method `addBullet(playerId, bulletData)`; the bullet id is
`Date.now() + Math.random()`. -/
def GameLobby.addBullet (l : GameLobby) (playerId : String) (bulletData : BulletData)
    (now rand : ℚ) : GameLobby :=
  match mapGet l.players playerId with
  | none => l
  | some _ =>
    { l with bullets := l.bullets ++
        [{ id := now + rand
           playerId := playerId
           x := bulletData.x
           y := bulletData.y
           speed := if truthy bulletData.speed then bulletData.speed.getD 10 else 10
           width := 8
           height := 4
           trail := [] }] }

/-- The method `getGameState()`. -/
def GameLobby.getGameState (l : GameLobby) : Snapshot :=
  { code := l.code
    gameState := l.gameState
    raceDistance := l.raceDistance
    gameMode := l.gameMode
    raceStartTime := l.raceStartTime
    players := mapValues l.players
    bullets := l.bullets
    obstacles := l.obstacles
    powerUps := l.powerUps
    playersFinished := l.playersFinished
    leaderboard := l.leaderboard }

/-- The function `calculateFinishLinePosition(distance)` of `src/script.js`. -/
def calculateFinishLinePosition (distance : ℚ) : ℚ := distance * 10

/-- The function `generateLobbyCode()` for the random draw `r`. -/
def generateLobbyCode (r : ℚ) : String :=
  toString (Rat.floor (100000 + r * 900000))

/-! ## Registry, directory and socket handlers -/

/-- An entry of the connection directory `players`. -/
structure PlayerData where
  lobbyCode : String
  playerId : String
deriving DecidableEq, Repr

/-- The process-wide maps `lobbies` (code to lobby) and `players`
(connection id to directory entry). -/
structure Server where
  lobbies : List (String × GameLobby)
  players : List (String × PlayerData)
deriving DecidableEq, Repr

/-- The payload of a `lobbyCreated` or `lobbyJoined` reply; an absent key is
`none`. -/
structure Reply where
  success : Bool
  code : Option String
  error : Option String
  gameState : Option Snapshot
deriving DecidableEq, Repr

/-- A message sent by a handler: a reply to one socket (`socket.emit`) or a
broadcast to a room (`io.to(room).emit`). -/
inductive Emit where
  | toSocket (socketId : String) (event : String) (data : Reply)
  | toRoom (room : String) (event : String) (gameState : Snapshot)
deriving DecidableEq, Repr

/-- The handler of `createLobby`; `code` is the value returned by
`generateLobbyCode()` in this call. -/
def createLobby (s : Server) (socketId playerName code : String) (now : ℚ) :
    Server × List Emit :=
  let lobby := GameLobby.new code socketId playerName now
  ({ lobbies := mapSet s.lobbies code lobby
     players := mapSet s.players socketId { lobbyCode := code, playerId := socketId } },
   [Emit.toSocket socketId "lobbyCreated"
      { success := true, code := some code, error := none,
        gameState := some lobby.getGameState }])

/-- The handler of `joinLobby` for the payload `{code, playerName}`. -/
def joinLobby (s : Server) (socketId code playerName : String) (now : ℚ) :
    Server × List Emit :=
  match mapGet s.lobbies code with
  | none =>
    (s, [Emit.toSocket socketId "lobbyJoined"
      { success := false, code := none, error := some "Lobby not found", gameState := none }])
  | some lobby =>
    if lobby.gameState ≠ GameState.lobby then
      (s, [Emit.toSocket socketId "lobbyJoined"
        { success := false, code := none, error := some "Game already in progress",
          gameState := none }])
    else if (mapValues lobby.players).any (fun p => p.name = playerName) then
      (s, [Emit.toSocket socketId "lobbyJoined"
        { success := false, code := none, error := some "Player name already taken",
          gameState := none }])
    else
      let lobby1 := lobby.addPlayer socketId playerName false now
      ({ lobbies := mapSet s.lobbies code lobby1
         players := mapSet s.players socketId { lobbyCode := code, playerId := socketId } },
       [Emit.toSocket socketId "lobbyJoined"
          { success := true, code := none, error := none,
            gameState := some lobby1.getGameState },
        Emit.toRoom code "playerJoined" lobby1.getGameState])

/-- The handler of `startRace` for the payload `{raceDistance, gameMode}`. -/
def startRace (s : Server) (socketId : String) (raceDistance : ℚ) (gameMode : String)
    (now : ℚ) : Server × List Emit :=
  match mapGet s.players socketId with
  | none => (s, [])
  | some playerData =>
    match mapGet s.lobbies playerData.lobbyCode with
    | none => (s, [])
    | some lobby =>
      if lobby.hostId ≠ socketId then (s, [])
      else
        let lobby1 := lobby.startRace raceDistance gameMode now
        ({ s with lobbies := mapSet s.lobbies playerData.lobbyCode lobby1 },
         [Emit.toRoom playerData.lobbyCode "raceStarted" lobby1.getGameState])

/-- The handler of `playerUpdate`. -/
def playerUpdate (s : Server) (socketId : String) (data : UpdateData) (now finishNow : ℚ) :
    Server × List Emit :=
  match mapGet s.players socketId with
  | none => (s, [])
  | some playerData =>
    match mapGet s.lobbies playerData.lobbyCode with
    | none => (s, [])
    | some lobby =>
      if lobby.gameState ≠ GameState.racing then (s, [])
      else
        ({ s with lobbies := mapSet s.lobbies playerData.lobbyCode
                    (lobby.updatePlayer socketId data now finishNow) }, [])

/-- The handler of `shoot`. -/
def shoot (s : Server) (socketId : String) (data : BulletData) (now rand : ℚ) :
    Server × List Emit :=
  match mapGet s.players socketId with
  | none => (s, [])
  | some playerData =>
    match mapGet s.lobbies playerData.lobbyCode with
    | none => (s, [])
    | some lobby =>
      if lobby.gameState ≠ GameState.racing then (s, [])
      else
        ({ s with lobbies := mapSet s.lobbies playerData.lobbyCode
                    (lobby.addBullet socketId data now rand) }, [])

/-- The handler of `disconnect`. -/
def disconnect (s : Server) (socketId : String) : Server × List Emit :=
  match mapGet s.players socketId with
  | none => (s, [])
  | some playerData =>
    match mapGet s.lobbies playerData.lobbyCode with
    | none => ({ s with players := mapDelete s.players socketId }, [])
    | some lobby =>
      let lobby1 := lobby.removePlayer socketId
      ({ lobbies :=
           if lobby1.players.length = 0 then mapDelete s.lobbies playerData.lobbyCode
           else mapSet s.lobbies playerData.lobbyCode lobby1
         players := mapDelete s.players socketId },
       [Emit.toRoom playerData.lobbyCode "playerLeft" lobby1.getGameState])

/-! ## Simulation tick -/

/-- The method `checkCollision(obj1, obj2)` for a bullet and a player. -/
def checkCollision (b : Bullet) (p : Player) : Bool :=
  decide (b.x < p.x + 40) && decide (b.x + b.width > p.x) &&
  decide (b.y < p.y + 40) && decide (b.y + b.height > p.y)

/-- The synchronous part of `handlePlayerKilled(player)`. -/
def handlePlayerKilled (p : Player) : Player := { p with health := 0 }

/-- The first steps of the loop body of `updateGameObjects` for one bullet:
advance it and extend its trail, which keeps the last three positions. -/
def advanceBullet (b : Bullet) : Bullet :=
  let x := b.x + b.speed
  let trail := b.trail ++ [(x, b.y)]
  { b with x := x, trail := if 3 < trail.length then trail.drop 1 else trail }

/-- The `players.forEach` of the loop body for the bullet at index `i`:
`rest` is the array from index `i` on, so `splice(i, 1)` drops its head (and
does nothing once it is empty).  The roster is visited in insertion order. -/
def hitPlayers (bullet : Bullet) :
    List (String × Player) → List Bullet → List (String × Player) × List Bullet
  | [], rest => ([], rest)
  | (k, player) :: ps, rest =>
    if player.id = bullet.playerId then
      let r := hitPlayers bullet ps rest
      ((k, player) :: r.1, r.2)
    else if checkCollision bullet player then
      let hit := { player with health := player.health - PVP_DAMAGE }
      let hit1 := if hit.health ≤ 0 then handlePlayerKilled hit else hit
      let r := hitPlayers bullet ps (rest.drop 1)
      ((k, hit1) :: r.1, r.2)
    else
      let r := hitPlayers bullet ps rest
      ((k, player) :: r.1, r.2)

/-- The bullet loop of `updateGameObjects`: the index runs from the last
bullet down to the first, so the bullets after the current one have already
been processed. -/
def updateBullets :
    List Bullet → List (String × Player) → List (String × Player) × List Bullet
  | [], players => (players, [])
  | b :: bs, players =>
    let r := updateBullets bs players
    let bullet := advanceBullet b
    if bullet.x > 2000 then (r.1, r.2)
    else hitPlayers bullet r.1 (bullet :: r.2)

/-- The running maximum of `spawnSynchronizedObstacle`, starting from `0`. -/
def maxPlayerX (players : List (String × Player)) : ℚ :=
  players.foldl (fun m e => if e.2.x > m then e.2.x else m) 0

/-- The running minimum of `spawnSynchronizedObstacle`; `none` is the initial
`Infinity`. -/
def minPlayerX (players : List (String × Player)) : Option ℚ :=
  players.foldl
    (fun m e => match m with
      | none => some e.2.x
      | some v => if e.2.x < v then some e.2.x else some v)
    none

/-- The pruning filter `obj.x > minPlayerX - 500`. -/
def pruneObjects (players : List (String × Player)) (objs : List WorldObject) :
    List WorldObject :=
  match minPlayerX players with
  | none => []
  | some m => objs.filter (fun o => o.x > m - 500)

/-- The method `spawnSynchronizedObstacle()`; `now` is the clock read for the
id, `r` and `rType` the two random draws. -/
def GameLobby.spawnSynchronizedObstacle (l : GameLobby) (now r rType : ℚ) : GameLobby :=
  let obstacle : WorldObject :=
    { id := now
      x := maxPlayerX l.players + 800 + r * 200
      y := GROUND_Y - 30
      width := 30
      height := 30
      type := if rType > 1 / 2 then "rock" else "spike" }
  { l with obstacles := pruneObjects l.players (l.obstacles ++ [obstacle]) }

/-- The list `powerUpTypes`. -/
def powerUpTypes : List String := ["gun", "car", "jumper", "boat", "diver"]

/-- The method `spawnSynchronizedPowerUp()`. -/
def GameLobby.spawnSynchronizedPowerUp (l : GameLobby) (now r rType : ℚ) : GameLobby :=
  let powerUp : WorldObject :=
    { id := now
      x := maxPlayerX l.players + 600 + r * 300
      y := GROUND_Y - 25
      width := 25
      height := 25
      type := powerUpTypes.getD (Rat.floor (rType * powerUpTypes.length)).toNat "" }
  { l with powerUps := pruneObjects l.players (l.powerUps ++ [powerUp]) }

/-- The clock reads and random draws of one `updateGameObjects` call. -/
structure TickEnv where
  currentTime : ℚ
  obstacleNow : ℚ
  obstacleRand : ℚ
  obstacleTypeRand : ℚ
  powerUpNow : ℚ
  powerUpRand : ℚ
  powerUpTypeRand : ℚ
deriving DecidableEq, Repr

/-- The method `generateSynchronizedGameObjects()`. -/
def GameLobby.generateSynchronizedGameObjects (l : GameLobby) (env : TickEnv) : GameLobby :=
  let l1 : GameLobby :=
    if truthy l.lastObstacleTime then l
    else { l with lastObstacleTime := some env.currentTime }
  let l2 : GameLobby :=
    if env.currentTime - l1.lastObstacleTime.getD 0 > 2000 then
      { l1.spawnSynchronizedObstacle env.obstacleNow env.obstacleRand env.obstacleTypeRand with
        lastObstacleTime := some env.currentTime }
    else l1
  let l3 : GameLobby :=
    if truthy l2.lastPowerUpTime then l2
    else { l2 with lastPowerUpTime := some env.currentTime }
  if env.currentTime - l3.lastPowerUpTime.getD 0 > 5000 then
    { l3.spawnSynchronizedPowerUp env.powerUpNow env.powerUpRand env.powerUpTypeRand with
      lastPowerUpTime := some env.currentTime }
  else l3

/-- The method `updateGameObjects()`. -/
def GameLobby.updateGameObjects (l : GameLobby) (env : TickEnv) : GameLobby :=
  let r := updateBullets l.bullets l.players
  GameLobby.generateSynchronizedGameObjects { l with players := r.1, bullets := r.2 } env

/-- The body of the game loop for the registry entries in order; `env` gives
each lobby (by its own `code` field) the clock reads and random draws of its
`updateGameObjects` call. -/
def tickLobbies (env : String → TickEnv) :
    List (String × GameLobby) → List (String × GameLobby) × List Emit
  | [] => ([], [])
  | (k, lobby) :: ls =>
    let r := tickLobbies env ls
    if lobby.gameState = GameState.racing then
      let lobby1 := lobby.updateGameObjects (env lobby.code)
      ((k, lobby1) :: r.1, Emit.toRoom lobby1.code "gameUpdate" lobby1.getGameState :: r.2)
    else ((k, lobby) :: r.1, r.2)

/-- One firing of the `setInterval` game loop. -/
def tick (s : Server) (env : String → TickEnv) : Server × List Emit :=
  let r := tickLobbies env s.lobbies
  ({ s with lobbies := r.1 }, r.2)

/-! ## Server events -/

/-- An event delivered to the server, with the environment inputs it reads. -/
inductive Event where
  | createLobby (socketId playerName : String) (r : ℚ) (now : ℚ)
  | joinLobby (socketId code playerName : String) (now : ℚ)
  | startRace (socketId : String) (raceDistance : ℚ) (gameMode : String) (now : ℚ)
  | playerUpdate (socketId : String) (data : UpdateData) (now finishNow : ℚ)
  | shoot (socketId : String) (data : BulletData) (now rand : ℚ)
  | disconnect (socketId : String)
  | tick (env : String → TickEnv)

/-- The server after one event. -/
def step (s : Server) : Event → Server
  | Event.createLobby socketId playerName r now =>
    (createLobby s socketId playerName (generateLobbyCode r) now).1
  | Event.joinLobby socketId code playerName now => (joinLobby s socketId code playerName now).1
  | Event.startRace socketId raceDistance gameMode now =>
    (startRace s socketId raceDistance gameMode now).1
  | Event.playerUpdate socketId data now finishNow =>
    (playerUpdate s socketId data now finishNow).1
  | Event.shoot socketId data now rand => (shoot s socketId data now rand).1
  | Event.disconnect socketId => (disconnect s socketId).1
  | Event.tick env => (tick s env).1

/-- The server after a sequence of events, oldest first. -/
def run (s : Server) (es : List Event) : Server := es.foldl step s

/-- The server with no lobby and no connection. -/
def Server.empty : Server := { lobbies := [], players := [] }

/-! ## Derived notions used in the statements -/

/-- The order decided by the comparator of `updateLeaderboard`: `a` may stand
before `b`. -/
def leaderboardLe (a b : Player) : Prop := leaderboardCompare a b ≤ 0

instance : DecidableRel leaderboardLe := fun a b => by
  unfold leaderboardLe; infer_instance

/-- Every recorded finish time of the list is a positive timestamp. -/
def finishTimesPositive (ps : List Player) : Bool :=
  ps.all (fun p => match p.finishTime with
    | none => true
    | some t => decide (0 < t))

/-- The number of players of the roster whose `finishTime` is recorded. -/
def finishedCount (l : GameLobby) : ℕ :=
  (mapValues l.players).countP (fun p => p.finishTime.isSome)

/-- Every player of the roster has a recorded `finishTime`. -/
def allFinished (l : GameLobby) : Bool :=
  (mapValues l.players).all (fun p => p.finishTime.isSome)

/-- The value `clamp(v, lo, hi)`. -/
def clamp (v lo hi : ℚ) : ℚ := max lo (min v hi)

/-- Three connections create and join lobby 123456, the host starts the race
and reaches the finish line. -/
def raceOfThree : List Event :=
  [ Event.createLobby "a" "Alice" (23456 / 900000) 1,
    Event.joinLobby "b" "123456" "Bob" 2,
    Event.joinLobby "c" "123456" "Carol" 3,
    Event.startRace "a" 1000 "land" 4,
    Event.playerUpdate "a" { x := some 10000 } 5 5 ]

/-- Two connections create and join lobby 123456, the host starts the race
and reaches the finish line. -/
def raceOfTwo : List Event :=
  [ Event.createLobby "a" "Alice" (23456 / 900000) 1,
    Event.joinLobby "b" "123456" "Bob" 2,
    Event.startRace "a" 1000 "land" 3,
    Event.playerUpdate "a" { x := some 10000 } 4 4 ]

/-- A one-player lobby whose race over 1000 m has started. -/
def soloRace : GameLobby :=
  (GameLobby.new "123456" "a" "Alice" 1).startRace 1000 "land" 2

/-- The host of `soloRace` as stored in its roster. -/
def soloPlayer : Player := resetPlayer (newPlayer 0 "a" "Alice" true 1)

/-- The failure reply of `joinLobby` to `socketId`. -/
def lobbyJoinedError (socketId error : String) : Emit :=
  Emit.toSocket socketId "lobbyJoined"
    { success := false, code := none, error := some error, gameState := none }

/-- The message is a `lobbyJoined` reply with `success: true`. -/
def Emit.isJoinSuccess : Emit → Bool
  | Emit.toSocket _ event data => event = "lobbyJoined" && data.success
  | Emit.toRoom _ _ _ => false

/-- A server whose only lobby, 123456, hosted by Alice, is waiting for players. -/
def waitingServer : Server :=
  run Server.empty [Event.createLobby "a" "Alice" (23456 / 900000) 1]

/-- The lobby 123456 of `waitingServer`. -/
def waitingLobby : GameLobby := GameLobby.new "123456" "a" "Alice" 1

/-- A server whose only lobby, 123456, hosted by Alice, is racing. -/
def racingServer : Server :=
  run Server.empty
    [Event.createLobby "a" "Alice" (23456 / 900000) 1, Event.startRace "a" 1000 "land" 2]

/-- A racing lobby of three: Carol finished at time 6, Bob at time 8, and
Alice, first in the roster, is at 70 percent. -/
def mixedLobby : GameLobby :=
  GameLobby.updatePlayer
    (GameLobby.updatePlayer
      (GameLobby.updatePlayer
        (GameLobby.startRace
          (GameLobby.addPlayer
            (GameLobby.addPlayer (GameLobby.new "123456" "a" "Alice" 1) "b" "Bob" false 2)
            "c" "Carol" false 3)
          1000 "land" 4)
        "c" { x := some 10000 } 5 6)
      "a" { x := some 7000 } 7 7)
    "b" { x := some 10000 } 8 8

/-- The end-to-end scenario up to the start of the race: connection `host`
creates lobby 123456, connection `guest` joins as Bob, the host starts a land
race over 1000 m. -/
def scenarioStarted (hostName guest : String) (t0 t1 t2 : ℚ) : Server :=
  (startRace
    (joinLobby (createLobby Server.empty "host" hostName "123456" t0).1
      guest "123456" "Bob" t1).1
    "host" 1000 "land" t2).1

/-- The scenario after the host reported `x = 10000`; `t3f` is the clock read
for its finish time. -/
def scenarioHostDone (hostName guest : String) (t0 t1 t2 t3 t3f : ℚ) : Server :=
  (playerUpdate (scenarioStarted hostName guest t0 t1 t2) "host" { x := some 10000 } t3 t3f).1

/-- The scenario after Bob reported `x = 10000` as well; `t4f` is the clock
read for his finish time. -/
def scenarioAllDone (hostName guest : String) (t0 t1 t2 t3 t3f t4 t4f : ℚ) : Server :=
  (playerUpdate (scenarioHostDone hostName guest t0 t1 t2 t3 t3f) guest
    { x := some 10000 } t4 t4f).1

/-- The clock reads and random draws used for the ticks of the examples. -/
def calmEnv : String → TickEnv := fun _ =>
  { currentTime := 1000, obstacleNow := 1000, obstacleRand := 0, obstacleTypeRand := 0,
    powerUpNow := 1000, powerUpRand := 0, powerUpTypeRand := 0 }

/-- Three connections create and join lobby 123456 and the host starts the
race: all three stand at (100, 200) with health 100. -/
def threeAtStart : List Event :=
  [ Event.createLobby "a" "Alice" (23456 / 900000) 1,
    Event.joinLobby "b" "123456" "Bob" 2,
    Event.joinLobby "c" "123456" "Carol" 3,
    Event.startRace "a" 1000 "land" 4 ]

/-- The host shoots from (90, 210): after one advance the bullet overlaps the
boxes of all three players. -/
def shotAtBoth : Event := Event.shoot "a" { x := 90, y := 210, speed := none } 5 0

/-- The host shoots from (500, 210): the bullet overlaps nobody. -/
def shotAhead : Event := Event.shoot "a" { x := 500, y := 210, speed := none } 6 0

/-- The host shoots from (0, 0) with speed 10: the bullet flies above every
player, whose boxes span y = 200..240. -/
def shotFromOrigin : Event := Event.shoot "a" { x := 0, y := 0, speed := some 10 } 6 0

/-- The lobby after the `updateGameObjects` calls of successive ticks, one per
element of `envs`. -/
def ticks (l : GameLobby) (envs : List TickEnv) : GameLobby :=
  envs.foldl GameLobby.updateGameObjects l

/-- A bullet of the size built by `addBullet`, owned by `k`, at `(x, y)`. -/
def bulletAt (k : String) (x y : ℚ) : Bullet :=
  { id := 0, playerId := k, x := x, y := y, speed := 10, width := 8, height := 4, trail := [] }

/-- The lobby holds exactly one bullet, of the size built by `addBullet`,
owned by `k`, with speed 10, at `(10 * n, y)`, and its roster is `ps`. -/
def InFlight (k : String) (y : ℚ) (ps : List (String × Player)) (n : ℕ) (m : GameLobby) :
    Prop :=
  m.players = ps ∧
  ∃ b, m.bullets = [b] ∧ b.playerId = k ∧ b.x = 10 * n ∧ b.y = y ∧ b.speed = 10 ∧
    b.width = 8 ∧ b.height = 4

/-- Every lobby stored in the registry has at least one player. -/
def NoEmptyLobby (s : Server) : Prop := ∀ e ∈ s.lobbies, e.2.players ≠ []

/-- The lobby after the `addPlayer` calls of a sequence of successful joins,
each given by connection id, player name and clock read. -/
def joinAll (l : GameLobby) (joins : List (String × String × ℚ)) : GameLobby :=
  joins.foldl (fun l j => l.addPlayer j.1 j.2.1 false j.2.2) l

/-- A lobby built by `createLobby` followed by successful `joinLobby` calls. -/
def builtLobby (code hostId hostName : String) (now : ℚ)
    (joins : List (String × String × ℚ)) : GameLobby :=
  joinAll (GameLobby.new code hostId hostName now) joins

/-- The roster has distinct keys, every player's id is its key, and only the
entry keyed by `hostId` may carry the host flag. -/
def HostMarked (l : GameLobby) : Prop :=
  (mapKeys l.players).Nodup ∧
  ∀ e ∈ l.players, e.2.id = e.1 ∧ (e.2.isHost = true → e.1 = l.hostId)

/-- Two players at the start of a race: Alice, the host, and Bob, both at
(100, 200). -/
def startedOfTwo : GameLobby :=
  GameLobby.startRace
    (GameLobby.addPlayer (GameLobby.new "123456" "a" "Alice" 1) "b" "Bob" false 2)
    1000 "land" 3

/-- The lobby `startedOfTwo` after the host shot from (90, 210). -/
def shotLobby : GameLobby :=
  startedOfTwo.addBullet "a" { x := 90, y := 210, speed := none } 4 0

/-- The clock reads and random draws of a tick at time 1000. -/
def calmTick : TickEnv := calmEnv ""

/-! ## Multiplayer client (`src/client/multiplayer-client.js`) -/

/-- JavaScript truthiness of a nullable string: `null`, `undefined` and the
empty string are falsy. -/
def truthyString : Option String → Bool
  | none => false
  | some s => s != ""

/-- The fields of a `MultiplayerClient` that its handlers and API methods read
or write; the socket itself is outside the model. -/
structure MultiplayerClient where
  connected : Bool
  lobbyCode : Option String
  playerId : Option String
  isHost : Bool
  gameState : Option Snapshot
  serverPlayers : List (String × Player)
  lastUpdate : ℚ
deriving DecidableEq, Repr

/-- The client after the handler of `lobbyCreated`. -/
def MultiplayerClient.lobbyCreated (c : MultiplayerClient) (data : Reply) : MultiplayerClient :=
  if data.success then
    { c with lobbyCode := data.code, isHost := true, gameState := data.gameState }
  else c

/-- The client after the handler of `lobbyJoined`. -/
def MultiplayerClient.lobbyJoined (c : MultiplayerClient) (data : Reply) : MultiplayerClient :=
  if data.success then
    { c with lobbyCode := data.code, isHost := false, gameState := data.gameState }
  else c

/-- The API method `updatePlayer(playerData)`: the client afterwards and the
`playerUpdate` payload it sent, if any; `now` is the clock read. -/
def MultiplayerClient.updatePlayer (c : MultiplayerClient) (playerData : UpdateData)
    (now : ℚ) : MultiplayerClient × Option UpdateData :=
  if !c.connected || !truthyString c.lobbyCode then (c, none)
  else if now - c.lastUpdate < 16 then (c, none)
  else ({ c with lastUpdate := now }, some playerData)

/-- The API method `shoot(bulletData)`: the `shoot` payload it sent, if any. -/
def MultiplayerClient.shoot (c : MultiplayerClient) (bulletData : BulletData) :
    Option BulletData :=
  if !c.connected || !truthyString c.lobbyCode then none
  else some bulletData

/-- The payload of the first reply to `socketId` named `event` among the
messages, if any. -/
def replyTo (socketId event : String) : List Emit → Option Reply
  | [] => none
  | Emit.toSocket target ev data :: rest =>
    if target = socketId ∧ ev = event then some data else replyTo socketId event rest
  | Emit.toRoom _ _ _ :: rest => replyTo socketId event rest

/-- A connected client of connection `b` that is in no lobby yet. -/
def freshClient : MultiplayerClient :=
  { connected := true, lobbyCode := none, playerId := some "b", isHost := false,
    gameState := none, serverPlayers := [], lastUpdate := 0 }

/-! ## Single-player power-ups (`src/script.js`) -/

/-- The object `activePowerUp` of the single-player script. -/
structure ScriptPowerUp where
  type : Option String
  timeLeft : ℚ
  maxTime : ℚ
  originalSpeed : Option ℚ
deriving DecidableEq, Repr

/-- The script variables read or written by `deactivatePowerUp`. -/
structure ScriptState where
  activePowerUp : ScriptPowerUp
  gameSpeed : Option ℚ
  isUnderwater : Bool
  carMode : String
  shootingAnimation : ℚ
  lastShotTime : ℚ
deriving DecidableEq, Repr

/-- The function `deactivatePowerUp()`. -/
def deactivatePowerUp (s : ScriptState) : ScriptState :=
  let s1 : ScriptState :=
    if s.activePowerUp.type = some "car" ∨ s.activePowerUp.type = some "boat" then
      { s with gameSpeed := s.activePowerUp.originalSpeed }
    else s
  let s2 : ScriptState :=
    if s1.activePowerUp.type = some "diver" then { s1 with isUnderwater := false } else s1
  let s3 : ScriptState :=
    { s2 with
      activePowerUp := { s2.activePowerUp with type := none, timeLeft := 0, maxTime := 600 }
      carMode := "jump"
      shootingAnimation := 0 }
  let currentType := s3.activePowerUp.type
  if currentType = some "gun" then { s3 with lastShotTime := 0 } else s3

/-- The script state while a gun power-up is active, half a second after a
shot at time 12345. -/
def gunActive : ScriptState :=
  { activePowerUp := { type := some "gun", timeLeft := 1, maxTime := 600, originalSpeed := some 4 }
    gameSpeed := some 4
    isUnderwater := false
    carMode := "jump"
    shootingAnimation := 3
    lastShotTime := 12345 }

/-- A finished one-player race that the host starts again. -/
def restartedRace : GameLobby :=
  (soloRace.updatePlayer "a" { x := some 10000 } 3 4).startRace 1000 "land" 5

/-- The lobby `soloRace` after its player reported `x = -1000`. -/
def behindStart : GameLobby := soloRace.updatePlayer "a" { x := some (-1000) } 3 4

/-- The obstacle built by `spawnSynchronizedObstacle`. -/
def spawnedObstacle (l : GameLobby) (now r rType : ℚ) : WorldObject :=
  { id := now
    x := maxPlayerX l.players + 800 + r * 200
    y := GROUND_Y - 30
    width := 30
    height := 30
    type := if rType > 1 / 2 then "rock" else "spike" }

/-- The directory and the rosters agree: every connection of the directory is
a key of the roster of the registered lobby the directory names, and every key
of the roster of a registered lobby is mapped to that lobby's code by the
directory. -/
def Agree (s : Server) : Prop :=
  (∀ conn playerData, mapGet s.players conn = some playerData →
    ∃ l, mapGet s.lobbies playerData.lobbyCode = some l ∧ conn ∈ mapKeys l.players) ∧
  (∀ c l conn, mapGet s.lobbies c = some l → conn ∈ mapKeys l.players →
    ∃ playerData, mapGet s.players conn = some playerData ∧ playerData.lobbyCode = c)

/-- The event is a createLobby, joinLobby or disconnect, and a connection that
creates or joins a lobby is not in the directory yet; a created lobby gets a
code that is not registered. -/
def admissible (s : Server) : Event → Prop
  | Event.createLobby socketId _ r _ =>
    mapGet s.players socketId = none ∧ mapGet s.lobbies (generateLobbyCode r) = none
  | Event.joinLobby socketId _ _ _ => mapGet s.players socketId = none
  | Event.disconnect _ => True
  | _ => False

/-- Every event of the sequence is admissible in the state it is applied to. -/
def admissibleRun : Server → List Event → Prop
  | _, [] => True
  | s, e :: es => admissible s e ∧ admissibleRun (step s e) es

/-- The effect of one tested bullet on one player in the `players.forEach` of
`updateGameObjects`. -/
def hitOne (bullet : Bullet) (player : Player) : Player :=
  if player.id = bullet.playerId then player
  else if checkCollision bullet player then
    if player.health - PVP_DAMAGE ≤ 0 then
      handlePlayerKilled { player with health := player.health - PVP_DAMAGE }
    else { player with health := player.health - PVP_DAMAGE }
  else player

/-- The effect of the bullet loop on one player: the bullets are processed
from the last to the first, each after its advance, and a bullet beyond x =
2000 is not tested. -/
def damageAll : List Bullet → Player → Player
  | [], p => p
  | b :: bs, p =>
    if (advanceBullet b).x > 2000 then damageAll bs p
    else hitOne (advanceBullet b) (damageAll bs p)

/-- The lobby `startedOfTwo` after the host shot twice from (90, 210): both
bullets overlap Bob, the only other player. -/
def twoShotsAtBob : GameLobby :=
  (startedOfTwo.addBullet "a" { x := 90, y := 210, speed := none } 4 0).addBullet "a"
    { x := 90, y := 210, speed := none } 5 0

/-- The lobby 123456 after Alice created it, Bob joined and Alice left. -/
def bobAlone : GameLobby :=
  GameLobby.removePlayer
    (GameLobby.addPlayer (GameLobby.new "123456" "a" "Alice" 1) "b" "Bob" false 2) "a"

/-- Alice creates lobby 123456, Bob joins, Alice disconnects. -/
def joinThenLeave : List Event :=
  [ Event.createLobby "a" "Alice" (23456 / 900000) 1,
    Event.joinLobby "b" "123456" "Bob" 2,
    Event.disconnect "a" ]

/-- Bob as stored in `startedOfTwo`. -/
def bobAtStart : Player := resetPlayer (newPlayer 1 "b" "Bob" false 2)

/-- The bullet of `shotLobby`. -/
def firstShot : Bullet :=
  { id := 4, playerId := "a", x := 90, y := 210, speed := 10, width := 8, height := 4,
    trail := [] }

/-! ## Lemmas on the insertion-ordered map -/

theorem mapGet_mapSet_self {α : Type} (m : List (String × α)) (k : String) (v : α) :
    mapGet (mapSet m k v) k = some v := by
  induction m with
  | nil => simp [mapSet, mapGet]
  | cons e m ih =>
    obtain ⟨k0, w⟩ := e
    by_cases h : k0 = k
    · simp [mapSet, mapGet, h]
    · simp [mapSet, mapGet, h, ih]

theorem mapGet_mapSet_ne {α : Type} (m : List (String × α)) (k k1 : String) (v : α)
    (h : k1 ≠ k) : mapGet (mapSet m k v) k1 = mapGet m k1 := by
  induction m with
  | nil => simp [mapSet, mapGet, Ne.symm h]
  | cons e m ih =>
    obtain ⟨k0, w⟩ := e
    by_cases h0 : k0 = k
    · subst h0
      simp [mapSet, mapGet, Ne.symm h]
    · by_cases h1 : k0 = k1
      · subst h1
        simp [mapSet, mapGet, h0]
      · simp [mapSet, mapGet, h0, h1, ih]

theorem mapSet_of_mapGet_none {α : Type} (m : List (String × α)) (k : String) (v : α)
    (h : mapGet m k = none) : mapSet m k v = m ++ [(k, v)] := by
  induction m with
  | nil => simp [mapSet]
  | cons e m ih =>
    obtain ⟨k0, w⟩ := e
    by_cases h0 : k0 = k
    · simp [mapGet, h0] at h
    · simp only [mapGet, h0, if_false] at h
      simp [mapSet, h0, ih h]

/-- The player stored under `k` after `updatePlayer`: the merged player, with
`finishTime` set when this update records the finish. -/
theorem updatePlayer_stored (l : GameLobby) (k : String) (p : Player) (u : UpdateData)
    (now finishNow : ℚ) (hp : mapGet l.players k = some p) :
    mapGet (l.updatePlayer k u now finishNow).players k =
      some (if 1 ≤ (mergedPlayer l.raceDistance p u now).progress ∧
              truthy (mergedPlayer l.raceDistance p u now).finishTime = false
            then { mergedPlayer l.raceDistance p u now with finishTime := some finishNow }
            else mergedPlayer l.raceDistance p u now) := by
  unfold GameLobby.updatePlayer
  simp only [hp]
  split_ifs <;> simp [GameLobby.updateLeaderboard, mapGet_mapSet_self]

theorem mergedPlayer_progress (d : ℚ) (p : Player) (u : UpdateData) (now : ℚ) :
    (mergedPlayer d p u now).progress = min ((u.x.getD p.x) / (d * 10)) 1 := by
  simp [mergedPlayer, assign, FINISH_LINE_MULTIPLIER]

/-! ## Racing to finished (C1, C2, C3) -/

/-- C1: the lobby turns from racing to finished although a player of the
roster has no finish time.  The host finishes and disconnects; `playersFinished`
stays 1 for the two remaining players, so the next finisher brings it to 2,
the roster size, while the third player has not finished. -/
theorem finished_with_unfinished_player :
    (mapGet (run Server.empty (raceOfThree ++ [Event.disconnect "a"])).lobbies "123456").map
        (fun l => (l.gameState, mapKeys l.players, l.playersFinished))
      = some (GameState.racing, ["b", "c"], 1) ∧
    (mapGet (run Server.empty (raceOfThree ++ [Event.disconnect "a",
        Event.playerUpdate "b" { x := some 10000 } 6 6])).lobbies "123456").map
        (fun l => (l.gameState, l.playersFinished,
          (mapGet l.players "c").map (fun p => p.finishTime)))
      = some (GameState.finished, 2, some none) := by
  decide!

/-- C2: after a processed `playerUpdate` every player of the roster has a
finish time and the lobby is still racing.  The host finishes, the other
player disconnects, and the host keeps reporting its position. -/
theorem all_finished_still_racing :
    (mapGet (run Server.empty (raceOfTwo ++ [Event.disconnect "b"])).lobbies "123456").map
        (fun l => l.gameState) = some GameState.racing ∧
    (mapGet (run Server.empty (raceOfTwo ++ [Event.disconnect "b",
        Event.playerUpdate "a" { x := some 10050 } 6 6])).lobbies "123456").map
        (fun l => (l.gameState, allFinished l, mapKeys l.players,
          (mapGet l.players "a").map (fun p => p.x)))
      = some (GameState.racing, true, ["a"], some 10050) := by
  decide!

/-- C3: `playersFinished` differs from the number of roster players with a
recorded finish time.  The host finishes and disconnects: the counter stays 1
and nobody left in the roster has finished. -/
theorem playersFinished_stale_after_removePlayer :
    (mapGet (run Server.empty raceOfTwo).lobbies "123456").map
        (fun l => (l.playersFinished, finishedCount l)) = some (1, 1) ∧
    (mapGet (run Server.empty (raceOfTwo ++ [Event.disconnect "a"])).lobbies "123456").map
        (fun l => (l.playersFinished, finishedCount l, mapKeys l.players))
      = some (1, 0, ["b"]) := by
  decide!

/-! ## Progress (C6, C7) -/

/-- C6: for a positive race distance `d` the finish line is at `d * 10`, both
in `calculateFinishLinePosition` and in `updatePlayer`; the progress stored by
`updatePlayer` never exceeds 1 and is exactly 1 when the reported `x` is
`d * 10`. -/
theorem progress_le_one_and_one_at_finish_line (l : GameLobby) (k : String) (p : Player)
    (u : UpdateData) (now finishNow : ℚ) (hd : 0 < l.raceDistance)
    (hp : mapGet l.players k = some p) :
    calculateFinishLinePosition l.raceDistance = l.raceDistance * 10 ∧
    l.raceDistance * FINISH_LINE_MULTIPLIER = l.raceDistance * 10 ∧
    ∃ q, mapGet (l.updatePlayer k u now finishNow).players k = some q ∧
      q.progress ≤ 1 ∧ (u.x = some (l.raceDistance * 10) → q.progress = 1) := by
  refine ⟨rfl, by simp [FINISH_LINE_MULTIPLIER], _, updatePlayer_stored l k p u now finishNow hp,
    ?_, ?_⟩
  · split_ifs <;> simp [mergedPlayer_progress]
  · intro hx
    have h10 : l.raceDistance * 10 ≠ 0 := by positivity
    split_ifs <;> simp [mergedPlayer_progress, hx, div_self h10]

theorem progress_le_one_and_one_at_finish_line_witness :
    (0 < soloRace.raceDistance ∧ mapGet soloRace.players "a" = some soloPlayer) ∧
    (calculateFinishLinePosition soloRace.raceDistance = soloRace.raceDistance * 10 ∧
     soloRace.raceDistance * FINISH_LINE_MULTIPLIER = soloRace.raceDistance * 10 ∧
     ∃ q, mapGet (soloRace.updatePlayer "a" { x := some 10000 } 3 4).players "a" = some q ∧
       q.progress ≤ 1 ∧
       (({ x := some 10000 } : UpdateData).x = some (soloRace.raceDistance * 10) →
         q.progress = 1)) :=
  ⟨⟨by decide!, by decide!⟩,
   progress_le_one_and_one_at_finish_line soloRace "a" soloPlayer { x := some 10000 } 3 4
     (by decide!) (by decide!)⟩

/-- C7 as stated fails: for the reported `x = -10` in a race over 1000 m the
stored progress is `-1/1000`, which is not `clamp(x / 10000, 0, 1) = 0` and
lies outside `[0, 1]`. -/
theorem negative_x_progress_not_clamped :
    (mapGet (soloRace.updatePlayer "a" { x := some (-10) } 3 4).players "a").map
        (fun q => (q.progress,
          decide (q.progress = clamp ((-10) / (soloRace.raceDistance * 10)) 0 1),
          decide (0 ≤ q.progress)))
      = some (-1 / 1000, false, false) := by
  decide!

/-- C7, amended: for a positive race distance and every reported `x` the
progress stored by `updatePlayer` is `min(x / (raceDistance * 10), 1)`, with no
lower bound: it is at most 1, lies in `[0, 1]` when `x ≥ 0`, and is negative
when `x` is negative. -/
theorem progress_eq_min (l : GameLobby) (k : String) (p : Player) (u : UpdateData)
    (now finishNow x : ℚ) (hd : 0 < l.raceDistance) (hp : mapGet l.players k = some p)
    (hx : u.x = some x) :
    ∃ q, mapGet (l.updatePlayer k u now finishNow).players k = some q ∧
      q.progress = min (x / (l.raceDistance * 10)) 1 ∧ q.progress ≤ 1 ∧
      (0 ≤ x → 0 ≤ q.progress) ∧ (x < 0 → q.progress < 0) := by
  have h10 : 0 < l.raceDistance * 10 := by positivity
  have key : ∀ q : Player, q.progress = min (x / (l.raceDistance * 10)) 1 →
      q.progress = min (x / (l.raceDistance * 10)) 1 ∧ q.progress ≤ 1 ∧
      (0 ≤ x → 0 ≤ q.progress) ∧ (x < 0 → q.progress < 0) := by
    intro q hq
    refine ⟨hq, by rw [hq]; exact min_le_right _ _, ?_, ?_⟩
    · intro h0
      rw [hq]
      exact le_min (div_nonneg h0 h10.le) zero_le_one
    · intro h0
      rw [hq]
      exact lt_of_le_of_lt (min_le_left _ _) (div_neg_of_neg_of_pos h0 h10)
  refine ⟨_, updatePlayer_stored l k p u now finishNow hp, key _ ?_⟩
  split_ifs <;> simp [mergedPlayer_progress, hx]

theorem progress_eq_min_witness :
    (0 < soloRace.raceDistance ∧ mapGet soloRace.players "a" = some soloPlayer ∧
      ({ x := some (-10) } : UpdateData).x = some (-10)) ∧
    ∃ q, mapGet (soloRace.updatePlayer "a" { x := some (-10) } 3 4).players "a" = some q ∧
      q.progress = min ((-10) / (soloRace.raceDistance * 10)) 1 ∧ q.progress ≤ 1 ∧
      ((0 : ℚ) ≤ -10 → 0 ≤ q.progress) ∧ ((-10 : ℚ) < 0 → q.progress < 0) :=
  ⟨⟨by decide!, by decide!, rfl⟩,
   progress_eq_min soloRace "a" soloPlayer { x := some (-10) } 3 4 (-10)
     (by decide!) (by decide!) rfl⟩

/-! ## Leaderboard (C4) -/

theorem leaderboardLe_total (a b : Player) : leaderboardLe a b ∨ leaderboardLe b a := by
  unfold leaderboardLe leaderboardCompare
  cases ha : truthy a.finishTime <;> cases hb : truthy b.finishTime <;> simp
  · exact le_total _ _
  · exact le_total _ _

theorem leaderboardLe_trans (a b c : Player) (hab : leaderboardLe a b)
    (hbc : leaderboardLe b c) : leaderboardLe a c := by
  unfold leaderboardLe leaderboardCompare at *
  cases ha : truthy a.finishTime <;> cases hb : truthy b.finishTime <;>
    cases hc : truthy c.finishTime <;> simp [ha, hb, hc] at hab hbc ⊢ <;> linarith

theorem truthy_of_pos (ft : Option ℚ) (h : ∀ t, ft = some t → 0 < t) :
    truthy ft = ft.isSome := by
  cases ft with
  | none => rfl
  | some t => simpa [truthy] using (h t rfl).ne'

theorem jsSort_leaderboard_sorted (ps : List Player) :
    (jsSort leaderboardCompare ps).Pairwise leaderboardLe := by
  haveI : IsTotal Player leaderboardLe := ⟨leaderboardLe_total⟩
  haveI : IsTrans Player leaderboardLe := ⟨leaderboardLe_trans⟩
  exact List.sorted_insertionSort leaderboardLe ps

theorem jsSort_perm {α : Type} (cmp : α → α → ℚ) (l : List α) : (jsSort cmp l).Perm l :=
  List.perm_insertionSort _ l

theorem pos_of_finishTimesPositive (ps : List Player) (h : finishTimesPositive ps = true) :
    ∀ p ∈ ps, ∀ t, p.finishTime = some t → 0 < t := by
  intro p hp t ht
  have := List.all_eq_true.1 h p hp
  simpa [ht] using this

/-- C4: for a roster whose finish times are positive timestamps or null,
`updateLeaderboard` sets `leaderboard` to a permutation of the roster in which
no unfinished player stands before a finished one, finished players are in
non-decreasing `finishTime` order and unfinished players are in
non-increasing `progress` order. -/
theorem updateLeaderboard_sorted_permutation (l : GameLobby)
    (h : ∀ p ∈ mapValues l.players, ∀ t, p.finishTime = some t → 0 < t) :
    l.updateLeaderboard.leaderboard.Perm (mapValues l.players) ∧
    l.updateLeaderboard.leaderboard.Pairwise (fun a b =>
      (a.finishTime = none → b.finishTime = none) ∧
      (∀ ta tb, a.finishTime = some ta → b.finishTime = some tb → ta ≤ tb) ∧
      (a.finishTime = none → b.finishTime = none → b.progress ≤ a.progress)) := by
  have hperm := jsSort_perm leaderboardCompare (mapValues l.players)
  refine ⟨hperm, ?_⟩
  refine List.Pairwise.imp_of_mem ?_ (jsSort_leaderboard_sorted (mapValues l.players))
  intro a b ha hb hab
  have hta := truthy_of_pos a.finishTime (h a (hperm.mem_iff.1 ha))
  have htb := truthy_of_pos b.finishTime (h b (hperm.mem_iff.1 hb))
  unfold leaderboardLe leaderboardCompare at hab
  rw [hta, htb] at hab
  cases hfa : a.finishTime <;> cases hfb : b.finishTime <;> simp [hfa, hfb] at hab ⊢
  · linarith
  · norm_num at hab
  · exact hab

theorem updateLeaderboard_sorted_permutation_witness :
    (∀ p ∈ mapValues mixedLobby.players, ∀ t, p.finishTime = some t → 0 < t) ∧
    mixedLobby.updateLeaderboard.leaderboard.Perm (mapValues mixedLobby.players) ∧
    mixedLobby.updateLeaderboard.leaderboard.Pairwise (fun a b =>
      (a.finishTime = none → b.finishTime = none) ∧
      (∀ ta tb, a.finishTime = some ta → b.finishTime = some tb → ta ≤ tb) ∧
      (a.finishTime = none → b.finishTime = none → b.progress ≤ a.progress)) :=
  ⟨pos_of_finishTimesPositive _ (by decide!),
   updateLeaderboard_sorted_permutation mixedLobby
     (pos_of_finishTimesPositive _ (by decide!))⟩

/-- The leaderboard of `mixedLobby`: the roster order is Alice, Bob, Carol. -/
theorem mixedLobby_leaderboard :
    (mapValues mixedLobby.players).map (fun p => (p.name, p.finishTime, p.progress))
      = [("Alice", none, 7 / 10), ("Bob", some 8, 1), ("Carol", some 6, 1)] ∧
    mixedLobby.updateLeaderboard.leaderboard.map (fun p => p.name)
      = ["Carol", "Bob", "Alice"] := by
  decide!

/-! ## End-to-end scenario (C5) -/

/-- C5: connection `host` creates lobby 123456, a second connection joins as
Bob and the host starts a land race over 1000 m: the lobby is racing and both
players have progress 0.  After the host's update with `x = 10000` its progress
is 1, its finish time is set, `playersFinished` is 1 and the lobby is still
racing.  After Bob's update with `x = 10000`, at a time not earlier than the
host's, the lobby is finished and the leaderboard is host, Bob. -/
theorem end_to_end_race (hostName guest : String) (t0 t1 t2 t3 t3f t4 t4f : ℚ)
    (hname : hostName ≠ "Bob") (hguest : guest ≠ "host") (h3 : 0 < t3f) (h4 : t3f ≤ t4f) :
    (∃ l, mapGet (scenarioStarted hostName guest t0 t1 t2).lobbies "123456" = some l ∧
        l.gameState = GameState.racing ∧ mapKeys l.players = ["host", guest] ∧
        (mapValues l.players).map (fun p => p.name) = [hostName, "Bob"] ∧
        (mapValues l.players).map (fun p => p.progress) = [0, 0]) ∧
    (∃ l h, mapGet (scenarioHostDone hostName guest t0 t1 t2 t3 t3f).lobbies "123456" = some l ∧
        mapGet l.players "host" = some h ∧ h.progress = 1 ∧ h.finishTime = some t3f ∧
        l.playersFinished = 1 ∧ l.gameState = GameState.racing) ∧
    (∃ l, mapGet (scenarioAllDone hostName guest t0 t1 t2 t3 t3f t4 t4f).lobbies "123456"
          = some l ∧
        l.gameState = GameState.finished ∧
        l.leaderboard.map (fun p => p.id) = ["host", guest] ∧
        l.leaderboard.map (fun p => p.name) = [hostName, "Bob"]) := by
  have hg : ¬ ("host" = guest) := fun h => hguest h.symm
  have h3n : t3f ≠ 0 := h3.ne'
  have h4n : t4f ≠ 0 := (lt_of_lt_of_le h3 h4).ne'
  have h34 : t3f - t4f ≤ 0 := by linarith
  refine ⟨?_, ?_, ?_⟩
  · simp [scenarioStarted, createLobby, joinLobby, startRace, Server.empty, GameLobby.new,
      GameLobby.addPlayer, GameLobby.startRace, mapSet, mapGet, mapValues, mapKeys, newPlayer,
      resetPlayer, hname, hg]
  · simp [scenarioHostDone, scenarioStarted, createLobby, joinLobby, startRace, playerUpdate,
      Server.empty, GameLobby.new, GameLobby.addPlayer, GameLobby.startRace,
      GameLobby.updatePlayer, GameLobby.updateLeaderboard, mergedPlayer, assign, truthy,
      FINISH_LINE_MULTIPLIER, mapSet, mapGet, mapValues, mapKeys, newPlayer, resetPlayer,
      hname, hg, hguest]
    norm_num [mapGet]
  · simp [scenarioAllDone, scenarioHostDone, scenarioStarted, createLobby, joinLobby, startRace,
      playerUpdate, Server.empty, GameLobby.new, GameLobby.addPlayer, GameLobby.startRace,
      GameLobby.updatePlayer, GameLobby.updateLeaderboard, mergedPlayer, assign, truthy,
      FINISH_LINE_MULTIPLIER, mapSet, mapGet, mapValues, mapKeys, newPlayer, resetPlayer,
      hname, hg, hguest, jsSort, leaderboardCompare, h3n, h4n, h34]
    norm_num [mapGet, mapSet, hg, hguest, truthy, h3n, h4n, h34, jsSort, leaderboardCompare,
      mapValues]

theorem end_to_end_race_witness :
    (("Alice" : String) ≠ "Bob" ∧ ("guest" : String) ≠ "host" ∧ (0 : ℚ) < 5 ∧ (5 : ℚ) ≤ 7) ∧
    (∃ l, mapGet (scenarioStarted "Alice" "guest" 1 2 3).lobbies "123456" = some l ∧
        l.gameState = GameState.racing ∧ mapKeys l.players = ["host", "guest"] ∧
        (mapValues l.players).map (fun p => p.name) = ["Alice", "Bob"] ∧
        (mapValues l.players).map (fun p => p.progress) = [0, 0]) ∧
    (∃ l h, mapGet (scenarioHostDone "Alice" "guest" 1 2 3 4 5).lobbies "123456" = some l ∧
        mapGet l.players "host" = some h ∧ h.progress = 1 ∧ h.finishTime = some 5 ∧
        l.playersFinished = 1 ∧ l.gameState = GameState.racing) ∧
    (∃ l, mapGet (scenarioAllDone "Alice" "guest" 1 2 3 4 5 6 7).lobbies "123456" = some l ∧
        l.gameState = GameState.finished ∧
        l.leaderboard.map (fun p => p.id) = ["host", "guest"] ∧
        l.leaderboard.map (fun p => p.name) = ["Alice", "Bob"]) :=
  ⟨⟨by decide, by decide, by norm_num, by norm_num⟩,
   end_to_end_race "Alice" "guest" 1 2 3 4 5 6 7 (by decide) (by decide) (by norm_num)
     (by norm_num)⟩

/-! ## Joining a lobby (C8, C9, C10) -/

theorem any_name_of_mem (ps : List Player) (n : String) (h : ∃ p ∈ ps, p.name = n) :
    ps.any (fun p => decide (p.name = n)) = true := by
  obtain ⟨p, hp, hn⟩ := h
  exact List.any_eq_true.2 ⟨p, hp, by simp [hn]⟩

theorem any_name_eq_false (ps : List Player) (n : String) (h : ∀ p ∈ ps, p.name ≠ n) :
    ps.any (fun p => decide (p.name = n)) = false := by
  rw [List.any_eq_false]
  intro p hp
  simpa using h p hp

/-- C8 as stated fails: the lobby 123456 is racing and contains a player named
Alice; a join with that name is answered with 'Game already in progress', not
with 'Player name already taken'. -/
theorem duplicate_name_mid_race_is_game_in_progress :
    (mapGet racingServer.lobbies "123456").map
        (fun l => (l.gameState, (mapValues l.players).map (fun p => p.name)))
      = some (GameState.racing, ["Alice"]) ∧
    joinLobby racingServer "b" "123456" "Alice" 3
      = (racingServer, [lobbyJoinedError "b" "Game already in progress"]) := by
  decide!

/-- C8, amended: for every registered lobby that contains a player named `n`
(case-sensitive), a join with that code and name adds no player and leaves the
server unchanged; the error is 'Player name already taken' when the lobby's
state is lobby and 'Game already in progress' when it is racing or finished. -/
theorem join_duplicate_name_rejected (s : Server) (socketId code n : String) (now : ℚ)
    (l : GameLobby) (hl : mapGet s.lobbies code = some l)
    (hn : ∃ p ∈ mapValues l.players, p.name = n) :
    joinLobby s socketId code n now =
      (s, [lobbyJoinedError socketId
            (if l.gameState = GameState.lobby then "Player name already taken"
             else "Game already in progress")]) := by
  unfold joinLobby
  simp only [hl]
  by_cases hs : l.gameState = GameState.lobby
  · simp [hs, any_name_of_mem _ _ hn, lobbyJoinedError]
  · simp [hs, lobbyJoinedError]

theorem join_duplicate_name_rejected_witness :
    (mapGet waitingServer.lobbies "123456" = some waitingLobby ∧
      ∃ p ∈ mapValues waitingLobby.players, p.name = "Alice") ∧
    joinLobby waitingServer "b" "123456" "Alice" 2 =
      (waitingServer, [lobbyJoinedError "b"
            (if waitingLobby.gameState = GameState.lobby then "Player name already taken"
             else "Game already in progress")]) :=
  ⟨⟨by decide!, newPlayer 0 "a" "Alice" true 1, by decide!, rfl⟩,
   join_duplicate_name_rejected waitingServer "b" "123456" "Alice" 2 waitingLobby
     (by decide!) ⟨newPlayer 0 "a" "Alice" true 1, by decide!, rfl⟩⟩

/-- C9: a join with an unregistered code is answered with 'Lobby not found', a
join into a lobby that is racing or finished with 'Game already in progress';
both leave the registry, the directory and every roster unchanged.  A join
that replies success, or that changes the server at all, found the lobby in
state lobby. -/
theorem join_rejected_unless_lobby_state (s : Server) (socketId code n : String) (now : ℚ) :
    (mapGet s.lobbies code = none →
      joinLobby s socketId code n now = (s, [lobbyJoinedError socketId "Lobby not found"])) ∧
    (∀ l, mapGet s.lobbies code = some l → l.gameState ≠ GameState.lobby →
      joinLobby s socketId code n now
        = (s, [lobbyJoinedError socketId "Game already in progress"])) ∧
    (((joinLobby s socketId code n now).2.any Emit.isJoinSuccess = true ∨
        (joinLobby s socketId code n now).1 ≠ s) →
      ∃ l, mapGet s.lobbies code = some l ∧ l.gameState = GameState.lobby) := by
  refine ⟨?_, ?_, ?_⟩
  · intro h
    simp [joinLobby, h, lobbyJoinedError]
  · intro l hl hs
    simp [joinLobby, hl, hs, lobbyJoinedError]
  · intro h
    cases hl : mapGet s.lobbies code with
    | none => simp [joinLobby, hl, Emit.isJoinSuccess] at h
    | some l =>
      by_cases hs : l.gameState = GameState.lobby
      · exact ⟨l, rfl, hs⟩
      · simp [joinLobby, hl, hs, Emit.isJoinSuccess] at h

theorem join_rejected_unless_lobby_state_witness :
    joinLobby waitingServer "b" "999999" "Bob" 2
      = (waitingServer, [lobbyJoinedError "b" "Lobby not found"]) ∧
    joinLobby racingServer "b" "123456" "Bob" 3
      = (racingServer, [lobbyJoinedError "b" "Game already in progress"]) ∧
    ∃ l, mapGet waitingServer.lobbies "123456" = some l ∧ l.gameState = GameState.lobby :=
  ⟨(join_rejected_unless_lobby_state waitingServer "b" "999999" "Bob" 2).1 (by decide!),
   (join_rejected_unless_lobby_state racingServer "b" "123456" "Bob" 3).2.1
     ((GameLobby.new "123456" "a" "Alice" 1).startRace 1000 "land" 2) (by decide!) (by decide!),
   (join_rejected_unless_lobby_state waitingServer "b" "123456" "Bob" 2).2.2
     (Or.inl (by decide!))⟩

/-- C10: when the lobby exists in state lobby, the name is unused and the
connection is not in the roster, `joinLobby` appends exactly one player, keyed
by the connection id, with the given name, `isHost` false, position (100, 200),
health 100, progress 0, score 0 and no finish time; the other roster entries,
the other lobby fields and the other lobbies are unchanged, the directory maps
the connection to (code, connection id), and the first message is the success
reply carrying the new snapshot. -/
theorem join_adds_one_player (s : Server) (socketId code n : String) (now : ℚ)
    (l : GameLobby) (hl : mapGet s.lobbies code = some l)
    (hs : l.gameState = GameState.lobby)
    (hn : ∀ p ∈ mapValues l.players, p.name ≠ n)
    (hk : mapGet l.players socketId = none) :
    ∃ p : Player,
      (p.id = socketId ∧ p.name = n ∧ p.isHost = false ∧ p.x = 100 ∧ p.y = 200 ∧
        p.health = 100 ∧ p.progress = 0 ∧ p.score = 0 ∧ p.finishTime = none) ∧
      mapGet (joinLobby s socketId code n now).1.lobbies code
        = some { l with players := l.players ++ [(socketId, p)] } ∧
      (∀ c, c ≠ code →
        mapGet (joinLobby s socketId code n now).1.lobbies c = mapGet s.lobbies c) ∧
      mapGet (joinLobby s socketId code n now).1.players socketId
        = some { lobbyCode := code, playerId := socketId } ∧
      (joinLobby s socketId code n now).2.head?
        = some (Emit.toSocket socketId "lobbyJoined"
            { success := true, code := none, error := none,
              gameState := some
                (GameLobby.getGameState { l with players := l.players ++ [(socketId, p)] }) }) := by
  refine ⟨newPlayer l.players.length socketId n false now, ?_, ?_, ?_, ?_, ?_⟩
  · simp [newPlayer, GROUND_Y, PLAYER_HEIGHT]
    norm_num
  · simp [joinLobby, hl, hs, any_name_eq_false _ _ hn, GameLobby.addPlayer, mapGet_mapSet_self,
      mapSet_of_mapGet_none _ _ _ hk]
  · intro c hc
    simp [joinLobby, hl, hs, any_name_eq_false _ _ hn, mapGet_mapSet_ne _ _ _ _ hc]
  · simp [joinLobby, hl, hs, any_name_eq_false _ _ hn, mapGet_mapSet_self]
  · simp [joinLobby, hl, hs, any_name_eq_false _ _ hn, GameLobby.addPlayer,
      mapSet_of_mapGet_none _ _ _ hk]

theorem join_adds_one_player_witness :
    (mapGet waitingServer.lobbies "123456" = some waitingLobby ∧
      waitingLobby.gameState = GameState.lobby ∧
      (∀ p ∈ mapValues waitingLobby.players, p.name ≠ "Bob") ∧
      mapGet waitingLobby.players "b" = none) ∧
    ∃ p : Player,
      (p.id = "b" ∧ p.name = "Bob" ∧ p.isHost = false ∧ p.x = 100 ∧ p.y = 200 ∧
        p.health = 100 ∧ p.progress = 0 ∧ p.score = 0 ∧ p.finishTime = none) ∧
      mapGet (joinLobby waitingServer "b" "123456" "Bob" 2).1.lobbies "123456"
        = some { waitingLobby with players := waitingLobby.players ++ [("b", p)] } ∧
      (∀ c, c ≠ "123456" →
        mapGet (joinLobby waitingServer "b" "123456" "Bob" 2).1.lobbies c
          = mapGet waitingServer.lobbies c) ∧
      mapGet (joinLobby waitingServer "b" "123456" "Bob" 2).1.players "b"
        = some { lobbyCode := "123456", playerId := "b" } ∧
      (joinLobby waitingServer "b" "123456" "Bob" 2).2.head?
        = some (Emit.toSocket "b" "lobbyJoined"
            { success := true, code := none, error := none,
              gameState := some
                (GameLobby.getGameState
                  { waitingLobby with players := waitingLobby.players ++ [("b", p)] }) }) :=
  ⟨⟨by decide!, by decide!, by decide!, by decide!⟩,
   join_adds_one_player waitingServer "b" "123456" "Bob" 2 waitingLobby
     (by decide!) (by decide!) (by decide!) (by decide!)⟩

/-! ## Projectiles in a tick (C17, C18, C19, C20) -/

theorem generateSynchronizedGameObjects_players (l : GameLobby) (env : TickEnv) :
    (l.generateSynchronizedGameObjects env).players = l.players := by
  unfold GameLobby.generateSynchronizedGameObjects GameLobby.spawnSynchronizedObstacle
    GameLobby.spawnSynchronizedPowerUp
  simp only
  split_ifs <;> rfl

theorem generateSynchronizedGameObjects_bullets (l : GameLobby) (env : TickEnv) :
    (l.generateSynchronizedGameObjects env).bullets = l.bullets := by
  unfold GameLobby.generateSynchronizedGameObjects GameLobby.spawnSynchronizedObstacle
    GameLobby.spawnSynchronizedPowerUp
  simp only
  split_ifs <;> rfl

theorem generateSynchronizedGameObjects_gameState (l : GameLobby) (env : TickEnv) :
    (l.generateSynchronizedGameObjects env).gameState = l.gameState := by
  unfold GameLobby.generateSynchronizedGameObjects GameLobby.spawnSynchronizedObstacle
    GameLobby.spawnSynchronizedPowerUp
  simp only
  split_ifs <;> rfl

theorem updateGameObjects_players (l : GameLobby) (env : TickEnv) :
    (l.updateGameObjects env).players = (updateBullets l.bullets l.players).1 := by
  simp [GameLobby.updateGameObjects, generateSynchronizedGameObjects_players]

theorem updateGameObjects_bullets (l : GameLobby) (env : TickEnv) :
    (l.updateGameObjects env).bullets = (updateBullets l.bullets l.players).2 := by
  simp [GameLobby.updateGameObjects, generateSynchronizedGameObjects_bullets]

/-- A player that the bullet does not overlap, or that owns it, is left as it
is by the `forEach` over the roster. -/
theorem hitPlayers_get_unchanged (bullet : Bullet) (k : String) (p : Player)
    (h : checkCollision bullet p = true → bullet.playerId = p.id) :
    ∀ (ps : List (String × Player)) (rest : List Bullet), mapGet ps k = some p →
      mapGet (hitPlayers bullet ps rest).1 k = some p := by
  intro ps
  induction ps with
  | nil => intro rest hp; simp [mapGet] at hp
  | cons e ps ih =>
    intro rest hp
    obtain ⟨k0, player⟩ := e
    by_cases hk : k0 = k
    · simp only [mapGet, hk, if_true, Option.some.injEq] at hp
      subst hp
      unfold hitPlayers
      by_cases hid : player.id = bullet.playerId
      · simp [hid, mapGet, hk]
      · by_cases hc : checkCollision bullet player = true
        · exact absurd (h hc).symm hid
        · simp [hid, hc, mapGet, hk]
    · simp only [mapGet, hk, if_false] at hp
      unfold hitPlayers
      split_ifs <;> simp [mapGet, hk, ih _ hp]

theorem updateBullets_get_unchanged (k : String) (p : Player) :
    ∀ (bs : List Bullet) (ps : List (String × Player)), mapGet ps k = some p →
      (∀ b ∈ bs, checkCollision (advanceBullet b) p = true → b.playerId = p.id) →
      mapGet (updateBullets bs ps).1 k = some p := by
  intro bs
  induction bs with
  | nil => intro ps hp _; simpa [updateBullets] using hp
  | cons b bs ih =>
    intro ps hp h
    have h1 := ih ps hp (fun b1 hb1 => h b1 (List.mem_cons_of_mem _ hb1))
    unfold updateBullets
    simp only
    split_ifs
    · exact h1
    · exact hitPlayers_get_unchanged _ k p
        (fun hc => by simpa [advanceBullet] using h b (List.mem_cons_self _ _) hc) _ _ h1

theorem hitPlayers_snd_subset (bullet : Bullet) :
    ∀ (ps : List (String × Player)) (rest : List Bullet),
      ∀ x ∈ (hitPlayers bullet ps rest).2, x ∈ rest := by
  intro ps
  induction ps with
  | nil => intro rest x hx; simpa [hitPlayers] using hx
  | cons e ps ih =>
    intro rest x hx
    obtain ⟨k0, player⟩ := e
    unfold hitPlayers at hx
    split_ifs at hx
    · exact ih _ _ hx
    · exact List.mem_of_mem_drop (ih _ _ hx)
    · exact ih _ _ hx

theorem updateBullets_snd_advanced :
    ∀ (bs : List Bullet) (ps : List (String × Player)),
      ∀ x ∈ (updateBullets bs ps).2, ∃ b ∈ bs, x = advanceBullet b ∧ x.x ≤ 2000 := by
  intro bs
  induction bs with
  | nil => intro ps x hx; simp [updateBullets] at hx
  | cons b bs ih =>
    intro ps x hx
    unfold updateBullets at hx
    simp only at hx
    split_ifs at hx with hfar
    · obtain ⟨b1, hb1, h⟩ := ih ps x hx
      exact ⟨b1, List.mem_cons_of_mem _ hb1, h⟩
    · have hx1 := hitPlayers_snd_subset _ _ _ x hx
      rcases List.mem_cons.1 hx1 with rfl | hx2
      · exact ⟨b, List.mem_cons_self _ _, rfl, not_lt.1 hfar⟩
      · obtain ⟨b1, hb1, h⟩ := ih ps x hx2
        exact ⟨b1, List.mem_cons_of_mem _ hb1, h⟩

/-- A bullet that overlaps no player other than its owner leaves the roster
and the bullet array as they are. -/
theorem hitPlayers_miss (bullet : Bullet) :
    ∀ (ps : List (String × Player)) (rest : List Bullet),
      (∀ e ∈ ps, e.2.id ≠ bullet.playerId → checkCollision bullet e.2 = false) →
      hitPlayers bullet ps rest = (ps, rest) := by
  intro ps
  induction ps with
  | nil => intro rest _; rfl
  | cons e ps ih =>
    intro rest h
    obtain ⟨k0, player⟩ := e
    have ih1 := ih rest (fun e1 he1 => h e1 (List.mem_cons_of_mem _ he1))
    unfold hitPlayers
    by_cases hid : player.id = bullet.playerId
    · simp [hid, ih1]
    · have hc := h (k0, player) (List.mem_cons_self _ _) hid
      simp only at hc
      simp [hid, hc, ih1]

/-- C17: one projectile lowers the health of two players in one tick.  The
host's bullet overlaps Bob and Carol, who both stand at the start; after the
tick both have health 50. -/
theorem one_bullet_damages_two_players :
    (mapGet (run Server.empty (threeAtStart ++ [shotAtBoth])).lobbies "123456").map
        (fun l => (l.bullets.map (fun b => (b.playerId, b.x, b.y)),
          l.players.map (fun e => (e.1, e.2.health))))
      = some ([("a", 90, 210)], [("a", 100), ("b", 100), ("c", 100)]) ∧
    (mapGet (run Server.empty (threeAtStart ++ [shotAtBoth, Event.tick calmEnv])).lobbies
        "123456").map
        (fun l => (l.bullets, l.players.map (fun e => (e.1, e.2.health))))
      = some ([], [("a", 100), ("b", 50), ("c", 50)]) := by
  decide!

/-- C18: a tick destroys a projectile that stays in range and overlaps
nobody.  The second bullet, at x = 500, is alone in the list after a tick
without the first one; with the first bullet hitting Bob and Carol the second
`splice(i, 1)` removes it. -/
theorem harmless_bullet_removed_by_second_splice :
    (mapGet (run Server.empty (threeAtStart ++ [shotAhead, Event.tick calmEnv])).lobbies
        "123456").map (fun l => l.bullets.map (fun b => (b.x, b.y)))
      = some [(510, 210)] ∧
    (mapGet (run Server.empty (threeAtStart ++ [shotAtBoth, shotAhead])).lobbies
        "123456").map (fun l => l.bullets.map (fun b => (b.x, b.y)))
      = some [(90, 210), (500, 210)] ∧
    (mapGet (run Server.empty
        (threeAtStart ++ [shotAtBoth, shotAhead, Event.tick calmEnv])).lobbies
        "123456").map (fun l => l.bullets.map (fun b => (b.x, b.y)))
      = some [] := by
  decide!

/-- C19: if every projectile that overlaps player `p` after its advance is
owned by `p`, then `updateGameObjects` leaves `p` as it is; in particular the
health of `p` is unchanged. -/
theorem owner_not_damaged (l : GameLobby) (env : TickEnv) (k : String) (p : Player)
    (hp : mapGet l.players k = some p)
    (h : ∀ b ∈ l.bullets, checkCollision (advanceBullet b) p = true → b.playerId = p.id) :
    mapGet (l.updateGameObjects env).players k = some p ∧
    (mapGet (l.updateGameObjects env).players k).map (fun q => q.health) = some p.health := by
  have h1 : mapGet (l.updateGameObjects env).players k = some p := by
    rw [updateGameObjects_players]
    exact updateBullets_get_unchanged k p _ _ hp h
  exact ⟨h1, by rw [h1]; rfl⟩

theorem owner_not_damaged_witness :
    (mapGet shotLobby.players "a" = some soloPlayer ∧
      (∀ b ∈ shotLobby.bullets,
        checkCollision (advanceBullet b) soloPlayer = true → b.playerId = soloPlayer.id) ∧
      shotLobby.bullets.map (fun b => checkCollision (advanceBullet b) soloPlayer) = [true]) ∧
    (mapGet (shotLobby.updateGameObjects calmTick).players "a" = some soloPlayer ∧
     (mapGet (shotLobby.updateGameObjects calmTick).players "a").map (fun q => q.health)
       = some soloPlayer.health) :=
  ⟨⟨by decide!, by decide!, by decide!⟩,
   owner_not_damaged shotLobby calmTick "a" soloPlayer (by decide!) (by decide!)⟩

theorem checkCollision_congr (b c : Bullet) (p : Player) (hx : b.x = c.x) (hy : b.y = c.y)
    (hw : b.width = c.width) (hh : b.height = c.height) :
    checkCollision b p = checkCollision c p := by
  simp [checkCollision, hx, hy, hw, hh]

/-- One tick of a lobby whose only bullet is still in range afterwards and
overlaps no player other than its owner: the bullet has moved on by 10. -/
theorem inFlight_step (k : String) (y : ℚ) (ps : List (String × Player)) (n : ℕ)
    (m : GameLobby) (env : TickEnv) (hm : InFlight k y ps n m) (hn : n < 200)
    (hmiss : ∀ e ∈ ps, e.2.id ≠ k →
      checkCollision (bulletAt k (10 * ((n + 1 : ℕ) : ℚ)) y) e.2 = false) :
    InFlight k y ps (n + 1) (m.updateGameObjects env) := by
  obtain ⟨hps, b, hb, hk, hx, hy, hs, hw, hh⟩ := hm
  have hx1 : (advanceBullet b).x = 10 * ((n + 1 : ℕ) : ℚ) := by
    simp [advanceBullet, hx, hs]; ring
  have hle : ¬ (advanceBullet b).x > 2000 := by
    rw [hx1, not_lt]
    have : ((n + 1 : ℕ) : ℚ) ≤ 200 := by exact_mod_cast hn
    linarith
  have hmiss1 : ∀ e ∈ ps, e.2.id ≠ (advanceBullet b).playerId →
      checkCollision (advanceBullet b) e.2 = false := by
    intro e he hid
    have hid1 : e.2.id ≠ k := by simpa [advanceBullet, hk] using hid
    rw [← hmiss e he hid1]
    exact checkCollision_congr _ _ _ (by simp [bulletAt, hx1]) (by simp [bulletAt, advanceBullet, hy])
      (by simp [bulletAt, advanceBullet, hw]) (by simp [bulletAt, advanceBullet, hh])
  have hub : updateBullets m.bullets m.players = (ps, [advanceBullet b]) := by
    rw [hb, hps]
    simp only [updateBullets, hle, if_false]
    exact hitPlayers_miss _ _ _ hmiss1
  refine ⟨by rw [updateGameObjects_players, hub], advanceBullet b, ?_, ?_, hx1, ?_, ?_, ?_, ?_⟩
  · rw [updateGameObjects_bullets, hub]
  · simpa [advanceBullet] using hk
  · simpa [advanceBullet] using hy
  · simpa [advanceBullet] using hs
  · simpa [advanceBullet] using hw
  · simpa [advanceBullet] using hh

/-- The tick that carries the bullet from x = 2000 to x = 2010 removes it. -/
theorem inFlight_last (k : String) (y : ℚ) (ps : List (String × Player))
    (m : GameLobby) (env : TickEnv) (hm : InFlight k y ps 200 m) :
    (m.updateGameObjects env).bullets = [] := by
  obtain ⟨_, b, hb, _, hx, _, hs, _, _⟩ := hm
  have hfar : (advanceBullet b).x > 2000 := by
    simp [advanceBullet, hx, hs]; norm_num
  rw [updateGameObjects_bullets, hb]
  simp [updateBullets, hfar]

theorem inFlight_ticks (k : String) (y : ℚ) (ps : List (String × Player))
    (hmiss : ∀ e ∈ ps, e.2.id ≠ k → ∀ i : ℕ, 1 ≤ i → i ≤ 200 →
      checkCollision (bulletAt k (10 * (i : ℚ)) y) e.2 = false) :
    ∀ (envs : List TickEnv) (n : ℕ) (m : GameLobby), InFlight k y ps n m →
      (n + envs.length ≤ 200 → InFlight k y ps (n + envs.length) (ticks m envs)) ∧
      (n ≤ 200 → n + envs.length = 201 → (ticks m envs).bullets = []) := by
  intro envs
  induction envs with
  | nil =>
    intro n m hm
    exact ⟨fun _ => by simpa [ticks] using hm, fun h1 h2 => by simp at h2; omega⟩
  | cons env envs ih =>
    intro n m hm
    have hlen : (env :: envs).length = envs.length + 1 := rfl
    have hticks : ticks m (env :: envs) = ticks (m.updateGameObjects env) envs := rfl
    rw [hticks, hlen]
    constructor
    · intro hle
      have hn : n < 200 := by omega
      have hstep := inFlight_step k y ps n m env hm hn
        (fun e he hid => hmiss e he hid (n + 1) (by omega) (by omega))
      have := (ih (n + 1) _ hstep).1 (by omega)
      rwa [show n + 1 + envs.length = n + (envs.length + 1) by omega] at this
    · intro hle heq
      by_cases hn : n < 200
      · have hstep := inFlight_step k y ps n m env hm hn
          (fun e he hid => hmiss e he hid (n + 1) (by omega) (by omega))
        exact (ih (n + 1) _ hstep).2 (by omega) (by omega)
      · have h200 : n = 200 := by omega
        subst h200
        have hnil : envs = [] := List.length_eq_zero.1 (by omega)
        subst hnil
        simpa [ticks] using inFlight_last k y ps m env hm

/-- What the tick does guarantee about projectiles: after a tick every
remaining projectile has x at most 2000 and is a projectile of the list before
the tick advanced by exactly its speed.  A projectile created by `addBullet`
at x = 0 with speed 10 (explicit or default) as the only projectile of the
lobby, which overlaps no player other than its owner on its way, is present
with x = 10 * n after n ticks for every n up to 200, and the list is empty
after 201 ticks.  With other projectiles in the list the lifetime is not
guaranteed: a projectile that hits two players removes a second projectile. -/
theorem projectile_bound_and_lifetime :
    (∀ (l : GameLobby) (env : TickEnv), ∀ b1 ∈ (l.updateGameObjects env).bullets,
      b1.x ≤ 2000 ∧ ∃ b ∈ l.bullets, b1 = advanceBullet b ∧ b1.x = b.x + b.speed) ∧
    (∀ (l : GameLobby) (k : String) (y now rand : ℚ) (speed : Option ℚ)
      (envs : List TickEnv),
      l.bullets = [] → (mapGet l.players k).isSome = true →
      (speed = none ∨ speed = some 10) →
      (∀ e ∈ l.players, e.2.id ≠ k → ∀ i : ℕ, 1 ≤ i → i ≤ 200 →
        checkCollision (bulletAt k (10 * (i : ℚ)) y) e.2 = false) →
      (envs.length ≤ 200 →
        (ticks (l.addBullet k { x := 0, y := y, speed := speed } now rand) envs).bullets.map
          (fun b => (b.playerId, b.x, b.y)) = [(k, 10 * (envs.length : ℚ), y)]) ∧
      (envs.length = 201 →
        (ticks (l.addBullet k { x := 0, y := y, speed := speed } now rand) envs).bullets
          = [])) := by
  constructor
  · intro l env b1 hb1
    rw [updateGameObjects_bullets] at hb1
    obtain ⟨b, hb, heq, hle⟩ := updateBullets_snd_advanced _ _ b1 hb1
    exact ⟨hle, b, hb, heq, by rw [heq]; rfl⟩
  · intro l k y now rand speed envs hnil hk hspeed hmiss
    have hstart : InFlight k y l.players 0
        (l.addBullet k { x := 0, y := y, speed := speed } now rand) := by
      obtain ⟨p, hp⟩ := Option.isSome_iff_exists.1 hk
      rcases hspeed with rfl | rfl <;>
        simp [InFlight, GameLobby.addBullet, hp, hnil, truthy]
    have h := inFlight_ticks k y l.players hmiss envs 0 _ hstart
    constructor
    · intro hle
      obtain ⟨_, b, hb, hk1, hx, hy, _⟩ := h.1 (by omega)
      simp [hb, hk1, hx, hy]
    · intro heq
      exact h.2 (by omega) (by omega)

theorem checkCollision_above (k : String) (x : ℚ) (p : Player) (h : p.y = 200) :
    checkCollision (bulletAt k x 0) p = false := by
  simp [checkCollision, bulletAt, h]
  intros
  norm_num

theorem projectile_bound_and_lifetime_witness :
    (∀ b1 ∈ (shotLobby.updateGameObjects calmTick).bullets,
      b1.x ≤ 2000 ∧ ∃ b ∈ shotLobby.bullets, b1 = advanceBullet b ∧ b1.x = b.x + b.speed) ∧
    (startedOfTwo.bullets = [] ∧ (mapGet startedOfTwo.players "a").isSome = true ∧
      (∀ e ∈ startedOfTwo.players, e.2.id ≠ "a" → ∀ i : ℕ, 1 ≤ i → i ≤ 200 →
        checkCollision (bulletAt "a" (10 * (i : ℚ)) 0) e.2 = false)) ∧
    (([calmTick, calmTick, calmTick].length ≤ 200 →
      (ticks (startedOfTwo.addBullet "a" { x := 0, y := 0, speed := none } 4 0)
          [calmTick, calmTick, calmTick]).bullets.map (fun b => (b.playerId, b.x, b.y))
        = [("a", 10 * (([calmTick, calmTick, calmTick].length : ℕ) : ℚ), 0)]) ∧
     ((List.replicate 201 calmTick).length = 201 →
      (ticks (startedOfTwo.addBullet "a" { x := 0, y := 0, speed := none } 4 0)
          (List.replicate 201 calmTick)).bullets = [])) :=
  have hmiss : ∀ e ∈ startedOfTwo.players, e.2.id ≠ "a" → ∀ i : ℕ, 1 ≤ i → i ≤ 200 →
      checkCollision (bulletAt "a" (10 * (i : ℚ)) 0) e.2 = false :=
    fun e he _ i _ _ =>
      checkCollision_above "a" _ e.2
        ((by decide! : ∀ e ∈ startedOfTwo.players, e.2.y = 200) e he)
  ⟨projectile_bound_and_lifetime.1 shotLobby calmTick,
   ⟨by decide!, by decide!, hmiss⟩,
   (projectile_bound_and_lifetime.2 startedOfTwo "a" 0 4 0 none [calmTick, calmTick, calmTick]
      (by decide!) (by decide!) (Or.inl rfl) hmiss).1,
   (projectile_bound_and_lifetime.2 startedOfTwo "a" 0 4 0 none (List.replicate 201 calmTick)
      (by decide!) (by decide!) (Or.inl rfl) hmiss).2⟩

/-- C20: a projectile created at x = 0 with speed 10 that overlaps no player
is not present after the first tick.  Alone in the list it survives the tick
at x = 10.  Shot after a bullet that overlaps Bob and Carol it is gone after
one tick: the earlier bullet sits at index 0, hits Bob and Carol in the same
`forEach`, and its second `splice(0, 1)` removes the fresh projectile. -/
theorem fresh_projectile_lost_in_first_tick :
    (mapGet (run Server.empty (threeAtStart ++ [shotAtBoth, shotFromOrigin])).lobbies
        "123456").map
        (fun l => (l.players.map (fun e => (e.1, e.2.x, e.2.y)),
          l.bullets.map (fun b => (b.x, b.y, b.speed))))
      = some ([("a", 100, 200), ("b", 100, 200), ("c", 100, 200)],
          [(90, 210, 10), (0, 0, 10)]) ∧
    (mapGet (run Server.empty (threeAtStart ++ [shotAtBoth, shotFromOrigin])).lobbies
        "123456").map
        (fun l => l.bullets.map (fun b =>
            l.players.map (fun e => checkCollision (advanceBullet b) e.2)))
      = some [[true, true, true], [false, false, false]] ∧
    (mapGet (run Server.empty (threeAtStart ++ [shotFromOrigin, Event.tick calmEnv])).lobbies
        "123456").map (fun l => l.bullets.map (fun b => (b.x, b.y)))
      = some [(10, 0)] ∧
    (mapGet (run Server.empty
        (threeAtStart ++ [shotAtBoth, shotFromOrigin, Event.tick calmEnv])).lobbies
        "123456").map (fun l => l.bullets.map (fun b => (b.x, b.y)))
      = some [] := by
  decide!

/-! ## More lemmas on the insertion-ordered map -/

theorem mapGet_mapDelete_self {α : Type} (m : List (String × α)) (k : String) :
    mapGet (mapDelete m k) k = none := by
  induction m with
  | nil => rfl
  | cons e m ih =>
    obtain ⟨k0, w⟩ := e
    by_cases h : k0 = k
    · simp [mapDelete, h, ih]
    · simp [mapDelete, mapGet, h, ih]

theorem mapGet_mapDelete_ne {α : Type} (m : List (String × α)) (k c : String) (h : c ≠ k) :
    mapGet (mapDelete m k) c = mapGet m c := by
  induction m with
  | nil => rfl
  | cons e m ih =>
    obtain ⟨k0, w⟩ := e
    by_cases h0 : k0 = k
    · subst h0
      simp [mapDelete, mapGet, Ne.symm h, ih]
    · by_cases h1 : k0 = c
      · subst h1
        simp [mapDelete, mapGet, h0]
      · simp [mapDelete, mapGet, h0, h1, ih]

theorem mem_of_mem_mapSet {α : Type} (m : List (String × α)) (k : String) (v : α)
    (e : String × α) (h : e ∈ mapSet m k v) : e ∈ m ∨ e = (k, v) := by
  induction m with
  | nil => right; simpa [mapSet] using h
  | cons e0 m ih =>
    obtain ⟨k0, w⟩ := e0
    unfold mapSet at h
    split_ifs at h with hk
    · rcases List.mem_cons.1 h with h1 | h1
      · right; rw [h1, hk]
      · left; exact List.mem_cons_of_mem _ h1
    · rcases List.mem_cons.1 h with h1 | h1
      · left; rw [h1]; exact List.mem_cons_self _ _
      · rcases ih h1 with h2 | h2
        · left; exact List.mem_cons_of_mem _ h2
        · right; exact h2

theorem mem_of_mem_mapDelete {α : Type} (m : List (String × α)) (k : String)
    (e : String × α) (h : e ∈ mapDelete m k) : e ∈ m ∧ e.1 ≠ k := by
  induction m with
  | nil => simp [mapDelete] at h
  | cons e0 m ih =>
    obtain ⟨k0, w⟩ := e0
    unfold mapDelete at h
    split_ifs at h with hk
    · exact ⟨List.mem_cons_of_mem _ (ih h).1, (ih h).2⟩
    · rcases List.mem_cons.1 h with h1 | h1
      · rw [h1]; exact ⟨List.mem_cons_self _ _, hk⟩
      · exact ⟨List.mem_cons_of_mem _ (ih h1).1, (ih h1).2⟩

theorem mem_of_mapGet {α : Type} (m : List (String × α)) (k : String) (v : α)
    (h : mapGet m k = some v) : (k, v) ∈ m := by
  induction m with
  | nil => simp [mapGet] at h
  | cons e0 m ih =>
    obtain ⟨k0, w⟩ := e0
    unfold mapGet at h
    split_ifs at h with hk
    · simp only [Option.some.injEq] at h
      rw [hk, h]; exact List.mem_cons_self _ _
    · exact List.mem_cons_of_mem _ (ih h)

theorem mapSet_ne_nil {α : Type} (m : List (String × α)) (k : String) (v : α) :
    mapSet m k v ≠ [] := by
  cases m with
  | nil => simp [mapSet]
  | cons e0 m =>
    obtain ⟨k0, w⟩ := e0
    unfold mapSet
    split_ifs <;> simp

theorem mapSet_length_of_mapGet {α : Type} (m : List (String × α)) (k : String) (v w : α)
    (h : mapGet m k = some w) : (mapSet m k v).length = m.length := by
  induction m with
  | nil => simp [mapGet] at h
  | cons e0 m ih =>
    obtain ⟨k0, w0⟩ := e0
    by_cases hk : k0 = k
    · simp [mapSet, hk]
    · simp only [mapGet, hk, if_false] at h
      simp [mapSet, hk, ih h]

theorem hitPlayers_fst_length (bullet : Bullet) :
    ∀ (ps : List (String × Player)) (rest : List Bullet),
      (hitPlayers bullet ps rest).1.length = ps.length := by
  intro ps
  induction ps with
  | nil => intro rest; rfl
  | cons e ps ih =>
    intro rest
    obtain ⟨k0, player⟩ := e
    unfold hitPlayers
    split_ifs <;> simp [ih]

theorem updateBullets_fst_length :
    ∀ (bs : List Bullet) (ps : List (String × Player)),
      (updateBullets bs ps).1.length = ps.length := by
  intro bs
  induction bs with
  | nil => intro ps; rfl
  | cons b bs ih =>
    intro ps
    unfold updateBullets
    simp only
    split_ifs
    · exact ih ps
    · rw [hitPlayers_fst_length, ih]

theorem updateGameObjects_gameState (l : GameLobby) (env : TickEnv) :
    (l.updateGameObjects env).gameState = l.gameState := by
  simp [GameLobby.updateGameObjects, generateSynchronizedGameObjects_gameState]

/-- The registry after a tick, read at one code. -/
theorem mapGet_tickLobbies (env : String → TickEnv) (c : String) :
    ∀ ls : List (String × GameLobby),
      mapGet (tickLobbies env ls).1 c =
        (mapGet ls c).map (fun l =>
          if l.gameState = GameState.racing then l.updateGameObjects (env l.code) else l) := by
  intro ls
  induction ls with
  | nil => rfl
  | cons e ls ih =>
    obtain ⟨k0, lobby⟩ := e
    unfold tickLobbies
    by_cases hk : k0 = c <;> by_cases hr : lobby.gameState = GameState.racing <;>
      simp [mapGet, hk, hr, ih]

theorem mem_tickLobbies (env : String → TickEnv) :
    ∀ (ls : List (String × GameLobby)) (e : String × GameLobby), e ∈ (tickLobbies env ls).1 →
      ∃ e0 ∈ ls, e.2.players.length = e0.2.players.length := by
  intro ls
  induction ls with
  | nil => intro e he; simp [tickLobbies] at he
  | cons e0 ls ih =>
    intro e he
    obtain ⟨k0, lobby⟩ := e0
    unfold tickLobbies at he
    split_ifs at he
    · rcases List.mem_cons.1 he with h | h
      · refine ⟨(k0, lobby), List.mem_cons_self _ _, ?_⟩
        rw [h]
        simp [updateGameObjects_players, updateBullets_fst_length]
      · obtain ⟨e1, he1, h1⟩ := ih e h
        exact ⟨e1, List.mem_cons_of_mem _ he1, h1⟩
    · rcases List.mem_cons.1 he with h | h
      · exact ⟨(k0, lobby), List.mem_cons_self _ _, by rw [h]⟩
      · obtain ⟨e1, he1, h1⟩ := ih e h
        exact ⟨e1, List.mem_cons_of_mem _ he1, h1⟩

/-! ## No empty lobby in the registry (C12) -/

theorem updatePlayer_players_ne_nil (l : GameLobby) (k : String) (u : UpdateData)
    (now finishNow : ℚ) (h : l.players ≠ []) : (l.updatePlayer k u now finishNow).players ≠ [] := by
  unfold GameLobby.updatePlayer
  split
  · exact h
  · simp only
    split_ifs <;> simp [GameLobby.updateLeaderboard, mapSet_ne_nil]

theorem noEmptyLobby_mapSet (s : Server) (c : String) (l : GameLobby) (directory)
    (hs : NoEmptyLobby s) (hl : l.players ≠ []) :
    NoEmptyLobby { lobbies := mapSet s.lobbies c l, players := directory } := by
  intro e he
  rcases mem_of_mem_mapSet _ _ _ _ he with h | h
  · exact hs e h
  · rw [h]; exact hl

theorem noEmptyLobby_createLobby (s : Server) (socketId playerName code : String) (now : ℚ)
    (hs : NoEmptyLobby s) : NoEmptyLobby (createLobby s socketId playerName code now).1 :=
  noEmptyLobby_mapSet s _ _ _ hs (by simp [GameLobby.new, GameLobby.addPlayer, mapSet])

theorem noEmptyLobby_joinLobby (s : Server) (socketId code playerName : String) (now : ℚ)
    (hs : NoEmptyLobby s) : NoEmptyLobby (joinLobby s socketId code playerName now).1 := by
  unfold joinLobby
  split
  · exact hs
  · split_ifs
    · exact hs
    · exact hs
    · exact noEmptyLobby_mapSet s _ _ _ hs (by simp [GameLobby.addPlayer, mapSet_ne_nil])

theorem noEmptyLobby_startRace (s : Server) (socketId : String) (raceDistance : ℚ)
    (gameMode : String) (now : ℚ) (hs : NoEmptyLobby s) :
    NoEmptyLobby (startRace s socketId raceDistance gameMode now).1 := by
  unfold startRace
  split
  · exact hs
  · split
    · exact hs
    · rename_i lobby hl
      split_ifs
      · exact hs
      · exact noEmptyLobby_mapSet s _ _ _ hs
          (by simpa [GameLobby.startRace] using hs _ (mem_of_mapGet _ _ _ hl))

theorem noEmptyLobby_playerUpdate (s : Server) (socketId : String) (data : UpdateData)
    (now finishNow : ℚ) (hs : NoEmptyLobby s) :
    NoEmptyLobby (playerUpdate s socketId data now finishNow).1 := by
  unfold playerUpdate
  split
  · exact hs
  · split
    · exact hs
    · rename_i lobby hl
      split_ifs
      · exact hs
      · exact noEmptyLobby_mapSet s _ _ _ hs
          (updatePlayer_players_ne_nil _ _ _ _ _ (hs _ (mem_of_mapGet _ _ _ hl)))

theorem noEmptyLobby_shoot (s : Server) (socketId : String) (data : BulletData)
    (now rand : ℚ) (hs : NoEmptyLobby s) : NoEmptyLobby (shoot s socketId data now rand).1 := by
  unfold shoot
  split
  · exact hs
  · split
    · exact hs
    · rename_i lobby hl
      split_ifs
      · exact hs
      · refine noEmptyLobby_mapSet s _ _ _ hs ?_
        have := hs _ (mem_of_mapGet _ _ _ hl)
        unfold GameLobby.addBullet
        split <;> simpa using this

theorem noEmptyLobby_disconnect (s : Server) (socketId : String) (hs : NoEmptyLobby s) :
    NoEmptyLobby (disconnect s socketId).1 := by
  unfold disconnect
  split
  · exact hs
  · split
    · exact hs
    · simp only
      split_ifs with hlen
      · intro e he
        exact hs e (mem_of_mem_mapDelete _ _ _ he).1
      · exact noEmptyLobby_mapSet s _ _ _ hs (fun h => hlen (by simp [h]))

theorem noEmptyLobby_tick (s : Server) (env : String → TickEnv) (hs : NoEmptyLobby s) :
    NoEmptyLobby (tick s env).1 := by
  intro e he
  obtain ⟨e0, he0, hlen⟩ := mem_tickLobbies env s.lobbies e he
  intro h
  exact hs e0 he0 (List.length_eq_zero.1 (by rw [← hlen, h]; rfl))

theorem noEmptyLobby_step (s : Server) (e : Event) (hs : NoEmptyLobby s) :
    NoEmptyLobby (step s e) := by
  cases e with
  | createLobby socketId playerName r now => exact noEmptyLobby_createLobby s _ _ _ _ hs
  | joinLobby socketId code playerName now => exact noEmptyLobby_joinLobby s _ _ _ _ hs
  | startRace socketId raceDistance gameMode now => exact noEmptyLobby_startRace s _ _ _ _ hs
  | playerUpdate socketId data now finishNow => exact noEmptyLobby_playerUpdate s _ _ _ _ hs
  | shoot socketId data now rand => exact noEmptyLobby_shoot s _ _ _ _ hs
  | disconnect socketId => exact noEmptyLobby_disconnect s _ hs
  | tick env => exact noEmptyLobby_tick s env hs

theorem noEmptyLobby_run (es : List Event) :
    ∀ s : Server, NoEmptyLobby s → NoEmptyLobby (run s es) := by
  induction es with
  | nil => intro s hs; exact hs
  | cons e es ih => intro s hs; exact ih _ (noEmptyLobby_step s e hs)

/-- C12: in every server state reached from the empty server through
createLobby, joinLobby, startRace, playerUpdate, shoot, disconnect and tick
events, every lobby stored in the registry has at least one player; and in
every server state the disconnect that removes the last player of the lobby
the directory names also deletes that lobby from the registry. -/
theorem no_empty_lobby_in_registry :
    (∀ (es : List Event), ∀ e ∈ (run Server.empty es).lobbies, 0 < e.2.players.length) ∧
    (∀ (s : Server) (socketId : String) (playerData : PlayerData) (l : GameLobby),
      mapGet s.players socketId = some playerData →
      mapGet s.lobbies playerData.lobbyCode = some l →
      (l.removePlayer socketId).players = [] →
      mapGet (disconnect s socketId).1.lobbies playerData.lobbyCode = none) := by
  constructor
  · intro es e he
    have h := noEmptyLobby_run es Server.empty (by intro e he; simp [Server.empty] at he) e he
    exact List.length_pos.2 h
  · intro s socketId playerData l hp hl hnil
    simp [disconnect, hp, hl, hnil, mapGet_mapDelete_self]

theorem no_empty_lobby_in_registry_witness :
    (∀ e ∈ (run Server.empty (raceOfTwo ++ [Event.disconnect "a"])).lobbies,
      0 < e.2.players.length) ∧
    (mapGet waitingServer.players "a" = some { lobbyCode := "123456", playerId := "a" } ∧
      mapGet waitingServer.lobbies "123456" = some waitingLobby ∧
      (waitingLobby.removePlayer "a").players = []) ∧
    mapGet (disconnect waitingServer "a").1.lobbies "123456" = none :=
  ⟨no_empty_lobby_in_registry.1 (raceOfTwo ++ [Event.disconnect "a"]),
   ⟨by decide!, by decide!, by decide!⟩,
   no_empty_lobby_in_registry.2 waitingServer "a" { lobbyCode := "123456", playerId := "a" }
     waitingLobby (by decide!) (by decide!) (by decide!)⟩

/-! ## Lobby state machine (C13, C14, C15, C16) -/

theorem updatePlayer_gameState (l : GameLobby) (k : String) (u : UpdateData)
    (now finishNow : ℚ) :
    (l.updatePlayer k u now finishNow).gameState = l.gameState ∨
    (l.updatePlayer k u now finishNow).gameState = GameState.finished := by
  unfold GameLobby.updatePlayer
  split
  · left; rfl
  · simp only
    split_ifs
    · right; rfl
    · left; rfl
    · left; rfl

theorem removePlayer_gameState (l : GameLobby) (k : String) :
    (l.removePlayer k).gameState = l.gameState := by
  unfold GameLobby.removePlayer
  split
  · rfl
  · split_ifs <;> rfl

theorem addBullet_gameState (l : GameLobby) (k : String) (d : BulletData) (now rand : ℚ) :
    (l.addBullet k d now rand).gameState = l.gameState := by
  unfold GameLobby.addBullet
  split <;> rfl

/-- The lobby read at code `c` after `m` was stored under `c0`. -/
theorem mapGet_mapSet_cases (ls : List (String × GameLobby)) (c0 c : String)
    (m l1 : GameLobby) (h : mapGet (mapSet ls c0 m) c = some l1) :
    (c = c0 ∧ l1 = m) ∨ (c ≠ c0 ∧ mapGet ls c = some l1) := by
  by_cases hc : c = c0
  · subst hc
    rw [mapGet_mapSet_self] at h
    exact Or.inl ⟨rfl, (Option.some.inj h).symm⟩
  · rw [mapGet_mapSet_ne _ _ _ _ hc] at h
    exact Or.inr ⟨hc, h⟩

/-- A step that leaves the state of the lobby as it is makes none of the three
transitions. -/
theorem transitions_of_same_state (e : Event) (l l1 : GameLobby)
    (h : l1.gameState = l.gameState) :
    (l.gameState ≠ GameState.lobby → l1.gameState ≠ GameState.lobby) ∧
    (l.gameState = GameState.racing → l1.gameState = GameState.finished →
      ∃ socketId data now finishNow, e = Event.playerUpdate socketId data now finishNow) ∧
    (l.gameState = GameState.finished → l1.gameState = GameState.racing →
      ∃ raceDistance gameMode now, e = Event.startRace l.hostId raceDistance gameMode now) := by
  rw [h]
  refine ⟨fun h0 => h0, ?_, ?_⟩
  · intro h1 h2
    rw [h1] at h2
    cases h2
  · intro h1 h2
    rw [h1] at h2
    cases h2

/-- C16: over one step of the server, for a lobby that stays stored under its
code (the step is not a createLobby that stores a fresh lobby under that code):
a state other than lobby is never followed by lobby, racing is followed by
finished only in a playerUpdate step, and finished is followed by racing only
in a startRace step sent by the lobby's host. -/
theorem gameState_transitions (s : Server) (e : Event) (c : String) (l l1 : GameLobby)
    (hl : mapGet s.lobbies c = some l) (hl1 : mapGet (step s e).lobbies c = some l1)
    (hnew : ∀ socketId playerName r now,
      e = Event.createLobby socketId playerName r now → generateLobbyCode r ≠ c) :
    (l.gameState ≠ GameState.lobby → l1.gameState ≠ GameState.lobby) ∧
    (l.gameState = GameState.racing → l1.gameState = GameState.finished →
      ∃ socketId data now finishNow, e = Event.playerUpdate socketId data now finishNow) ∧
    (l.gameState = GameState.finished → l1.gameState = GameState.racing →
      ∃ raceDistance gameMode now, e = Event.startRace l.hostId raceDistance gameMode now) := by
  have sameState := transitions_of_same_state e l l1
  have same : l1 = l → _ := fun h => sameState (by rw [h])
  cases e with
  | createLobby socketId playerName r now =>
    have hc := hnew socketId playerName r now rfl
    simp only [step, createLobby] at hl1
    rw [mapGet_mapSet_ne _ _ _ _ (Ne.symm hc), hl] at hl1
    exact same (Option.some.inj hl1).symm
  | joinLobby socketId code playerName now =>
    simp only [step] at hl1
    unfold joinLobby at hl1
    split at hl1
    · rw [hl] at hl1; exact same (Option.some.inj hl1).symm
    · rename_i lobby hlobby
      split_ifs at hl1
      · rw [hl] at hl1; exact same (Option.some.inj hl1).symm
      · rw [hl] at hl1; exact same (Option.some.inj hl1).symm
      · rcases mapGet_mapSet_cases _ _ _ _ _ hl1 with ⟨hc, h⟩ | ⟨_, h⟩
        · subst hc
          rw [hl] at hlobby
          cases hlobby
          exact sameState (by rw [h]; rfl)
        · rw [hl] at h; exact same (Option.some.inj h).symm
  | startRace socketId raceDistance gameMode now =>
    simp only [step] at hl1
    unfold startRace at hl1
    split at hl1
    · rw [hl] at hl1; exact same (Option.some.inj hl1).symm
    · rename_i playerData _
      split at hl1
      · rw [hl] at hl1; exact same (Option.some.inj hl1).symm
      · rename_i lobby hlobby
        split_ifs at hl1 with hhost
        · rw [hl] at hl1; exact same (Option.some.inj hl1).symm
        · rcases mapGet_mapSet_cases _ _ _ _ _ hl1 with ⟨hc, h⟩ | ⟨_, h⟩
          · subst hc
            rw [hl] at hlobby
            cases hlobby
            have hhost1 : l.hostId = socketId := not_not.1 hhost
            refine ⟨fun _ => by rw [h]; simp [GameLobby.startRace], ?_, ?_⟩
            · intro _ h2
              rw [h] at h2
              simp [GameLobby.startRace] at h2
            · intro _ _
              exact ⟨raceDistance, gameMode, now, by rw [hhost1]⟩
          · rw [hl] at h; exact same (Option.some.inj h).symm
  | playerUpdate socketId data now finishNow =>
    simp only [step] at hl1
    unfold playerUpdate at hl1
    split at hl1
    · rw [hl] at hl1; exact same (Option.some.inj hl1).symm
    · split at hl1
      · rw [hl] at hl1; exact same (Option.some.inj hl1).symm
      · rename_i lobby hlobby
        split_ifs at hl1 with hr
        · rw [hl] at hl1; exact same (Option.some.inj hl1).symm
        · rcases mapGet_mapSet_cases _ _ _ _ _ hl1 with ⟨hc, h⟩ | ⟨_, h⟩
          · subst hc
            rw [hl] at hlobby
            cases hlobby
            have hr1 : l.gameState = GameState.racing := not_not.1 hr
            refine ⟨fun _ => ?_, fun _ _ => ⟨socketId, data, now, finishNow, rfl⟩, ?_⟩
            · rcases updatePlayer_gameState l socketId data now finishNow with h3 | h3 <;>
                rw [h, h3] <;> simp [hr1]
            · intro h1 _
              rw [hr1] at h1
              cases h1
          · rw [hl] at h; exact same (Option.some.inj h).symm
  | shoot socketId data now rand =>
    simp only [step] at hl1
    unfold shoot at hl1
    split at hl1
    · rw [hl] at hl1; exact same (Option.some.inj hl1).symm
    · split at hl1
      · rw [hl] at hl1; exact same (Option.some.inj hl1).symm
      · rename_i lobby hlobby
        split_ifs at hl1 with hr
        · rw [hl] at hl1; exact same (Option.some.inj hl1).symm
        · rcases mapGet_mapSet_cases _ _ _ _ _ hl1 with ⟨hc, h⟩ | ⟨_, h⟩
          · subst hc
            rw [hl] at hlobby
            cases hlobby
            exact sameState (by rw [h, addBullet_gameState])
          · rw [hl] at h; exact same (Option.some.inj h).symm
  | disconnect socketId =>
    simp only [step] at hl1
    unfold disconnect at hl1
    split at hl1
    · rw [hl] at hl1; exact same (Option.some.inj hl1).symm
    · rename_i playerData _
      split at hl1
      · rw [hl] at hl1; exact same (Option.some.inj hl1).symm
      · rename_i lobby hlobby
        simp only at hl1
        split_ifs at hl1 with hlen
        · by_cases hc : c = playerData.lobbyCode
          · rw [hc, mapGet_mapDelete_self] at hl1
            cases hl1
          · rw [mapGet_mapDelete_ne _ _ _ hc, hl] at hl1
            exact same (Option.some.inj hl1).symm
        · rcases mapGet_mapSet_cases _ _ _ _ _ hl1 with ⟨hc, h⟩ | ⟨_, h⟩
          · subst hc
            rw [hl] at hlobby
            cases hlobby
            exact sameState (by rw [h, removePlayer_gameState])
          · rw [hl] at h; exact same (Option.some.inj h).symm
  | tick env =>
    simp only [step, tick] at hl1
    rw [mapGet_tickLobbies, hl] at hl1
    simp only [Option.map_some', Option.some.injEq] at hl1
    split_ifs at hl1
    · exact sameState (by rw [← hl1, updateGameObjects_gameState])
    · exact same hl1.symm

theorem gameState_transitions_witness :
    (mapGet racingServer.lobbies "123456" = some soloRace ∧
      mapGet (step racingServer
          (Event.playerUpdate "a" { x := some 10000 } 3 4)).lobbies "123456"
        = some (soloRace.updatePlayer "a" { x := some 10000 } 3 4) ∧
      soloRace.gameState = GameState.racing ∧
      (soloRace.updatePlayer "a" { x := some 10000 } 3 4).gameState = GameState.finished) ∧
    ((soloRace.gameState ≠ GameState.lobby →
        (soloRace.updatePlayer "a" { x := some 10000 } 3 4).gameState ≠ GameState.lobby) ∧
     (soloRace.gameState = GameState.racing →
        (soloRace.updatePlayer "a" { x := some 10000 } 3 4).gameState = GameState.finished →
        ∃ socketId data now finishNow,
          Event.playerUpdate "a" { x := some 10000 } 3 4
            = Event.playerUpdate socketId data now finishNow) ∧
     (soloRace.gameState = GameState.finished →
        (soloRace.updatePlayer "a" { x := some 10000 } 3 4).gameState = GameState.racing →
        ∃ raceDistance gameMode now,
          Event.playerUpdate "a" { x := some 10000 } 3 4
            = Event.startRace soloRace.hostId raceDistance gameMode now)) :=
  ⟨⟨by decide!, by decide!, by decide!, by decide!⟩,
   gameState_transitions racingServer (Event.playerUpdate "a" { x := some 10000 } 3 4)
     "123456" soloRace (soloRace.updatePlayer "a" { x := some 10000 } 3 4)
     (by decide!) (by decide!) (fun _ _ _ _ h => by cases h)⟩

/-- C13 as stated fails: lobby 123456 with roster [a] is registered and the
generator returns 123456 again for the createLobby of connection b.  The
registry still has one lobby, and the roster stored under 123456 is now [b]. -/
theorem createLobby_overwrites_registered_code :
    generateLobbyCode (23456 / 900000) = "123456" ∧
    (waitingServer.lobbies.length,
      (mapGet waitingServer.lobbies "123456").map (fun l => mapKeys l.players))
      = (1, some ["a"]) ∧
    ((step waitingServer (Event.createLobby "b" "Bob" (23456 / 900000) 2)).lobbies.length,
      (mapGet (step waitingServer (Event.createLobby "b" "Bob" (23456 / 900000) 2)).lobbies
        "123456").map (fun l => mapKeys l.players))
      = (1, some ["b"]) := by
  decide!

/-- C13, amended: `createLobby` stores the new lobby under the code the
generator returned, without checking the registry.  Every lobby registered
under another code stays registered unchanged.  If the code was not registered,
the registry is the old one with the new lobby appended, so it has exactly one
more lobby; if the code was registered, the new lobby replaces the lobby stored
under it and the registry keeps its size. -/
theorem createLobby_stores_under_generated_code (s : Server)
    (socketId playerName code : String) (now : ℚ) :
    mapGet (createLobby s socketId playerName code now).1.lobbies code
      = some (GameLobby.new code socketId playerName now) ∧
    (∀ c, c ≠ code →
      mapGet (createLobby s socketId playerName code now).1.lobbies c = mapGet s.lobbies c) ∧
    (mapGet s.lobbies code = none →
      (createLobby s socketId playerName code now).1.lobbies
        = s.lobbies ++ [(code, GameLobby.new code socketId playerName now)]) ∧
    ((mapGet s.lobbies code).isSome = true →
      (createLobby s socketId playerName code now).1.lobbies.length = s.lobbies.length) := by
  refine ⟨by simp [createLobby, mapGet_mapSet_self], ?_, ?_, ?_⟩
  · intro c hc
    simp [createLobby, mapGet_mapSet_ne _ _ _ _ hc]
  · intro h
    simp [createLobby, mapSet_of_mapGet_none _ _ _ h]
  · intro h
    obtain ⟨l, hl⟩ := Option.isSome_iff_exists.1 h
    simp [createLobby, mapSet_length_of_mapGet _ _ _ _ hl]

theorem createLobby_stores_under_generated_code_witness :
    (mapGet waitingServer.lobbies "654321" = none ∧
      (mapGet waitingServer.lobbies "123456").isSome = true) ∧
    (createLobby waitingServer "b" "Bob" "654321" 2).1.lobbies
      = waitingServer.lobbies ++ [("654321", GameLobby.new "654321" "b" "Bob" 2)] ∧
    (createLobby waitingServer "b" "Bob" "123456" 2).1.lobbies.length
      = waitingServer.lobbies.length ∧
    mapGet (createLobby waitingServer "b" "Bob" "654321" 2).1.lobbies "123456"
      = mapGet waitingServer.lobbies "123456" :=
  ⟨⟨by decide!, by decide!⟩,
   (createLobby_stores_under_generated_code waitingServer "b" "Bob" "654321" 2).2.2.1
     (by decide!),
   (createLobby_stores_under_generated_code waitingServer "b" "Bob" "123456" 2).2.2.2
     (by decide!),
   (createLobby_stores_under_generated_code waitingServer "b" "Bob" "654321" 2).2.1
     "123456" (by decide)⟩

/-- C14: a startRace from a connection that is absent from the directory, or
whose lobby has another host, leaves the whole server unchanged (state, race
configuration, players and world objects of every lobby) and sends nothing.
A startRace that changes the server or sends a message comes from the host of
the sender's lobby, and then that lobby is stored as `lobby.startRace`, in
state racing, and `raceStarted` is broadcast. -/
theorem startRace_only_by_host (s : Server) (socketId : String) (raceDistance : ℚ)
    (gameMode : String) (now : ℚ) :
    (mapGet s.players socketId = none →
      startRace s socketId raceDistance gameMode now = (s, [])) ∧
    (∀ playerData l, mapGet s.players socketId = some playerData →
      mapGet s.lobbies playerData.lobbyCode = some l → l.hostId ≠ socketId →
      startRace s socketId raceDistance gameMode now = (s, [])) ∧
    (startRace s socketId raceDistance gameMode now ≠ (s, []) →
      ∃ playerData l, mapGet s.players socketId = some playerData ∧
        mapGet s.lobbies playerData.lobbyCode = some l ∧ l.hostId = socketId ∧
        mapGet (startRace s socketId raceDistance gameMode now).1.lobbies playerData.lobbyCode
          = some (l.startRace raceDistance gameMode now) ∧
        (l.startRace raceDistance gameMode now).gameState = GameState.racing ∧
        (startRace s socketId raceDistance gameMode now).2
          = [Emit.toRoom playerData.lobbyCode "raceStarted"
              (l.startRace raceDistance gameMode now).getGameState]) := by
  refine ⟨?_, ?_, ?_⟩
  · intro h
    simp [startRace, h]
  · intro playerData l hp hl hh
    simp [startRace, hp, hl, hh]
  · intro h
    cases hp : mapGet s.players socketId with
    | none => simp [startRace, hp] at h
    | some playerData =>
      cases hl : mapGet s.lobbies playerData.lobbyCode with
      | none => simp [startRace, hp, hl] at h
      | some l =>
        by_cases hh : l.hostId = socketId
        · refine ⟨playerData, l, rfl, hl, hh, ?_, rfl, ?_⟩
          · simp [startRace, hp, hl, hh, mapGet_mapSet_self]
          · simp [startRace, hp, hl, hh]
        · simp [startRace, hp, hl, hh] at h

theorem startRace_only_by_host_witness :
    (mapGet waitingServer.players "zz" = none ∧
      startRace waitingServer "zz" 1000 "land" 2 = (waitingServer, [])) ∧
    (startRace waitingServer "a" 1000 "land" 2 ≠ (waitingServer, []) ∧
      ∃ playerData l, mapGet waitingServer.players "a" = some playerData ∧
        mapGet waitingServer.lobbies playerData.lobbyCode = some l ∧ l.hostId = "a" ∧
        mapGet (startRace waitingServer "a" 1000 "land" 2).1.lobbies playerData.lobbyCode
          = some (l.startRace 1000 "land" 2) ∧
        (l.startRace 1000 "land" 2).gameState = GameState.racing ∧
        (startRace waitingServer "a" 1000 "land" 2).2
          = [Emit.toRoom playerData.lobbyCode "raceStarted"
              (l.startRace 1000 "land" 2).getGameState]) :=
  ⟨⟨by decide!, (startRace_only_by_host waitingServer "zz" 1000 "land" 2).1 (by decide!)⟩,
   by decide!, (startRace_only_by_host waitingServer "a" 1000 "land" 2).2.2 (by decide!)⟩

/-- C15: after `startRace(d, m)` on any lobby the state is racing, the race
distance is `d`, the mode is `m`, `playersFinished` is 0, the leaderboard, the
obstacles, the power-ups and the projectiles are empty, every player has
x = 100, y = 200, health 100, progress 0, score 0 and no finish time, and the
roster keeps its keys in order and every player's id, name, colour and isHost
flag. -/
theorem startRace_resets (l : GameLobby) (d : ℚ) (m : String) (now : ℚ) :
    (l.startRace d m now).gameState = GameState.racing ∧
    (l.startRace d m now).raceDistance = d ∧
    (l.startRace d m now).gameMode = m ∧
    (l.startRace d m now).playersFinished = 0 ∧
    (l.startRace d m now).leaderboard = [] ∧
    (l.startRace d m now).obstacles = [] ∧
    (l.startRace d m now).powerUps = [] ∧
    (l.startRace d m now).bullets = [] ∧
    (∀ p ∈ mapValues (l.startRace d m now).players,
      p.x = 100 ∧ p.y = 200 ∧ p.health = 100 ∧ p.progress = 0 ∧ p.score = 0 ∧
        p.finishTime = none) ∧
    mapKeys (l.startRace d m now).players = mapKeys l.players ∧
    (mapValues (l.startRace d m now).players).map
        (fun p => (p.id, p.name, p.color, p.isHost))
      = (mapValues l.players).map (fun p => (p.id, p.name, p.color, p.isHost)) := by
  refine ⟨rfl, rfl, rfl, rfl, rfl, rfl, rfl, rfl, ?_, ?_, ?_⟩
  · intro p hp
    simp only [GameLobby.startRace, mapValues, List.map_map, List.mem_map] at hp
    obtain ⟨e, _, rfl⟩ := hp
    simp [resetPlayer, GROUND_Y, PLAYER_HEIGHT]
    norm_num
  · simp [GameLobby.startRace, mapKeys, List.map_map, Function.comp_def]
  · simp [GameLobby.startRace, mapValues, List.map_map, Function.comp_def, resetPlayer]

theorem startRace_resets_witness :
    (mixedLobby.startRace 500 "water" 9).gameState = GameState.racing ∧
    (mixedLobby.startRace 500 "water" 9).raceDistance = 500 ∧
    (∀ p ∈ mapValues (mixedLobby.startRace 500 "water" 9).players,
      p.x = 100 ∧ p.y = 200 ∧ p.health = 100 ∧ p.progress = 0 ∧ p.score = 0 ∧
        p.finishTime = none) ∧
    mapKeys (mixedLobby.startRace 500 "water" 9).players = mapKeys mixedLobby.players :=
  ⟨(startRace_resets mixedLobby 500 "water" 9).1,
   (startRace_resets mixedLobby 500 "water" 9).2.1,
   (startRace_resets mixedLobby 500 "water" 9).2.2.2.2.2.2.2.2.1,
   (startRace_resets mixedLobby 500 "water" 9).2.2.2.2.2.2.2.2.2.1⟩

/-! ## Host reassignment (C11) -/

theorem mem_mapKeys_mapSet {α : Type} (m : List (String × α)) (k : String) (v : α)
    (c : String) (h : c ∈ mapKeys (mapSet m k v)) : c ∈ mapKeys m ∨ c = k := by
  simp only [mapKeys, List.mem_map] at h ⊢
  obtain ⟨e, he, rfl⟩ := h
  rcases mem_of_mem_mapSet _ _ _ _ he with h1 | h1
  · exact Or.inl ⟨e, h1, rfl⟩
  · right; rw [h1]

theorem nodup_mapKeys_mapSet {α : Type} (m : List (String × α)) (k : String) (v : α)
    (h : (mapKeys m).Nodup) : (mapKeys (mapSet m k v)).Nodup := by
  induction m with
  | nil => simp [mapSet, mapKeys]
  | cons e m ih =>
    obtain ⟨k0, w⟩ := e
    have hcons : mapKeys ((k0, w) :: m) = k0 :: mapKeys m := rfl
    rw [hcons, List.nodup_cons] at h
    unfold mapSet
    split_ifs with hk
    · show (k0 :: mapKeys m).Nodup
      exact List.nodup_cons.2 h
    · show (k0 :: mapKeys (mapSet m k v)).Nodup
      refine List.nodup_cons.2 ⟨fun hmem => ?_, ih h.2⟩
      rcases mem_mapKeys_mapSet _ _ _ _ hmem with h1 | h1
      · exact h.1 h1
      · exact hk h1

theorem mapDelete_of_not_mem {α : Type} (m : List (String × α)) (k : String)
    (h : k ∉ mapKeys m) : mapDelete m k = m := by
  induction m with
  | nil => rfl
  | cons e m ih =>
    obtain ⟨k0, w⟩ := e
    have hcons : mapKeys ((k0, w) :: m) = k0 :: mapKeys m := rfl
    rw [hcons, List.mem_cons, not_or] at h
    simp [mapDelete, Ne.symm h.1, ih h.2]

theorem length_le_mapDelete_succ {α : Type} (m : List (String × α)) (k : String)
    (h : (mapKeys m).Nodup) : m.length ≤ (mapDelete m k).length + 1 := by
  induction m with
  | nil => simp
  | cons e m ih =>
    obtain ⟨k0, w⟩ := e
    have hcons : mapKeys ((k0, w) :: m) = k0 :: mapKeys m := rfl
    rw [hcons, List.nodup_cons] at h
    unfold mapDelete
    split_ifs with hk
    · rw [mapDelete_of_not_mem m k (hk ▸ h.1)]
      simp
    · simpa using ih h.2

theorem hostMarked_addPlayer (l : GameLobby) (k n : String) (now : ℚ)
    (h : HostMarked l) : HostMarked (l.addPlayer k n false now) := by
  refine ⟨nodup_mapKeys_mapSet _ _ _ h.1, ?_⟩
  intro e he
  rcases mem_of_mem_mapSet _ _ _ _ he with h1 | h1
  · exact h.2 e h1
  · rw [h1]
    simp [newPlayer]

theorem hostMarked_new (code hostId hostName : String) (now : ℚ) :
    HostMarked (GameLobby.new code hostId hostName now) := by
  refine ⟨by simp [GameLobby.new, GameLobby.addPlayer, mapSet, mapKeys], ?_⟩
  intro e he
  simp only [GameLobby.new, GameLobby.addPlayer, mapSet, List.mem_singleton] at he
  rw [he]
  simp [newPlayer, GameLobby.new, GameLobby.addPlayer]

theorem hostMarked_joinAll (joins : List (String × String × ℚ)) :
    ∀ l : GameLobby, HostMarked l → HostMarked (joinAll l joins) := by
  induction joins with
  | nil => intro l h; exact h
  | cons j joins ih => intro l h; exact ih _ (hostMarked_addPlayer l _ _ _ h)

/-- C11: in a lobby built by createLobby and joinLobby with at least two
players, removing the host makes the first remaining player in join order the
host: that player's `isHost` is set, `hostId` is its id, and it is the only
remaining player with `isHost` true.  Removing a player other than the host
leaves `hostId` unchanged and the roster is the old one without that player, so
every remaining `isHost` flag is unchanged. -/
theorem removePlayer_host_transfer (code hostId hostName : String) (now : ℚ)
    (joins : List (String × String × ℚ)) (l : GameLobby)
    (hl : l = builtLobby code hostId hostName now joins) (h2 : 2 ≤ l.players.length) :
    (∃ k p rest, mapDelete l.players l.hostId = (k, p) :: rest ∧
      (l.removePlayer l.hostId).players = (k, { p with isHost := true }) :: rest ∧
      (l.removePlayer l.hostId).hostId = k ∧ p.id = k ∧
      (∀ e ∈ rest, e.2.isHost = false) ∧
      (mapValues (l.removePlayer l.hostId).players).countP (fun q => q.isHost) = 1) ∧
    (∀ k, k ≠ l.hostId →
      (l.removePlayer k).hostId = l.hostId ∧
      (l.removePlayer k).players = mapDelete l.players k) := by
  have hm : HostMarked l := by
    rw [hl]
    exact hostMarked_joinAll joins _ (hostMarked_new code hostId hostName now)
  constructor
  · cases hd : mapDelete l.players l.hostId with
    | nil =>
      have := length_le_mapDelete_succ l.players l.hostId hm.1
      rw [hd] at this
      simp at this
      omega
    | cons e rest =>
      obtain ⟨k, p⟩ := e
      have hmem : ∀ e ∈ (k, p) :: rest, e ∈ l.players ∧ e.1 ≠ l.hostId := by
        intro e he
        rw [← hd] at he
        exact mem_of_mem_mapDelete _ _ _ he
      have hrest : ∀ e ∈ rest, e.2.isHost = false := by
        intro e he
        have h1 := hmem e (List.mem_cons_of_mem _ he)
        cases hb : e.2.isHost with
        | false => rfl
        | true => exact absurd ((hm.2 e h1.1).2 hb) h1.2
      have hid : p.id = k := (hm.2 (k, p) (hmem _ (List.mem_cons_self _ _)).1).1
      refine ⟨k, p, rest, rfl, ?_, ?_, hid, hrest, ?_⟩
      · simp [GameLobby.removePlayer, hd]
      · simp [GameLobby.removePlayer, hd, hid]
      · have hzero : (mapValues rest).countP (fun q => q.isHost) = 0 := by
          rw [List.countP_eq_zero]
          intro q hq
          simp only [mapValues, List.mem_map] at hq
          obtain ⟨e, he, rfl⟩ := hq
          simp [hrest e he]
        have hplayers : (l.removePlayer l.hostId).players
            = (k, { p with isHost := true }) :: rest := by
          simp [GameLobby.removePlayer, hd]
        rw [hplayers]
        show (({ p with isHost := true } : Player) :: mapValues rest).countP _ = 1
        rw [List.countP_cons_of_pos _ _ (by simp), hzero]
  · intro k hk
    unfold GameLobby.removePlayer
    split
    · rename_i h; simp [h]
    · rename_i h; simp [Ne.symm hk, h]

theorem removePlayer_host_transfer_witness :
    (builtLobby "123456" "a" "Alice" 1 [("b", "Bob", 2), ("c", "Carol", 3)]
        = builtLobby "123456" "a" "Alice" 1 [("b", "Bob", 2), ("c", "Carol", 3)] ∧
      2 ≤ (builtLobby "123456" "a" "Alice" 1 [("b", "Bob", 2), ("c", "Carol", 3)]).players.length) ∧
    (∃ k p rest,
      mapDelete (builtLobby "123456" "a" "Alice" 1 [("b", "Bob", 2), ("c", "Carol", 3)]).players
          (builtLobby "123456" "a" "Alice" 1 [("b", "Bob", 2), ("c", "Carol", 3)]).hostId
        = (k, p) :: rest ∧
      ((builtLobby "123456" "a" "Alice" 1 [("b", "Bob", 2), ("c", "Carol", 3)]).removePlayer
          (builtLobby "123456" "a" "Alice" 1 [("b", "Bob", 2), ("c", "Carol", 3)]).hostId).players
        = (k, { p with isHost := true }) :: rest ∧
      ((builtLobby "123456" "a" "Alice" 1 [("b", "Bob", 2), ("c", "Carol", 3)]).removePlayer
          (builtLobby "123456" "a" "Alice" 1 [("b", "Bob", 2), ("c", "Carol", 3)]).hostId).hostId
        = k ∧
      p.id = k ∧ (∀ e ∈ rest, e.2.isHost = false) ∧
      (mapValues
        ((builtLobby "123456" "a" "Alice" 1 [("b", "Bob", 2), ("c", "Carol", 3)]).removePlayer
          (builtLobby "123456" "a" "Alice" 1
            [("b", "Bob", 2), ("c", "Carol", 3)]).hostId).players).countP
        (fun q => q.isHost) = 1) ∧
    (∀ k, k ≠ (builtLobby "123456" "a" "Alice" 1 [("b", "Bob", 2), ("c", "Carol", 3)]).hostId →
      ((builtLobby "123456" "a" "Alice" 1 [("b", "Bob", 2), ("c", "Carol", 3)]).removePlayer
          k).hostId
        = (builtLobby "123456" "a" "Alice" 1 [("b", "Bob", 2), ("c", "Carol", 3)]).hostId ∧
      ((builtLobby "123456" "a" "Alice" 1 [("b", "Bob", 2), ("c", "Carol", 3)]).removePlayer
          k).players
        = mapDelete
            (builtLobby "123456" "a" "Alice" 1 [("b", "Bob", 2), ("c", "Carol", 3)]).players k) :=
  ⟨⟨rfl, by decide!⟩,
   removePlayer_host_transfer "123456" "a" "Alice" 1 [("b", "Bob", 2), ("c", "Carol", 3)] _ rfl
     (by decide!)⟩

/-- The host transfer in a lobby of three: after Alice leaves, Bob is host. -/
theorem host_transfer_example :
    ((builtLobby "123456" "a" "Alice" 1 [("b", "Bob", 2), ("c", "Carol", 3)]).removePlayer
        "a").hostId = "b" ∧
    ((builtLobby "123456" "a" "Alice" 1 [("b", "Bob", 2), ("c", "Carol", 3)]).removePlayer
        "a").players.map (fun e => (e.1, e.2.isHost)) = [("b", true), ("c", false)] := by
  decide!

/-! ## Client and single-player script (C29, C30) -/

/-- C29: after the client of connection b processed the successful
`lobbyJoined` reply of the server's `joinLobby` handler, its `lobbyCode` is
unset, not the code 123456 of the joined lobby, and its `updatePlayer` and
`shoot` calls send nothing.  The reply carries the code only inside
`gameState`; the `lobbyCreated` reply carries `code`, and a client that
processes it has `lobbyCode` 123456. -/
theorem lobbyCode_unset_after_join :
    (replyTo "b" "lobbyJoined" (joinLobby waitingServer "b" "123456" "Bob" 2).2).map
        (fun d => (d.success, d.code, d.gameState.map (fun g => g.code)))
      = some (true, none, some "123456") ∧
    (replyTo "b" "lobbyJoined" (joinLobby waitingServer "b" "123456" "Bob" 2).2).map
        (fun d => ((freshClient.lobbyJoined d).lobbyCode,
          ((freshClient.lobbyJoined d).updatePlayer { x := some 150 } 1000).2,
          (freshClient.lobbyJoined d).shoot { x := 150, y := 210, speed := none }))
      = some (none, none, none) ∧
    (replyTo "b" "lobbyCreated" (createLobby Server.empty "b" "Bob" "123456" 1).2).map
        (fun d => ((freshClient.lobbyCreated d).lobbyCode,
          ((freshClient.lobbyCreated d).updatePlayer { x := some 150 } 1000).2.isSome))
      = some (some "123456", true) := by
  decide!

/-- C30: `deactivatePowerUp` called while the gun power-up is active leaves
`lastShotTime` at 12345 instead of 0: `currentType` is read after
`activePowerUp.type` was cleared.  The other fields are reset as claimed. -/
theorem lastShotTime_kept_when_gun_expires :
    gunActive.activePowerUp.type = some "gun" ∧
    (deactivatePowerUp gunActive).lastShotTime = 12345 ∧
    (deactivatePowerUp gunActive).activePowerUp.type = none ∧
    (deactivatePowerUp gunActive).activePowerUp.timeLeft = 0 ∧
    (deactivatePowerUp gunActive).carMode = "jump" := by
  decide!

/-- No call of `deactivatePowerUp` changes `lastShotTime`. -/
theorem deactivatePowerUp_lastShotTime (s : ScriptState) :
    (deactivatePowerUp s).lastShotTime = s.lastShotTime := by
  unfold deactivatePowerUp
  simp only
  split_ifs <;> simp_all

/-! ## Player updates (C24, C25, C26) -/

/-- The player stored by `updatePlayer` is the merged player, up to its
`finishTime`. -/
theorem updatePlayer_stored_fields (l : GameLobby) (k : String) (p : Player) (u : UpdateData)
    (now finishNow : ℚ) (hp : mapGet l.players k = some p) :
    ∃ q, mapGet (l.updatePlayer k u now finishNow).players k = some q ∧
      (q = mergedPlayer l.raceDistance p u now ∨
        (1 ≤ (mergedPlayer l.raceDistance p u now).progress ∧
          truthy (mergedPlayer l.raceDistance p u now).finishTime = false ∧
          q = { mergedPlayer l.raceDistance p u now with finishTime := some finishNow })) := by
  refine ⟨_, updatePlayer_stored l k p u now finishNow hp, ?_⟩
  split_ifs with h
  · exact Or.inr ⟨h.1, h.2, rfl⟩
  · exact Or.inl rfl

theorem segmentOf_mem (v : ℚ) :
    segmentOf v = 1 ∨ segmentOf v = 2 ∨ segmentOf v = 3 ∨ segmentOf v = 4 := by
  unfold segmentOf
  split_ifs <;> simp

theorem segmentOf_mono (v w : ℚ) (h : v ≤ w) : segmentOf v ≤ segmentOf w := by
  unfold segmentOf
  split_ifs <;> first | omega | (exfalso; linarith)

/-- C25: after `updatePlayer` the stored `currentSegment` is the segment of
the stored `progress`: 1 below 0.25, 2 from 0.25 below 0.5, 3 from 0.5 below
0.75 and 4 from 0.75 on; it is one of 1, 2, 3, 4 and non-decreasing in
`progress`. -/
theorem currentSegment_from_thresholds :
    (∀ (l : GameLobby) (k : String) (p : Player) (u : UpdateData) (now finishNow : ℚ),
      mapGet l.players k = some p →
      ∃ q, mapGet (l.updatePlayer k u now finishNow).players k = some q ∧
        q.currentSegment = some (segmentOf q.progress)) ∧
    (∀ v : ℚ, (v < 1 / 4 → segmentOf v = 1) ∧ (1 / 4 ≤ v → v < 1 / 2 → segmentOf v = 2) ∧
      (1 / 2 ≤ v → v < 3 / 4 → segmentOf v = 3) ∧ (3 / 4 ≤ v → segmentOf v = 4) ∧
      (segmentOf v = 1 ∨ segmentOf v = 2 ∨ segmentOf v = 3 ∨ segmentOf v = 4)) ∧
    (∀ v w : ℚ, v ≤ w → segmentOf v ≤ segmentOf w) := by
  refine ⟨?_, ?_, segmentOf_mono⟩
  · intro l k p u now finishNow hp
    obtain ⟨q, hq, h⟩ := updatePlayer_stored_fields l k p u now finishNow hp
    refine ⟨q, hq, ?_⟩
    rcases h with h | ⟨_, _, h⟩ <;> rw [h] <;> simp [mergedPlayer]
  · intro v
    refine ⟨?_, ?_, ?_, ?_, segmentOf_mem v⟩
    · intro h
      unfold segmentOf
      rw [if_pos h]
    · intro h1 h2
      unfold segmentOf
      split_ifs <;> first | rfl | (exfalso; linarith)
    · intro h1 h2
      unfold segmentOf
      split_ifs <;> first | rfl | (exfalso; linarith)
    · intro h1
      unfold segmentOf
      split_ifs <;> first | rfl | (exfalso; linarith)

theorem currentSegment_from_thresholds_witness :
    (mapGet soloRace.players "a" = some soloPlayer ∧ (3 / 10 : ℚ) ≤ 7 / 10) ∧
    (∃ q, mapGet (soloRace.updatePlayer "a" { x := some 3000 } 3 4).players "a" = some q ∧
      q.currentSegment = some (segmentOf q.progress)) ∧
    segmentOf (3 / 10) = 2 ∧
    segmentOf (3 / 10) ≤ segmentOf (7 / 10) :=
  ⟨⟨by decide!, by norm_num⟩,
   currentSegment_from_thresholds.1 soloRace "a" soloPlayer { x := some 3000 } 3 4 (by decide!),
   (currentSegment_from_thresholds.2.1 (3 / 10)).2.1 (by norm_num) (by norm_num),
   currentSegment_from_thresholds.2.2 (3 / 10) (7 / 10) (by norm_num)⟩

/-- C26: snapshots whose player entries carry no `currentSegment`, or a stale
one.  Directly after createLobby the host's entry has none.  After a finished
race is started again the entry has progress 0 and still `currentSegment` 4,
while the segment of progress 0 is 1. -/
theorem snapshot_currentSegment_missing_or_stale :
    ((replyTo "a" "lobbyCreated" (createLobby Server.empty "a" "Alice" "123456" 1).2).bind
        (fun d => d.gameState)).map
        (fun g => g.players.map (fun p => (p.progress, p.currentSegment)))
      = some [(0, none)] ∧
    (soloRace.updatePlayer "a" { x := some 10000 } 3 4).getGameState.players.map
        (fun p => (p.progress, p.currentSegment)) = [(1, some 4)] ∧
    restartedRace.getGameState.players.map (fun p => (p.progress, p.currentSegment))
      = [(0, some 4)] ∧
    segmentOf 0 = 1 := by
  decide!

/-- C24 as stated fails for `finishTime`: the payload `{x: 10000, finishTime:
null}` does not leave `finishTime` null, because the finish check after the
merge sets it to the clock read 4. -/
theorem payload_finishTime_null_overwritten :
    (mapGet (soloRace.updatePlayer "a" { x := some 10000, finishTime := some none } 3 4).players
        "a").map (fun q => q.finishTime) = some (some 4) := by
  decide!

/-- C24, amended: `updatePlayer` merges the payload unchecked.  Every payload
field other than `progress`, `currentSegment`, `actualDistanceTraveled` and
`lastUpdate` holds the payload's value after the call, except that a falsy
payload `finishTime` is replaced by the clock read when the player's progress
reaches 1 in this call.  In particular a payload can set `health` outside
0..100, set `isHost` on a non-host and set `finishTime` directly. -/
theorem updatePlayer_unchecked_merge (l : GameLobby) (k : String) (p : Player)
    (u : UpdateData) (now finishNow : ℚ) (hp : mapGet l.players k = some p) :
    ∃ q, mapGet (l.updatePlayer k u now finishNow).players k = some q ∧
      (∀ v, u.id = some v → q.id = v) ∧ (∀ v, u.name = some v → q.name = v) ∧
      (∀ v, u.isHost = some v → q.isHost = v) ∧ (∀ v, u.x = some v → q.x = v) ∧
      (∀ v, u.y = some v → q.y = v) ∧ (∀ v, u.velY = some v → q.velY = v) ∧
      (∀ v, u.jumping = some v → q.jumping = v) ∧
      (∀ v, u.grounded = some v → q.grounded = v) ∧
      (∀ v, u.health = some v → q.health = v) ∧
      (∀ v, u.maxHealth = some v → q.maxHealth = v) ∧
      (∀ v, u.color = some v → q.color = v) ∧ (∀ v, u.score = some v → q.score = v) ∧
      (∀ v, u.activePowerUp = some v → q.activePowerUp = v) ∧
      (∀ v, u.finishTime = some v → truthy v = true ∨ q.progress < 1 → q.finishTime = v) := by
  obtain ⟨q, hq, h⟩ := updatePlayer_stored_fields l k p u now finishNow hp
  refine ⟨q, hq, ?_⟩
  rcases h with h | ⟨h1, h2, h⟩
  · subst h
    simp only [mergedPlayer, assign]
    refine ⟨?_, ?_, ?_, ?_, ?_, ?_, ?_, ?_, ?_, ?_, ?_, ?_, ?_, ?_⟩ <;> intro v hv <;>
      simp [hv]
  · subst h
    have hprog : ¬ (mergedPlayer l.raceDistance p u now).progress < 1 := not_lt.2 h1
    simp only [mergedPlayer, assign] at h2 hprog ⊢
    refine ⟨?_, ?_, ?_, ?_, ?_, ?_, ?_, ?_, ?_, ?_, ?_, ?_, ?_, ?_⟩
    all_goals intro v hv
    all_goals first
      | (simp [hv]; done)
      | (intro hor
         rcases hor with ht | hlt
         · rw [hv] at h2; simp [ht] at h2
         · exact absurd hlt hprog)

theorem updatePlayer_unchecked_merge_witness :
    (mapGet startedOfTwo.players "b" = some (resetPlayer (newPlayer 1 "b" "Bob" false 2))) ∧
    ∃ q, mapGet (startedOfTwo.updatePlayer "b"
        { health := some 999, isHost := some true, finishTime := some (some 5) } 3 4).players "b"
          = some q ∧
      q.health = 999 ∧ q.isHost = true ∧ q.finishTime = some 5 :=
  ⟨by decide!,
   let ⟨q, hq, h⟩ := updatePlayer_unchecked_merge startedOfTwo "b"
     (resetPlayer (newPlayer 1 "b" "Bob" false 2))
     { health := some 999, isHost := some true, finishTime := some (some 5) } 3 4 (by decide!)
   ⟨q, hq, h.2.2.2.2.2.2.2.2.1 999 rfl, h.2.2.1 true rfl,
     h.2.2.2.2.2.2.2.2.2.2.2.2.2 (some 5) rfl (Or.inl (by decide!))⟩⟩

/-! ## Synchronized obstacle spawn (C22) -/

theorem foldl_max_ge (ps : List (String × Player)) :
    ∀ m0 : ℚ, m0 ≤ ps.foldl (fun m e => if e.2.x > m then e.2.x else m) m0 ∧
      (∀ e ∈ ps, e.2.x ≤ ps.foldl (fun m e => if e.2.x > m then e.2.x else m) m0) ∧
      (ps.foldl (fun m e => if e.2.x > m then e.2.x else m) m0 = m0 ∨
        ∃ e ∈ ps, ps.foldl (fun m e => if e.2.x > m then e.2.x else m) m0 = e.2.x) := by
  induction ps with
  | nil => intro m0; simp
  | cons e ps ih =>
    intro m0
    simp only [List.foldl_cons]
    obtain ⟨h1, h2, h3⟩ := ih (if e.2.x > m0 then e.2.x else m0)
    have hstep : m0 ≤ (if e.2.x > m0 then e.2.x else m0) ∧
        e.2.x ≤ (if e.2.x > m0 then e.2.x else m0) := by
      split_ifs with h
      · exact ⟨le_of_lt h, le_refl _⟩
      · exact ⟨le_refl _, not_lt.1 h⟩
    refine ⟨le_trans hstep.1 h1, ?_, ?_⟩
    · intro e1 he1
      rcases List.mem_cons.1 he1 with rfl | h
      · exact le_trans hstep.2 h1
      · exact h2 e1 h
    · rcases h3 with h | ⟨e1, he1, h⟩
      · rw [h]
        split_ifs
        · exact Or.inr ⟨e, List.mem_cons_self _ _, rfl⟩
        · exact Or.inl rfl
      · exact Or.inr ⟨e1, List.mem_cons_of_mem _ he1, h⟩

/-- The running maximum of the spawn functions is the greatest of 0 and the
players' `x`. -/
theorem maxPlayerX_spec (ps : List (String × Player)) :
    0 ≤ maxPlayerX ps ∧ (∀ e ∈ ps, e.2.x ≤ maxPlayerX ps) ∧
    (maxPlayerX ps = 0 ∨ ∃ e ∈ ps, maxPlayerX ps = e.2.x) :=
  foldl_max_ge ps 0

theorem foldl_min_spec (ps : List (String × Player)) :
    ∀ m0 : Option ℚ,
      ∃ m, ps.foldl
          (fun m e => match m with
            | none => some e.2.x
            | some v => if e.2.x < v then some e.2.x else some v) m0
          = (if ps = [] then m0 else some m) ∧
        (ps ≠ [] → (∀ v, m0 = some v → m ≤ v) ∧ (∀ e ∈ ps, m ≤ e.2.x) ∧
          ((m0 = some m) ∨ ∃ e ∈ ps, m = e.2.x)) := by
  induction ps with
  | nil => intro m0; exact ⟨0, by simp, fun h => absurd rfl h⟩
  | cons e ps ih =>
    intro m0
    simp only [List.foldl_cons]
    cases m0 with
    | none =>
      obtain ⟨m, hm, hspec⟩ := ih (some e.2.x)
      by_cases hps : ps = []
      · subst hps
        exact ⟨e.2.x, by simp, fun _ => ⟨by simp, by simp, Or.inr ⟨e, by simp, rfl⟩⟩⟩
      · obtain ⟨h1, h2, h3⟩ := hspec hps
        refine ⟨m, by simpa [hps] using hm, fun _ => ⟨by simp, ?_, ?_⟩⟩
        · intro e1 he1
          rcases List.mem_cons.1 he1 with rfl | h
          · exact h1 _ rfl
          · exact h2 e1 h
        · rcases h3 with h | ⟨e1, he1, h⟩
          · exact Or.inr ⟨e, List.mem_cons_self _ _, (Option.some.inj h).symm⟩
          · exact Or.inr ⟨e1, List.mem_cons_of_mem _ he1, h⟩
    | some v =>
      have hstep : ∃ w, (if e.2.x < v then some e.2.x else some v) = some w ∧ w ≤ v ∧
          w ≤ e.2.x ∧ (w = v ∨ w = e.2.x) := by
        split_ifs with h
        · exact ⟨e.2.x, rfl, le_of_lt h, le_refl _, Or.inr rfl⟩
        · exact ⟨v, rfl, le_refl _, not_lt.1 h, Or.inl rfl⟩
      obtain ⟨w, hw, hwv, hwe, hwor⟩ := hstep
      simp only [hw]
      obtain ⟨m, hm, hspec⟩ := ih (some w)
      by_cases hps : ps = []
      · subst hps
        refine ⟨w, by simp, fun _ => ⟨?_, ?_, ?_⟩⟩
        · intro v1 hv1; cases hv1; exact hwv
        · intro e1 he1
          simp only [List.mem_singleton] at he1
          rw [he1]; exact hwe
        · rcases hwor with h | h
          · exact Or.inl (by rw [h])
          · exact Or.inr ⟨e, by simp, h⟩
      · obtain ⟨h1, h2, h3⟩ := hspec hps
        refine ⟨m, by simpa [hps] using hm, fun _ => ⟨?_, ?_, ?_⟩⟩
        · intro v1 hv1; cases hv1; exact le_trans (h1 w rfl) hwv
        · intro e1 he1
          rcases List.mem_cons.1 he1 with rfl | h
          · exact le_trans (h1 w rfl) hwe
          · exact h2 e1 h
        · rcases h3 with h | ⟨e1, he1, h⟩
          · have hmw : m = w := (Option.some.inj h).symm
            rcases hwor with h4 | h4
            · exact Or.inl (by rw [hmw, h4])
            · exact Or.inr ⟨e, List.mem_cons_self _ _, by rw [hmw, h4]⟩
          · exact Or.inr ⟨e1, List.mem_cons_of_mem _ he1, h⟩

/-- For a non-empty roster the running minimum is the least `x` among the
players. -/
theorem minPlayerX_spec (ps : List (String × Player)) (h : ps ≠ []) :
    ∃ m, minPlayerX ps = some m ∧ (∀ e ∈ ps, m ≤ e.2.x) ∧ ∃ e ∈ ps, m = e.2.x := by
  obtain ⟨m, hm, hspec⟩ := foldl_min_spec ps none
  obtain ⟨_, h2, h3⟩ := hspec h
  refine ⟨m, by simpa [minPlayerX, h] using hm, h2, ?_⟩
  rcases h3 with h4 | h4
  · cases h4
  · exact h4

/-- C22: the obstacle is not spawned ahead of the furthest player when every
player has a negative x.  The only player stands at x = -1000, so the maximum
x among the players is M = -1000, and the obstacle spawned for the draw r = 0
has x = 800, outside [M + 800, M + 1000) = [-200, 0): the running maximum of
`spawnSynchronizedObstacle` starts at 0 instead of below every player. -/
theorem obstacle_not_ahead_of_negative_maximum :
    behindStart.players.map (fun e => e.2.x) = [-1000] ∧
    (behindStart.spawnSynchronizedObstacle 9 0 0).obstacles.map (fun o => o.x) = [800] ∧
    ¬ ((800 : ℚ) < -1000 + 1000) := by
  refine ⟨by decide!, by decide!, by norm_num⟩

/-- What `spawnSynchronizedObstacle` computes for a lobby with at least one
player and a draw r in [0, 1): it keeps the old obstacles with x > m - 500 and
appends exactly one obstacle, whose x lies in
[`maxPlayerX` + 800, `maxPlayerX` + 1000); afterwards every obstacle has
x > m - 500.  Here m is the minimum x among the players and `maxPlayerX` is
the running maximum of the code, which starts at 0: it is the maximum x among
the players as soon as one player has x ≥ 0, and 0 otherwise. -/
theorem spawnSynchronizedObstacle_spec (l : GameLobby) (now r rType : ℚ)
    (hps : l.players ≠ []) (hr0 : 0 ≤ r) (hr1 : r < 1) :
    ∃ m, minPlayerX l.players = some m ∧ (∀ e ∈ l.players, m ≤ e.2.x) ∧
      (∃ e ∈ l.players, m = e.2.x) ∧
      0 ≤ maxPlayerX l.players ∧ (∀ e ∈ l.players, e.2.x ≤ maxPlayerX l.players) ∧
      (maxPlayerX l.players = 0 ∨ ∃ e ∈ l.players, maxPlayerX l.players = e.2.x) ∧
      ((∃ e ∈ l.players, 0 ≤ e.2.x) → ∃ e ∈ l.players, maxPlayerX l.players = e.2.x) ∧
      (l.spawnSynchronizedObstacle now r rType).obstacles
        = l.obstacles.filter (fun o => o.x > m - 500) ++ [spawnedObstacle l now r rType] ∧
      maxPlayerX l.players + 800 ≤ (spawnedObstacle l now r rType).x ∧
      (spawnedObstacle l now r rType).x < maxPlayerX l.players + 1000 ∧
      ∀ o ∈ (l.spawnSynchronizedObstacle now r rType).obstacles, o.x > m - 500 := by
  obtain ⟨m, hm, hmin, hmem⟩ := minPlayerX_spec l.players hps
  obtain ⟨hM0, hMax, hMor⟩ := maxPlayerX_spec l.players
  have hx1 : maxPlayerX l.players + 800 ≤ (spawnedObstacle l now r rType).x := by
    simp only [spawnedObstacle]; nlinarith
  have hx2 : (spawnedObstacle l now r rType).x < maxPlayerX l.players + 1000 := by
    simp only [spawnedObstacle]; nlinarith
  have hmM : m ≤ maxPlayerX l.players := by
    obtain ⟨e, he, h⟩ := hmem
    rw [h]; exact hMax e he
  have hnew : (spawnedObstacle l now r rType).x > m - 500 := by linarith
  have hobs : (l.spawnSynchronizedObstacle now r rType).obstacles
      = l.obstacles.filter (fun o => o.x > m - 500) ++ [spawnedObstacle l now r rType] := by
    have : decide ((spawnedObstacle l now r rType).x > m - 500) = true := by simpa using hnew
    simp only [GameLobby.spawnSynchronizedObstacle, pruneObjects, hm, List.filter_append]
    rw [List.filter_cons_of_pos (by simpa [spawnedObstacle] using this)]
    rfl
  refine ⟨m, hm, hmin, hmem, hM0, hMax, hMor, ?_, hobs, hx1, hx2, ?_⟩
  · rintro ⟨e, he, h0⟩
    rcases hMor with h | h
    · have := hMax e he
      exact ⟨e, he, by rw [h] at this ⊢; exact le_antisymm h0 this⟩
    · exact h
  · intro o ho
    rw [hobs] at ho
    rcases List.mem_append.1 ho with h | h
    · simpa using (List.mem_filter.1 h).2
    · simp only [List.mem_singleton] at h
      rw [h]; exact hnew

theorem spawnSynchronizedObstacle_spec_witness :
    (startedOfTwo.players ≠ [] ∧ (0 : ℚ) ≤ 1 / 2 ∧ (1 / 2 : ℚ) < 1) ∧
    ∃ m, minPlayerX startedOfTwo.players = some m ∧ (∀ e ∈ startedOfTwo.players, m ≤ e.2.x) ∧
      (∃ e ∈ startedOfTwo.players, m = e.2.x) ∧
      0 ≤ maxPlayerX startedOfTwo.players ∧
      (∀ e ∈ startedOfTwo.players, e.2.x ≤ maxPlayerX startedOfTwo.players) ∧
      (maxPlayerX startedOfTwo.players = 0 ∨
        ∃ e ∈ startedOfTwo.players, maxPlayerX startedOfTwo.players = e.2.x) ∧
      ((∃ e ∈ startedOfTwo.players, 0 ≤ e.2.x) →
        ∃ e ∈ startedOfTwo.players, maxPlayerX startedOfTwo.players = e.2.x) ∧
      (startedOfTwo.spawnSynchronizedObstacle 9 (1 / 2) 0).obstacles
        = startedOfTwo.obstacles.filter (fun o => o.x > m - 500)
          ++ [spawnedObstacle startedOfTwo 9 (1 / 2) 0] ∧
      maxPlayerX startedOfTwo.players + 800 ≤ (spawnedObstacle startedOfTwo 9 (1 / 2) 0).x ∧
      (spawnedObstacle startedOfTwo 9 (1 / 2) 0).x < maxPlayerX startedOfTwo.players + 1000 ∧
      ∀ o ∈ (startedOfTwo.spawnSynchronizedObstacle 9 (1 / 2) 0).obstacles, o.x > m - 500 :=
  ⟨⟨by decide!, by norm_num, by norm_num⟩,
   spawnSynchronizedObstacle_spec startedOfTwo 9 (1 / 2) 0 (by decide!) (by norm_num)
     (by norm_num)⟩

/-! ## Lobby codes (C27) -/

theorem digitChar_isDigit (d : ℕ) (h : d < 10) : (Nat.digitChar d).isDigit = true := by
  interval_cases d <;> decide

theorem digitChar_ne_zero (d : ℕ) (h0 : 0 < d) (h : d < 10) : Nat.digitChar d ≠ '0' := by
  interval_cases d <;> decide

/-- The decimal digits of a number from 100000 to 999999. -/
theorem toDigits_six (n : ℕ) (h1 : 100000 ≤ n) (h2 : n ≤ 999999) :
    Nat.toDigits 10 n =
      [Nat.digitChar (n / 100000), Nat.digitChar (n / 10000 % 10),
        Nat.digitChar (n / 1000 % 10), Nat.digitChar (n / 100 % 10),
        Nat.digitChar (n / 10 % 10), Nat.digitChar (n % 10)] := by
  obtain ⟨k, rfl⟩ : ∃ k, n = k + 5 := ⟨n - 5, by omega⟩
  have e1 : (k + 5) / 10 ≠ 0 := by omega
  have e2 : (k + 5) / 10 / 10 ≠ 0 := by omega
  have e3 : (k + 5) / 10 / 10 / 10 ≠ 0 := by omega
  have e4 : (k + 5) / 10 / 10 / 10 / 10 ≠ 0 := by omega
  have e5 : (k + 5) / 10 / 10 / 10 / 10 / 10 ≠ 0 := by omega
  have e6 : (k + 5) / 10 / 10 / 10 / 10 / 10 / 10 = 0 := by omega
  have d5 : (k + 5) / 10 / 10 / 10 / 10 / 10 % 10 = (k + 5) / 100000 := by omega
  have d4 : (k + 5) / 10 / 10 / 10 / 10 % 10 = (k + 5) / 10000 % 10 := by omega
  have d3 : (k + 5) / 10 / 10 / 10 % 10 = (k + 5) / 1000 % 10 := by omega
  have d2 : (k + 5) / 10 / 10 % 10 = (k + 5) / 100 % 10 := by omega
  show Nat.toDigitsCore 10 (k + 5 + 1) (k + 5) [] = _
  simp only [Nat.toDigitsCore, e1, e2, e3, e4, e5, e6, if_false, if_true, d5, d4, d3, d2]

theorem floor_code_range (r : ℚ) (h0 : 0 ≤ r) (h1 : r < 1) :
    100000 ≤ Rat.floor (100000 + r * 900000) ∧ Rat.floor (100000 + r * 900000) ≤ 999999 := by
  constructor
  · rw [Rat.le_floor]; push_cast; nlinarith
  · have : ¬ (1000000 ≤ Rat.floor (100000 + r * 900000)) := by
      rw [Rat.le_floor]; push_cast; nlinarith
    omega

/-- C27: for a draw r in [0, 1) `generateLobbyCode` returns the decimal string
of the integer floor(100000 + r * 900000), which lies in 100000..999999; the
string has exactly 6 characters, all decimal digits, and does not start with
0. -/
theorem generateLobbyCode_six_digits (r : ℚ) (h0 : 0 ≤ r) (h1 : r < 1) :
    ∃ n : ℕ, 100000 ≤ n ∧ n ≤ 999999 ∧ Rat.floor (100000 + r * 900000) = (n : ℤ) ∧
      generateLobbyCode r = toString n ∧
      (generateLobbyCode r).length = 6 ∧
      (∀ c ∈ (generateLobbyCode r).toList, c.isDigit = true) ∧
      (generateLobbyCode r).toList.head? ≠ some '0' := by
  obtain ⟨hlo, hhi⟩ := floor_code_range r h0 h1
  obtain ⟨n, hn⟩ : ∃ n : ℕ, Rat.floor (100000 + r * 900000) = (n : ℤ) :=
    ⟨(Rat.floor (100000 + r * 900000)).toNat, (Int.toNat_of_nonneg (by omega)).symm⟩
  have hn1 : 100000 ≤ n := by omega
  have hn2 : n ≤ 999999 := by omega
  have hcode : generateLobbyCode r = toString n := by
    unfold generateLobbyCode
    rw [hn]
    rfl
  have hstr : generateLobbyCode r = String.mk (Nat.toDigits 10 n) := by
    rw [hcode]; rfl
  refine ⟨n, hn1, hn2, hn, hcode, ?_, ?_, ?_⟩
  · rw [hstr, toDigits_six n hn1 hn2]
    rfl
  · intro c hc
    rw [hstr, toDigits_six n hn1 hn2] at hc
    simp only [String.toList, List.mem_cons, List.mem_singleton, List.not_mem_nil,
      or_false] at hc
    rcases hc with h | h | h | h | h | h <;> rw [h] <;> apply digitChar_isDigit <;> omega
  · rw [hstr, toDigits_six n hn1 hn2]
    simp only [String.toList, List.head?_cons, ne_eq, Option.some.injEq]
    exact digitChar_ne_zero _ (by omega) (by omega)

theorem generateLobbyCode_six_digits_witness :
    ((0 : ℚ) ≤ 23456 / 900000 ∧ (23456 / 900000 : ℚ) < 1) ∧
    ∃ n : ℕ, 100000 ≤ n ∧ n ≤ 999999 ∧
      Rat.floor (100000 + (23456 / 900000 : ℚ) * 900000) = (n : ℤ) ∧
      generateLobbyCode (23456 / 900000) = toString n ∧
      (generateLobbyCode (23456 / 900000)).length = 6 ∧
      (∀ c ∈ (generateLobbyCode (23456 / 900000)).toList, c.isDigit = true) ∧
      (generateLobbyCode (23456 / 900000)).toList.head? ≠ some '0' :=
  ⟨⟨by norm_num, by norm_num⟩,
   generateLobbyCode_six_digits (23456 / 900000) (by norm_num) (by norm_num)⟩

/-! ## Player colours (C23) -/

/-- The colours of the roster in join order. -/
theorem colours_joinAll (joins : List (String × String × ℚ)) :
    ∀ l : GameLobby, (∀ j ∈ joins, mapGet l.players j.1 = none) →
      (joins.map (fun j => j.1)).Nodup →
      (mapValues (joinAll l joins).players).map (fun p => p.color)
        = (mapValues l.players).map (fun p => p.color) ++
          (List.range joins.length).map
            (fun i => playerColors.getD ((l.players.length + i) % playerColors.length) "") := by
  induction joins with
  | nil => intro l _ _; simp [joinAll]
  | cons j joins ih =>
    intro l hfree hnodup
    have hj : mapGet l.players j.1 = none := hfree j (List.mem_cons_self _ _)
    rw [List.map_cons, List.nodup_cons] at hnodup
    have hplayers : (l.addPlayer j.1 j.2.1 false j.2.2).players
        = l.players ++ [(j.1, newPlayer l.players.length j.1 j.2.1 false j.2.2)] := by
      simp [GameLobby.addPlayer, mapSet_of_mapGet_none _ _ _ hj]
    have hfree1 : ∀ j1 ∈ joins, mapGet (l.addPlayer j.1 j.2.1 false j.2.2).players j1.1 = none := by
      intro j1 hj1
      have hne : j1.1 ≠ j.1 := fun h => hnodup.1 (List.mem_map.2 ⟨j1, hj1, h⟩)
      simp only [GameLobby.addPlayer]
      rw [mapGet_mapSet_ne _ _ _ _ hne]
      exact hfree j1 (List.mem_cons_of_mem _ hj1)
    have h := ih (l.addPlayer j.1 j.2.1 false j.2.2) hfree1 hnodup.2
    have hstep : joinAll l (j :: joins) = joinAll (l.addPlayer j.1 j.2.1 false j.2.2) joins := rfl
    rw [hstep, h, hplayers]
    simp only [mapValues, List.map_append, List.map_cons, List.map_nil, List.length_append,
      List.length_cons, List.length_nil, List.append_assoc, List.singleton_append]
    congr 1
    rw [List.range_succ_eq_map, List.map_cons, List.map_map]
    simp [newPlayer, Function.comp_def, Nat.add_assoc, Nat.add_comm 1]

theorem palette_prefix_nodup (n : ℕ) (h : n ≤ 5) :
    (playerColors.getD (0 % playerColors.length) "" ::
      (List.range n).map
        (fun i => playerColors.getD ((1 + i) % playerColors.length) "")).Nodup := by
  interval_cases n <;> decide

/-- C23 as stated fails: Alice creates the lobby, Bob joins, Alice disconnects
and Carol joins.  The roster of two is Bob, Carol, and both have the second
colour of the palette. -/
theorem colour_repeats_after_disconnect :
    (mapGet (run Server.empty
        [ Event.createLobby "a" "Alice" (23456 / 900000) 1,
          Event.joinLobby "b" "123456" "Bob" 2,
          Event.disconnect "a",
          Event.joinLobby "c" "123456" "Carol" 3 ]).lobbies "123456").map
        (fun l => l.players.map (fun e => (e.1, e.2.color)))
      = some [("b", "#4ECDC4"), ("c", "#4ECDC4")] := by
  decide!

/-- C23, amended: `addPlayer` gives the new player the palette colour at
index roster size mod 6.  In a lobby built by createLobby and joinLobby alone,
by pairwise different connections and with at most 6 players, the players'
colours are pairwise distinct. -/
theorem colours_distinct_without_disconnect :
    (∀ (l : GameLobby) (k n : String) (isHost : Bool) (now : ℚ),
      ∃ p, mapGet (l.addPlayer k n isHost now).players k = some p ∧
        p.color = playerColors.getD (l.players.length % 6) "") ∧
    (∀ (code hostId hostName : String) (now : ℚ) (joins : List (String × String × ℚ)),
      (hostId :: joins.map (fun j => j.1)).Nodup → joins.length + 1 ≤ 6 →
      (builtLobby code hostId hostName now joins).players.length = joins.length + 1 ∧
      ((mapValues (builtLobby code hostId hostName now joins).players).map
        (fun p => p.color)).Nodup) := by
  constructor
  · intro l k n isHost now
    refine ⟨newPlayer l.players.length k n isHost now, ?_, rfl⟩
    simp [GameLobby.addPlayer, mapGet_mapSet_self]
  · intro code hostId hostName now joins hnodup hlen
    rw [List.nodup_cons] at hnodup
    have hfree : ∀ j ∈ joins,
        mapGet (GameLobby.new code hostId hostName now).players j.1 = none := by
      intro j hj
      have hne : hostId ≠ j.1 := fun h => hnodup.1 (List.mem_map.2 ⟨j, hj, h.symm⟩)
      simp [GameLobby.new, GameLobby.addPlayer, mapSet, mapGet, hne]
    have h := colours_joinAll joins (GameLobby.new code hostId hostName now) hfree hnodup.2
    have hcol : (mapValues (builtLobby code hostId hostName now joins).players).map
        (fun p => p.color)
        = playerColors.getD (0 % playerColors.length) "" ::
          (List.range joins.length).map
            (fun i => playerColors.getD ((1 + i) % playerColors.length) "") := by
      unfold builtLobby
      rw [h]
      simp [GameLobby.new, GameLobby.addPlayer, mapSet, mapValues, newPlayer]
    constructor
    · have := congrArg List.length hcol
      simpa [mapValues, Nat.add_comm] using this
    · rw [hcol]
      exact palette_prefix_nodup joins.length (by omega)

theorem colours_distinct_without_disconnect_witness :
    (("a" :: [("b", "Bob", (2 : ℚ)), ("c", "Carol", 3)].map (fun j => j.1)).Nodup ∧
      [("b", "Bob", (2 : ℚ)), ("c", "Carol", 3)].length + 1 ≤ 6) ∧
    (builtLobby "123456" "a" "Alice" 1 [("b", "Bob", 2), ("c", "Carol", 3)]).players.length
      = [("b", "Bob", (2 : ℚ)), ("c", "Carol", 3)].length + 1 ∧
    ((mapValues (builtLobby "123456" "a" "Alice" 1
        [("b", "Bob", 2), ("c", "Carol", 3)]).players).map (fun p => p.color)).Nodup :=
  ⟨⟨by decide, by decide⟩,
   colours_distinct_without_disconnect.2 "123456" "a" "Alice" 1
     [("b", "Bob", 2), ("c", "Carol", 3)] (by decide) (by decide)⟩

/-! ## Directory and rosters (C28) -/

theorem mapGet_mapSet {α : Type} (m : List (String × α)) (k c : String) (v : α) :
    mapGet (mapSet m k v) c = if c = k then some v else mapGet m c := by
  split_ifs with h
  · rw [h, mapGet_mapSet_self]
  · exact mapGet_mapSet_ne m k c v h

theorem mapGet_mapDelete {α : Type} (m : List (String × α)) (k c : String) :
    mapGet (mapDelete m k) c = if c = k then none else mapGet m c := by
  split_ifs with h
  · rw [h, mapGet_mapDelete_self]
  · exact mapGet_mapDelete_ne m k c h

theorem mem_mapKeys_mapSet_iff {α : Type} (m : List (String × α)) (k : String) (v : α)
    (c : String) : c ∈ mapKeys (mapSet m k v) ↔ c ∈ mapKeys m ∨ c = k := by
  induction m with
  | nil => simp [mapSet, mapKeys]
  | cons e m ih =>
    obtain ⟨k0, w⟩ := e
    have hcons : ∀ (x : String × α) (xs : List (String × α)),
        mapKeys (x :: xs) = x.1 :: mapKeys xs := fun _ _ => rfl
    unfold mapSet
    split_ifs with hk
    · simp only [hcons, List.mem_cons]
      constructor
      · intro h; exact Or.inl h
      · rintro (h | h)
        · exact h
        · exact Or.inl (h.trans hk.symm)
    · simp only [hcons, List.mem_cons, ih]
      tauto

theorem mem_mapKeys_mapDelete_iff {α : Type} (m : List (String × α)) (k c : String) :
    c ∈ mapKeys (mapDelete m k) ↔ c ∈ mapKeys m ∧ c ≠ k := by
  induction m with
  | nil => simp [mapDelete, mapKeys]
  | cons e m ih =>
    obtain ⟨k0, w⟩ := e
    have hcons : ∀ (x : String × α) (xs : List (String × α)),
        mapKeys (x :: xs) = x.1 :: mapKeys xs := fun _ _ => rfl
    unfold mapDelete
    split_ifs with hk
    · simp only [ih, hcons, List.mem_cons]
      constructor
      · rintro ⟨h1, h2⟩; exact ⟨Or.inr h1, h2⟩
      · rintro ⟨h1 | h1, h2⟩
        · exact absurd (h1.trans hk) h2
        · exact ⟨h1, h2⟩
    · simp only [hcons, List.mem_cons, ih]
      constructor
      · rintro (h | ⟨h1, h2⟩)
        · exact ⟨Or.inl h, by rw [h]; exact hk⟩
        · exact ⟨Or.inr h1, h2⟩
      · rintro ⟨h1 | h1, h2⟩
        · exact Or.inl h1
        · exact Or.inr ⟨h1, h2⟩

theorem mapKeys_removePlayer (l : GameLobby) (k : String) :
    mapKeys (l.removePlayer k).players = mapKeys (mapDelete l.players k) := by
  unfold GameLobby.removePlayer
  split
  · rename_i h; simp [h]
  · rename_i h
    split_ifs <;> simp [h, mapKeys]

theorem agree_createLobby (s : Server) (socketId playerName code : String) (now : ℚ)
    (hs : Agree s) (hsock : mapGet s.players socketId = none)
    (hcode : mapGet s.lobbies code = none) :
    Agree (createLobby s socketId playerName code now).1 := by
  obtain ⟨h1, h2⟩ := hs
  constructor
  · intro conn pd hpd
    simp only [createLobby, mapGet_mapSet] at hpd ⊢
    split_ifs at hpd with hc
    · cases hpd
      simp [hc, GameLobby.new, GameLobby.addPlayer, mapSet, mapKeys]
    · obtain ⟨l, hl, hmem⟩ := h1 conn pd hpd
      have hne : pd.lobbyCode ≠ code := fun h => by rw [h, hcode] at hl; cases hl
      exact ⟨l, by simp [hne, hl], hmem⟩
  · intro c l conn hl hmem
    simp only [createLobby, mapGet_mapSet] at hl ⊢
    split_ifs at hl with hc
    · have hll : GameLobby.new code socketId playerName now = l := Option.some.inj hl
      rw [← hll] at hmem
      have : conn = socketId := by
        simpa [GameLobby.new, GameLobby.addPlayer, mapSet, mapKeys] using hmem
      exact ⟨{ lobbyCode := code, playerId := socketId }, by simp [this], hc.symm⟩
    · obtain ⟨pd, hpd, hcd⟩ := h2 c l conn hl hmem
      have hne : conn ≠ socketId := fun h => by rw [h, hsock] at hpd; cases hpd
      exact ⟨pd, by simp [hne, hpd], hcd⟩

theorem agree_joinLobby (s : Server) (socketId code playerName : String) (now : ℚ)
    (hs : Agree s) (hsock : mapGet s.players socketId = none) :
    Agree (joinLobby s socketId code playerName now).1 := by
  unfold joinLobby
  split
  · exact hs
  · rename_i lobby hlobby
    split_ifs
    · exact hs
    · exact hs
    · obtain ⟨h1, h2⟩ := hs
      constructor
      · intro conn pd hpd
        simp only [mapGet_mapSet] at hpd ⊢
        split_ifs at hpd with hc
        · cases hpd
          simp [GameLobby.addPlayer, mem_mapKeys_mapSet_iff, hc]
        · obtain ⟨l, hl, hmem⟩ := h1 conn pd hpd
          by_cases hcd : pd.lobbyCode = code
          · rw [hcd, hlobby] at hl
            have hll : lobby = l := Option.some.inj hl
            rw [← hll] at hmem
            exact ⟨lobby.addPlayer socketId playerName false now, by simp [hcd], by
              simp [GameLobby.addPlayer, mem_mapKeys_mapSet_iff, hmem]⟩
          · exact ⟨l, by simp [hcd, hl], hmem⟩
      · intro c l conn hl hmem
        simp only [mapGet_mapSet] at hl ⊢
        split_ifs at hl with hc
        · have hll : lobby.addPlayer socketId playerName false now = l := Option.some.inj hl
          rw [← hll] at hmem
          simp only [GameLobby.addPlayer, mem_mapKeys_mapSet_iff] at hmem
          rcases hmem with hmem | hmem
          · obtain ⟨pd, hpd, hcd⟩ := h2 code lobby conn hlobby hmem
            have hne : conn ≠ socketId := fun h => by rw [h, hsock] at hpd; cases hpd
            exact ⟨pd, by simp [hne, hpd], by rw [hcd, hc]⟩
          · exact ⟨{ lobbyCode := code, playerId := socketId }, by simp [hmem], hc.symm⟩
        · obtain ⟨pd, hpd, hcd⟩ := h2 c l conn hl hmem
          have hne : conn ≠ socketId := fun h => by rw [h, hsock] at hpd; cases hpd
          exact ⟨pd, by simp [hne, hpd], hcd⟩

theorem agree_disconnect (s : Server) (socketId : String) (hs : Agree s) :
    Agree (disconnect s socketId).1 := by
  obtain ⟨h1, h2⟩ := hs
  unfold disconnect
  split
  · exact ⟨h1, h2⟩
  · rename_i playerData hpd0
    split
    · rename_i hnone
      obtain ⟨l0, hl0, _⟩ := h1 socketId playerData hpd0
      rw [hnone] at hl0
      cases hl0
    · rename_i lobby hlobby
      have hkeys : ∀ conn, conn ∈ mapKeys (lobby.removePlayer socketId).players ↔
          conn ∈ mapKeys lobby.players ∧ conn ≠ socketId := by
        intro conn
        rw [mapKeys_removePlayer, mem_mapKeys_mapDelete_iff]
      simp only
      constructor
      · intro conn pd hpd
        simp only [mapGet_mapDelete] at hpd
        split_ifs at hpd with hc
        obtain ⟨l, hl, hmem⟩ := h1 conn pd hpd
        by_cases hcd : pd.lobbyCode = playerData.lobbyCode
        · rw [hcd, hlobby] at hl
          have hll : lobby = l := Option.some.inj hl
          rw [← hll] at hmem
          have hin : conn ∈ mapKeys (lobby.removePlayer socketId).players :=
            (hkeys conn).2 ⟨hmem, hc⟩
          have hlen : ¬ (lobby.removePlayer socketId).players.length = 0 := by
            intro h0
            rw [List.length_eq_zero.1 h0] at hin
            simp [mapKeys] at hin
          exact ⟨lobby.removePlayer socketId, by simp [hlen, hcd, mapGet_mapSet], hin⟩
        · refine ⟨l, ?_, hmem⟩
          split_ifs
          · simp [mapGet_mapDelete, hcd, hl]
          · simp [mapGet_mapSet, hcd, hl]
      · intro c l conn hl hmem
        by_cases hcd : c = playerData.lobbyCode
        · split_ifs at hl with hlen
          · rw [hcd, mapGet_mapDelete_self] at hl
            cases hl
          · rw [hcd, mapGet_mapSet_self] at hl
            have hll : lobby.removePlayer socketId = l := Option.some.inj hl
            rw [← hll] at hmem
            obtain ⟨hmem1, hne⟩ := (hkeys conn).1 hmem
            obtain ⟨pd, hpd, hcode⟩ := h2 _ lobby conn hlobby hmem1
            exact ⟨pd, by simp [mapGet_mapDelete, hne, hpd], by rw [hcode, hcd]⟩
        · have hl1 : mapGet s.lobbies c = some l := by
            split_ifs at hl
            · simpa [mapGet_mapDelete, hcd] using hl
            · simpa [mapGet_mapSet, hcd] using hl
          obtain ⟨pd, hpd, hcode⟩ := h2 c l conn hl1 hmem
          have hne : conn ≠ socketId := by
            intro h
            rw [h, hpd0] at hpd
            cases hpd
            exact hcd hcode.symm
          exact ⟨pd, by simp [mapGet_mapDelete, hne, hpd], hcode⟩

theorem agree_step (s : Server) (e : Event) (hs : Agree s) (he : admissible s e) :
    Agree (step s e) := by
  cases e with
  | createLobby socketId playerName r now => exact agree_createLobby s _ _ _ _ hs he.1 he.2
  | joinLobby socketId code playerName now => exact agree_joinLobby s _ _ _ _ hs he
  | disconnect socketId => exact agree_disconnect s _ hs
  | startRace _ _ _ _ => exact absurd he id
  | playerUpdate _ _ _ _ => exact absurd he id
  | shoot _ _ _ _ => exact absurd he id
  | tick _ => exact absurd he id

theorem agree_run (es : List Event) :
    ∀ s : Server, Agree s → admissibleRun s es → Agree (run s es) := by
  induction es with
  | nil => intro s hs _; exact hs
  | cons e es ih => intro s hs h; exact ih _ (agree_step s e hs h.1) h.2

/-- C28 as stated fails: connection a creates lobby 123456 and then creates a
second lobby, 100000.  The directory maps a to 100000 only, yet a is a key of
the roster of 123456; after a disconnects, lobby 123456 is still registered
with a in its roster and a is no longer in the directory. -/
theorem roster_keeps_connection_after_second_createLobby :
    ((mapGet (run Server.empty
        [ Event.createLobby "a" "Alice" (23456 / 900000) 1,
          Event.createLobby "a" "Alice" 0 2 ]).lobbies "123456").map
        (fun l => mapKeys l.players),
      (mapGet (run Server.empty
        [ Event.createLobby "a" "Alice" (23456 / 900000) 1,
          Event.createLobby "a" "Alice" 0 2 ]).players "a").map (fun d => d.lobbyCode))
      = (some ["a"], some "100000") ∧
    ((mapGet (run Server.empty
        [ Event.createLobby "a" "Alice" (23456 / 900000) 1,
          Event.createLobby "a" "Alice" 0 2,
          Event.disconnect "a" ]).lobbies "123456").map (fun l => mapKeys l.players),
      mapGet (run Server.empty
        [ Event.createLobby "a" "Alice" (23456 / 900000) 1,
          Event.createLobby "a" "Alice" 0 2,
          Event.disconnect "a" ]).players "a")
      = (some ["a"], none) := by
  decide!

/-- C28, amended: in every server state reached from the empty server through
createLobby, joinLobby and disconnect events in which a connection creates or
joins a lobby only while it is not in the directory and every created lobby
gets a code that is not registered, a connection is a key of the roster of the
registered lobby with code c if and only if the directory maps it to c. -/
theorem directory_agrees_with_rosters (es : List Event)
    (h : admissibleRun Server.empty es) (c : String) (l : GameLobby) (conn : String)
    (hl : mapGet (run Server.empty es).lobbies c = some l) :
    conn ∈ mapKeys l.players ↔
      ∃ playerData, mapGet (run Server.empty es).players conn = some playerData ∧
        playerData.lobbyCode = c := by
  have hagree : Agree (run Server.empty es) :=
    agree_run es Server.empty
      ⟨fun _ _ h => by simp [Server.empty, mapGet] at h,
       fun _ _ _ h => by simp [Server.empty, mapGet] at h⟩ h
  constructor
  · exact hagree.2 c l conn hl
  · rintro ⟨pd, hpd, hcode⟩
    obtain ⟨l1, hl1, hmem⟩ := hagree.1 conn pd hpd
    rw [hcode, hl] at hl1
    cases hl1
    exact hmem

theorem directory_agrees_with_rosters_witness :
    (admissibleRun Server.empty joinThenLeave ∧
      mapGet (run Server.empty joinThenLeave).lobbies "123456" = some bobAlone) ∧
    ("b" ∈ mapKeys bobAlone.players ↔
      ∃ playerData, mapGet (run Server.empty joinThenLeave).players "b" = some playerData ∧
        playerData.lobbyCode = "123456") :=
  have h1 : mapGet Server.empty.players "a" = none := by decide!
  have h2 : mapGet Server.empty.lobbies (generateLobbyCode (23456 / 900000)) = none := by
    decide!
  have h3 : mapGet (step Server.empty
      (Event.createLobby "a" "Alice" (23456 / 900000) 1)).players "b" = none := by decide!
  have hrun : admissibleRun Server.empty joinThenLeave := ⟨⟨h1, h2⟩, h3, trivial, trivial⟩
  ⟨⟨hrun, by decide!⟩,
   directory_agrees_with_rosters joinThenLeave hrun "123456" bobAlone "b" (by decide!)⟩

/-! ## Damage of a projectile (C21) -/

theorem hitPlayers_fst_eq_map (bullet : Bullet) :
    ∀ (ps : List (String × Player)) (rest : List Bullet),
      (hitPlayers bullet ps rest).1 = ps.map (fun e => (e.1, hitOne bullet e.2)) := by
  intro ps
  induction ps with
  | nil => intro rest; rfl
  | cons e ps ih =>
    intro rest
    obtain ⟨k0, player⟩ := e
    unfold hitPlayers
    by_cases hid : player.id = bullet.playerId
    · simp [hid, hitOne, ih]
    · by_cases hc : checkCollision bullet player = true
      · by_cases hz : player.health ≤ PVP_DAMAGE <;> simp [hid, hc, hz, hitOne, ih]
      · simp [hid, hc, hitOne, ih]

theorem updateBullets_fst_eq_map :
    ∀ (bs : List Bullet) (ps : List (String × Player)),
      (updateBullets bs ps).1 = ps.map (fun e => (e.1, damageAll bs e.2)) := by
  intro bs
  induction bs with
  | nil => intro ps; simp [updateBullets, damageAll]
  | cons b bs ih =>
    intro ps
    unfold updateBullets
    simp only
    split_ifs with hfar
    · rw [ih]
      simp [damageAll, hfar]
    · rw [hitPlayers_fst_eq_map, ih, List.map_map]
      simp [damageAll, hfar, Function.comp_def]

theorem hitOne_frame (bullet : Bullet) (p : Player) :
    (hitOne bullet p).id = p.id ∧ (hitOne bullet p).x = p.x ∧ (hitOne bullet p).y = p.y := by
  unfold hitOne handlePlayerKilled
  split_ifs <;> simp

theorem damageAll_frame (bs : List Bullet) (p : Player) :
    (damageAll bs p).id = p.id ∧ (damageAll bs p).x = p.x ∧ (damageAll bs p).y = p.y := by
  induction bs with
  | nil => simp [damageAll]
  | cons b bs ih =>
    unfold damageAll
    split_ifs
    · exact ih
    · obtain ⟨h1, h2, h3⟩ := hitOne_frame (advanceBullet b) (damageAll bs p)
      exact ⟨h1.trans ih.1, h2.trans ih.2.1, h3.trans ih.2.2⟩

theorem checkCollision_of_frame (bullet : Bullet) (p q : Player) (hx : q.x = p.x)
    (hy : q.y = p.y) : checkCollision bullet q = checkCollision bullet p := by
  simp [checkCollision, hx, hy]

theorem hitOne_health_range (bullet : Bullet) (p : Player) (h0 : 0 ≤ p.health)
    (h1 : p.health ≤ 100) : 0 ≤ (hitOne bullet p).health ∧ (hitOne bullet p).health ≤ 100 := by
  unfold hitOne handlePlayerKilled PVP_DAMAGE
  split_ifs with _ _ hz
  · exact ⟨h0, h1⟩
  · simp
  · simp only
    exact ⟨le_of_lt (not_le.1 hz), by linarith⟩
  · exact ⟨h0, h1⟩

theorem damageAll_health_range (bs : List Bullet) (p : Player) (h0 : 0 ≤ p.health)
    (h1 : p.health ≤ 100) : 0 ≤ (damageAll bs p).health ∧ (damageAll bs p).health ≤ 100 := by
  induction bs with
  | nil => exact ⟨h0, h1⟩
  | cons b bs ih =>
    unfold damageAll
    split_ifs
    · exact ih
    · exact hitOne_health_range _ _ ih.1 ih.2

/-- A bullet that is out of range, owned by the player, or not overlapping the
player leaves the player as it is. -/
theorem damageAll_unchanged (bs : List Bullet) (p : Player)
    (h : ∀ b ∈ bs, (advanceBullet b).x > 2000 ∨ p.id = b.playerId ∨
      checkCollision (advanceBullet b) p = false) : damageAll bs p = p := by
  induction bs with
  | nil => rfl
  | cons b bs ih =>
    have ih1 := ih (fun b1 hb1 => h b1 (List.mem_cons_of_mem _ hb1))
    unfold damageAll
    rw [ih1]
    split_ifs with hfar
    · rfl
    · rcases h b (List.mem_cons_self _ _) with h1 | h1 | h1
      · exact absurd h1 hfar
      · simp [hitOne, advanceBullet, h1]
      · simp [hitOne, h1]

theorem damageAll_append (pre tail : List Bullet) (p : Player) :
    damageAll (pre ++ tail) p = damageAll pre (damageAll tail p) := by
  induction pre with
  | nil => rfl
  | cons b pre ih =>
    show damageAll (b :: (pre ++ tail)) p = damageAll (b :: pre) (damageAll tail p)
    unfold damageAll
    rw [ih]

/-- A bullet that hits exactly one entry of the roster is spliced out once. -/
theorem hitPlayers_snd_of_one_hit (bullet : Bullet) (before after : List (String × Player))
    (k : String) (p : Player) (rest : List Bullet)
    (hmiss : ∀ e ∈ before ++ after, e.2.id = bullet.playerId ∨
      checkCollision bullet e.2 = false)
    (hid : p.id ≠ bullet.playerId) (hc : checkCollision bullet p = true) :
    (hitPlayers bullet (before ++ (k, p) :: after) rest).2 = rest.drop 1 := by
  have hmissAfter : ∀ e ∈ after, e.2.id ≠ bullet.playerId →
      checkCollision bullet e.2 = false := fun e he hne =>
    (hmiss e (List.mem_append_right _ he)).resolve_left hne
  induction before with
  | nil =>
    show (hitPlayers bullet ((k, p) :: after) rest).2 = rest.drop 1
    unfold hitPlayers
    simp only [hid, hc, if_false, if_true, hitPlayers_miss bullet after _ hmissAfter]
  | cons e before ih =>
    obtain ⟨k0, player⟩ := e
    have ih1 := ih (fun e1 he1 => hmiss e1 (by
      rcases List.mem_append.1 he1 with h | h
      · exact List.mem_append_left _ (List.mem_cons_of_mem _ h)
      · exact List.mem_append_right _ h))
    have hhead := hmiss (k0, player) (List.mem_append_left _ (List.mem_cons_self _ _))
    show (hitPlayers bullet ((k0, player) :: (before ++ (k, p) :: after)) rest).2 = _
    unfold hitPlayers
    by_cases hid0 : player.id = bullet.playerId
    · simp only [hid0, if_true]
      exact ih1
    · have hc0 : checkCollision bullet player = false := hhead.resolve_left hid0
      simp only [hid0, hc0, if_false, Bool.false_eq_true]
      exact ih1

theorem updateBullets_snd_append (pre tail : List Bullet) (ps : List (String × Player)) :
    ∀ x ∈ (updateBullets (pre ++ tail) ps).2,
      (∃ b ∈ pre, x = advanceBullet b) ∨ x ∈ (updateBullets tail ps).2 := by
  induction pre with
  | nil => intro x hx; exact Or.inr hx
  | cons b pre ih =>
    intro x hx
    have hx0 : x ∈ (updateBullets (b :: (pre ++ tail)) ps).2 := hx
    unfold updateBullets at hx0
    simp only at hx0
    have key : x = advanceBullet b ∨ x ∈ (updateBullets (pre ++ tail) ps).2 := by
      split_ifs at hx0
      · exact Or.inr hx0
      · exact List.mem_cons.1 (hitPlayers_snd_subset _ _ _ x hx0)
    rcases key with h | h
    · exact Or.inl ⟨b, List.mem_cons_self _ _, h⟩
    · rcases ih x h with ⟨b1, hb1, h1⟩ | h1
      · exact Or.inl ⟨b1, List.mem_cons_of_mem _ hb1, h1⟩
      · exact Or.inr h1

theorem updateBullets_cons_in_range (b : Bullet) (bs : List Bullet)
    (ps : List (String × Player)) (h : ¬ (advanceBullet b).x > 2000) :
    updateBullets (b :: bs) ps
      = hitPlayers (advanceBullet b) (updateBullets bs ps).1
          (advanceBullet b :: (updateBullets bs ps).2) := by
  have hdef : updateBullets (b :: bs) ps
      = (if (advanceBullet b).x > 2000 then ((updateBullets bs ps).1, (updateBullets bs ps).2)
         else hitPlayers (advanceBullet b) (updateBullets bs ps).1
          (advanceBullet b :: (updateBullets bs ps).2)) := rfl
  rw [hdef, if_neg h]

/-- C21 as stated fails: two projectiles of the host each overlap exactly one
non-owner player, Bob, whose health is 100; after the tick Bob's health is 0,
not 100 - 50. -/
theorem two_projectiles_kill_full_health :
    twoShotsAtBob.bullets.map (fun b => (b.playerId, (advanceBullet b).x, b.y))
      = [("a", 100, 210), ("a", 100, 210)] ∧
    twoShotsAtBob.players.map
        (fun e => (e.1, e.2.health,
          twoShotsAtBob.bullets.map (fun b => checkCollision (advanceBullet b) e.2)))
      = [("a", 100, [true, true]), ("b", 100, [true, true])] ∧
    (twoShotsAtBob.updateGameObjects calmTick).players.map (fun e => (e.1, e.2.health))
      = [("a", 100), ("b", 0)] := by
  decide!

/-- C21, amended: let a projectile of the list, still in range after its
advance, overlap exactly one player other than its owner, with health h, and
let no other projectile of the list hit that player in this tick.  After the
tick that player's health is h - 50 if h > 50 and 0 otherwise, the rest of the
roster keeps its keys and order, and the projectile (identified by its id) is
not in the list any more.  A tick keeps every health that is within 0..100
within 0..100. -/
theorem one_hit_damage_and_health_range :
    (∀ (l : GameLobby) (env : TickEnv) (pre post : List Bullet) (b : Bullet)
      (before after : List (String × Player)) (k : String) (p : Player),
      l.bullets = pre ++ b :: post → l.players = before ++ (k, p) :: after →
      (advanceBullet b).x ≤ 2000 →
      p.id ≠ b.playerId → checkCollision (advanceBullet b) p = true →
      (∀ e ∈ before ++ after, e.2.id = b.playerId ∨
        checkCollision (advanceBullet b) e.2 = false) →
      (∀ b1 ∈ pre ++ post, (advanceBullet b1).x > 2000 ∨ p.id = b1.playerId ∨
        checkCollision (advanceBullet b1) p = false) →
      (∀ b1 ∈ pre ++ post, b1.id ≠ b.id) →
      (∃ before1 after1 p1,
        (l.updateGameObjects env).players = before1 ++ (k, p1) :: after1 ∧
        mapKeys before1 = mapKeys before ∧ mapKeys after1 = mapKeys after ∧
        p1.health = (if p.health > 50 then p.health - 50 else 0)) ∧
      (∀ b1 ∈ (l.updateGameObjects env).bullets, b1.id ≠ b.id)) ∧
    (∀ (l : GameLobby) (env : TickEnv),
      (∀ e ∈ l.players, 0 ≤ e.2.health ∧ e.2.health ≤ 100) →
      ∀ e ∈ (l.updateGameObjects env).players, 0 ≤ e.2.health ∧ e.2.health ≤ 100) := by
  constructor
  · intro l env pre post b before after k p hbs hps hrange hid hc hmiss hothers hids
    have hpost : damageAll post p = p :=
      damageAll_unchanged post p (fun b1 hb1 => hothers b1 (List.mem_append_right _ hb1))
    have hhit : hitOne (advanceBullet b) p
        = (if p.health - PVP_DAMAGE ≤ 0 then
            handlePlayerKilled { p with health := p.health - PVP_DAMAGE }
          else { p with health := p.health - PVP_DAMAGE }) := by
      have hidb : p.id ≠ (advanceBullet b).playerId := hid
      unfold hitOne
      rw [if_neg hidb, if_pos hc]
    have hframe := hitOne_frame (advanceBullet b) p
    have hpre : damageAll pre (hitOne (advanceBullet b) p) = hitOne (advanceBullet b) p := by
      apply damageAll_unchanged
      intro b1 hb1
      rcases hothers b1 (List.mem_append_left _ hb1) with h | h | h
      · exact Or.inl h
      · exact Or.inr (Or.inl (hframe.1.trans h))
      · exact Or.inr (Or.inr (by
          rw [checkCollision_of_frame _ p _ hframe.2.1 hframe.2.2]; exact h))
    have hall : damageAll (pre ++ b :: post) p = hitOne (advanceBullet b) p := by
      rw [damageAll_append]
      have : damageAll (b :: post) p = hitOne (advanceBullet b) p := by
        unfold damageAll
        rw [if_neg (not_lt.2 hrange), hpost]
      rw [this, hpre]
    constructor
    · refine ⟨before.map (fun e => (e.1, damageAll l.bullets e.2)),
        after.map (fun e => (e.1, damageAll l.bullets e.2)), damageAll l.bullets p, ?_, ?_, ?_, ?_⟩
      · rw [updateGameObjects_players, updateBullets_fst_eq_map, hps]
        simp
      · simp [mapKeys, Function.comp_def]
      · simp [mapKeys, Function.comp_def]
      · rw [hbs, hall, hhit]
        unfold handlePlayerKilled PVP_DAMAGE
        by_cases h50 : p.health > 50
        · rw [if_neg (by linarith), if_pos h50]
        · rw [if_pos (by linarith), if_neg h50]
    · intro b1 hb1
      rw [updateGameObjects_bullets, hbs] at hb1
      have hadv : ∀ b2 : Bullet, (advanceBullet b2).id = b2.id := fun b2 => rfl
      rcases updateBullets_snd_append pre (b :: post) l.players b1 hb1 with ⟨b2, hb2, h⟩ | h
      · rw [h, hadv]
        exact hids b2 (List.mem_append_left _ hb2)
      · have hroster : (updateBullets post l.players).1
            = before.map (fun e => (e.1, damageAll post e.2))
              ++ (k, damageAll post p) :: after.map (fun e => (e.1, damageAll post e.2)) := by
          rw [updateBullets_fst_eq_map, hps]
          simp
        have hmiss1 : ∀ e ∈ before.map (fun e => (e.1, damageAll post e.2))
              ++ after.map (fun e => (e.1, damageAll post e.2)),
            e.2.id = (advanceBullet b).playerId ∨
              checkCollision (advanceBullet b) e.2 = false := by
          intro e he
          have : ∃ e0 ∈ before ++ after, e = (e0.1, damageAll post e0.2) := by
            rcases List.mem_append.1 he with h1 | h1
            · obtain ⟨e0, he0, h2⟩ := List.mem_map.1 h1
              exact ⟨e0, List.mem_append_left _ he0, h2.symm⟩
            · obtain ⟨e0, he0, h2⟩ := List.mem_map.1 h1
              exact ⟨e0, List.mem_append_right _ he0, h2.symm⟩
          obtain ⟨e0, he0, rfl⟩ := this
          obtain ⟨f1, f2, f3⟩ := damageAll_frame post e0.2
          rcases hmiss e0 he0 with h1 | h1
          · exact Or.inl (f1.trans h1)
          · exact Or.inr (by rw [checkCollision_of_frame _ e0.2 _ f2 f3]; exact h1)
        have hsnd : (updateBullets (b :: post) l.players).2 = (updateBullets post l.players).2 := by
          rw [updateBullets_cons_in_range b post l.players (not_lt.2 hrange), hroster]
          rw [hitPlayers_snd_of_one_hit _ _ _ k (damageAll post p) _ hmiss1
            (by rw [hpost]; exact hid) (by rw [hpost]; exact hc)]
          rfl
        rw [hsnd] at h
        obtain ⟨b2, hb2, h2, _⟩ := updateBullets_snd_advanced post l.players b1 h
        rw [h2, hadv]
        exact hids b2 (List.mem_append_right _ hb2)
  · intro l env hrange e he
    rw [updateGameObjects_players, updateBullets_fst_eq_map] at he
    obtain ⟨e0, he0, rfl⟩ := List.mem_map.1 he
    exact damageAll_health_range _ _ (hrange e0 he0).1 (hrange e0 he0).2

theorem one_hit_damage_and_health_range_witness :
    (shotLobby.bullets = [] ++ firstShot :: [] ∧
      shotLobby.players = [("a", soloPlayer)] ++ ("b", bobAtStart) :: [] ∧
      (advanceBullet firstShot).x ≤ 2000 ∧ bobAtStart.id ≠ firstShot.playerId ∧
      checkCollision (advanceBullet firstShot) bobAtStart = true ∧
      (∀ e ∈ shotLobby.players, 0 ≤ e.2.health ∧ e.2.health ≤ 100)) ∧
    ((∃ before1 after1 p1,
        (shotLobby.updateGameObjects calmTick).players = before1 ++ ("b", p1) :: after1 ∧
        mapKeys before1 = mapKeys [("a", soloPlayer)] ∧ mapKeys after1 = mapKeys ([] : List (String × Player)) ∧
        p1.health = (if bobAtStart.health > 50 then bobAtStart.health - 50 else 0)) ∧
      (∀ b1 ∈ (shotLobby.updateGameObjects calmTick).bullets, b1.id ≠ firstShot.id)) ∧
    (∀ e ∈ (shotLobby.updateGameObjects calmTick).players,
      0 ≤ e.2.health ∧ e.2.health ≤ 100) :=
  ⟨⟨by decide!, by decide!, by decide!, by decide!, by decide!, by decide!⟩,
   one_hit_damage_and_health_range.1 shotLobby calmTick [] [] firstShot [("a", soloPlayer)] []
     "b" bobAtStart (by decide!) (by decide!) (by decide!) (by decide!) (by decide!)
     (by decide!) (by decide!) (by decide!),
   one_hit_damage_and_health_range.2 shotLobby calmTick (by decide!)⟩

end StikMan
